import Mathlib

/-!
# Project64 speed limiter (`CSpeedLimiter`)

A shallow embedding of `Source/Project64-core/N64System/SpeedLimiterClass.cpp`.

* The data members `m_Speed`, `m_BaseSpeed`, `m_Frames`, `m_MicroSecondsPerFrame` are 32-bit
  unsigned machine integers (they are initialised from and compared with `uint32_t` values in the
  source).  They are embedded as natural numbers, and every arithmetic step that can leave the
  range is reduced modulo `2 ^ 32 = 4294967296` explicitly.
* The function-local `static` variables of `Timer_Process` are part of the embedded state.
* Calls to the external collaborators (`SpeedChanged`, `pjutil::Sleep`) are appended to an event
  log carried by the state.
* Operations whose C++ behaviour is undefined on some input (integer division by zero, signed
  overflow, an out-of-range floating-point conversion) return `none` on that input.
-/

namespace Project64

/-! ## Machine integers -/

/-- Conversion of a mathematical integer to `uint32_t` (reduction modulo `2 ^ 32`). -/
def toUInt32 (i : Int) : Nat := (i % 4294967296).toNat

/-- Conversion of a `uint32_t` value to `int`: the same 32 bits read as a signed number. -/
def toInt32 (n : Nat) : Int :=
  if n % 4294967296 < 2147483648 then (n % 4294967296 : Nat)
  else ((n % 4294967296 : Nat) : Int) - 4294967296

/-- Conversion of a `uint64_t` value to `int64_t`: the same 64 bits read as a signed number. -/
def toInt64 (n : Nat) : Int :=
  if n % 18446744073709551616 < 9223372036854775808 then (n % 18446744073709551616 : Nat)
  else ((n % 18446744073709551616 : Nat) : Int) - 18446744073709551616

/-- The values representable in an `int64_t`. -/
def inInt64 (i : Int) : Prop := -9223372036854775808 ≤ i ∧ i ≤ 9223372036854775807

instance (i : Int) : Decidable (inInt64 i) := by
  unfold inInt64; exact inferInstance

/-! ## Floating point

`float` and `double` are the IEEE-754 binary32 and binary64 formats with the default rounding
mode (round to nearest, ties to even).  A floating-point value is embedded as the rational number
it denotes, and every floating-point operation is the exact rational operation followed by
rounding to the format.  Only the significand width is modelled: all quantities handled by
`Timer_Process` lie far inside the exponent range of both formats, so overflow to infinity and
gradual underflow cannot occur. -/

/-- Round a rational to the nearest integer, ties to the even integer. -/
def roundHalfEven (x : ℚ) : Int :=
  if Int.fract x < 1 / 2 then ⌊x⌋
  else if 1 / 2 < Int.fract x then ⌊x⌋ + 1
  else if ⌊x⌋ % 2 = 0 then ⌊x⌋ else ⌊x⌋ + 1

/-- Round a positive rational to the nearest number with a significand of `prec` bits, ties to
even: with `e` the binary exponent of `x` (so `2 ^ e ≤ x < 2 ^ (e + 1)`), the spacing of the
format around `x` is `2 ^ (e - (prec - 1))` and `x` goes to the nearest multiple of it. -/
def roundPos (prec : Nat) (x : ℚ) : ℚ :=
  roundHalfEven (x / 2 ^ (Int.log 2 x - ((prec : Int) - 1)))
    * 2 ^ (Int.log 2 x - ((prec : Int) - 1))

/-- Round a rational to the nearest number with a significand of `prec` bits, ties to even
(sign and magnitude, as IEEE-754 does). -/
def roundNE (prec : Nat) (x : ℚ) : ℚ :=
  if 0 < x then roundPos prec x else if x < 0 then -roundPos prec (-x) else 0

/-- Rounding to `float` (binary32, 24-bit significand). -/
def f32 (x : ℚ) : ℚ := roundNE 24 x

/-- Rounding to `double` (binary64, 53-bit significand). -/
def f64 (x : ℚ) : ℚ := roundNE 53 x

/-- Conversion of a floating-point value to an integer type: truncation toward zero. -/
def truncToInt (x : ℚ) : Int := if 0 ≤ x then ⌊x⌋ else ⌈x⌉

/-- The function `std::round`: nearest integer, halfway cases away from zero. -/
def stdRound (x : ℚ) : Int := if 0 ≤ x then ⌊x + 1 / 2⌋ else ⌈x - 1 / 2⌉

/-! ## Data model -/

/-- The argument of `AlterSpeed`. -/
inductive ESpeedChange where
  | INCREASE_SPEED
  | DECREASE_SPEED
  deriving DecidableEq, Repr

/-- Modelled from the spec: the speed-changed sink `SpeedChanged` (inherited from a base class)
and the sleep primitive `pjutil::Sleep` are external collaborators whose code is not among the
sources.  The spec describes both as one-way calls taking one integer; a call is recorded here as
an event, in program order. -/
inductive Event where
  /-- The call `SpeedChanged(m_Speed)` made with the given value of `m_Speed`. -/
  | SpeedChanged (speed : Nat)
  /-- The call `pjutil::Sleep(ms)`. -/
  | Sleep (ms : Nat)
  deriving DecidableEq, Repr

/-- The array `static int64_t sleepTimes[m_AverageSamples]` (three slots). -/
structure SleepTimes where
  s0 : Int
  s1 : Int
  s2 : Int
  deriving DecidableEq, Repr

/-- Read `sleepTimes[i]` for an index `i < 3`. -/
def SleepTimes.get (a : SleepTimes) (i : Nat) : Int :=
  if i = 0 then a.s0 else if i = 1 then a.s1 else a.s2

/-- Write `sleepTimes[i] = v` for an index `i < 3`. -/
def SleepTimes.set (a : SleepTimes) (i : Nat) (v : Int) : SleepTimes :=
  if i = 0 then { a with s0 := v } else if i = 1 then { a with s1 := v } else { a with s2 := v }

/-- Modelled from the spec: the class declaration (`SpeedLimiterClass.h`) and the class
`HighResTimeStamp` are not among the sources.  The state holds the data members the `.cpp` file
uses, which are the fields of the data model of the spec, the function-local statics of
`Timer_Process`, and the log of calls made to the external collaborators.  The four counters are
`uint32_t`, the type of the constants and arguments they are initialised from and compared with
in the `.cpp` file.  A time stamp is held as the value `GetMicroSeconds()` returns for it, a
`uint64_t` number of microseconds, and a default-constructed time stamp reads zero (the first
test of `Timer_Process` relies on that). -/
structure CSpeedLimiter where
  /-- Member `uint32_t m_Speed`. -/
  m_Speed : Nat
  /-- Member `uint32_t m_BaseSpeed`. -/
  m_BaseSpeed : Nat
  /-- Member `uint32_t m_Frames`. -/
  m_Frames : Nat
  /-- Member `uint32_t m_MicroSecondsPerFrame`. -/
  m_MicroSecondsPerFrame : Nat
  /-- Member `HighResTimeStamp m_LastTime`, as its value in microseconds (`uint64_t`). -/
  m_LastTime : Nat
  /-- Static `bool hasBeenReset` of `Timer_Process`. -/
  hasBeenReset : Bool
  /-- Static `HighResTimeStamp StartFPSTime` of `Timer_Process`, in microseconds. -/
  StartFPSTime : Nat
  /-- Static `uint32_t lastMicrosecondsPerFrame` of `Timer_Process`. -/
  lastMicrosecondsPerFrame : Nat
  /-- Static `int64_t sleepTimes[m_AverageSamples]` of `Timer_Process`. -/
  sleepTimes : SleepTimes
  /-- Static `uint32_t sleepTimesIndex` of `Timer_Process`. -/
  sleepTimesIndex : Nat
  /-- Static `uint32_t lastFrameRateSet` of `Timer_Process`. -/
  lastFrameRateSet : Nat
  /-- Calls made so far to `SpeedChanged` and `pjutil::Sleep`. -/
  events : List Event
  deriving DecidableEq, Repr

/-- Constant `const uint32_t CSpeedLimiter::m_DefaultSpeed = 60`. -/
def m_DefaultSpeed : Nat := 60

/-- Constant `const uint32_t CSpeedLimiter::m_AverageSamples = 3`. -/
def m_AverageSamples : Nat := 3

/-! ## Construction and rate mutation -/

/-- The constructor `CSpeedLimiter::CSpeedLimiter()` (a declaration cannot carry the name of its
own structure here, hence `ctor`).  Its initialiser list sets `m_Frames`, `m_Speed` and
`m_BaseSpeed` only; `m_MicroSecondsPerFrame` is left uninitialised, so its value is whatever the
storage happened to hold, given here by the argument `uninit`.  The time stamp `m_LastTime` is
constructed by default (zero).  The constructor does not touch the statics of `Timer_Process`;
this is the state on the construction of a pacer while no tick has been performed in the process,
in particular of its first pacer: the statics have their static initial values and no call has
been logged.  For a pacer constructed later see `CSpeedLimiter.ctorAfter`. -/
def CSpeedLimiter.ctor (uninit : Nat) : CSpeedLimiter :=
  { m_Speed := m_DefaultSpeed
    m_BaseSpeed := m_DefaultSpeed
    m_Frames := 0
    m_MicroSecondsPerFrame := uninit
    m_LastTime := 0
    hasBeenReset := false
    StartFPSTime := 0
    lastMicrosecondsPerFrame := 0
    sleepTimes := { s0 := 0, s1 := 0, s2 := 0 }
    sleepTimesIndex := 0
    lastFrameRateSet := 0
    events := [] }

/-- The constructor `CSpeedLimiter::CSpeedLimiter()` run when the process is in state `prev`,
after other pacers may have ticked.  The statics of `Timer_Process` belong to the function, not
to the object, and the constructor does not touch them: the new pacer has the data members of a
fresh object (as in `CSpeedLimiter.ctor`) and finds the statics, and the log of calls, as `prev`
left them. -/
def CSpeedLimiter.ctorAfter (prev : CSpeedLimiter) (uninit : Nat) : CSpeedLimiter :=
  { prev with
    m_Speed := m_DefaultSpeed
    m_BaseSpeed := m_DefaultSpeed
    m_Frames := 0
    m_MicroSecondsPerFrame := uninit
    m_LastTime := 0 }

/-- No pacing tick has been performed in the process yet: the statics of `Timer_Process` hold
their static initial values. -/
def CSpeedLimiter.staticsInitial (p : CSpeedLimiter) : Prop :=
  p.hasBeenReset = false ∧ p.StartFPSTime = 0 ∧ p.lastMicrosecondsPerFrame = 0
    ∧ p.sleepTimes = { s0 := 0, s1 := 0, s2 := 0 } ∧ p.sleepTimesIndex = 0
    ∧ p.lastFrameRateSet = 0

instance (p : CSpeedLimiter) : Decidable p.staticsInitial := by
  unfold CSpeedLimiter.staticsInitial
  exact inferInstance

/-- The method `CSpeedLimiter::FixSpeedRatio`: `m_MicroSecondsPerFrame = 1000000 / m_Speed;
m_Frames = 0;`.  The integer division is undefined when `m_Speed` is zero. -/
def CSpeedLimiter.FixSpeedRatio (p : CSpeedLimiter) : Option CSpeedLimiter :=
  if p.m_Speed = 0 then none
  else some { p with m_MicroSecondsPerFrame := 1000000 / p.m_Speed, m_Frames := 0 }

/-- The method `CSpeedLimiter::SetHertz(uint32_t Hertz)`. -/
def CSpeedLimiter.SetHertz (p : CSpeedLimiter) (Hertz : Nat) : Option CSpeedLimiter :=
  CSpeedLimiter.FixSpeedRatio { p with m_Speed := Hertz, m_BaseSpeed := Hertz }

/-- The method `CSpeedLimiter::AlterSpeed(const ESpeedChange SpeedChange)`.  `SpeedFactor` is an
`int32_t`; the compound assignments `m_Speed += k * SpeedFactor` convert the signed product to
`uint32_t` and add modulo `2 ^ 32`. -/
def CSpeedLimiter.AlterSpeed (p : CSpeedLimiter) (SpeedChange : ESpeedChange) :
    Option CSpeedLimiter :=
  let SpeedFactor : Int := if SpeedChange = ESpeedChange.DECREASE_SPEED then -1 else 1
  let speed : Nat :=
    if p.m_Speed ≥ m_DefaultSpeed then
      (p.m_Speed + toUInt32 (10 * SpeedFactor)) % 4294967296
    else if p.m_Speed ≥ 15 then
      (p.m_Speed + toUInt32 (5 * SpeedFactor)) % 4294967296
    else if (p.m_Speed > 1 ∧ SpeedChange = ESpeedChange.DECREASE_SPEED)
        ∨ SpeedChange = ESpeedChange.INCREASE_SPEED then
      (p.m_Speed + toUInt32 (1 * SpeedFactor)) % 4294967296
    else p.m_Speed
  CSpeedLimiter.FixSpeedRatio
    { p with m_Speed := speed, events := p.events ++ [Event.SpeedChanged speed] }

/-- The method `CSpeedLimiter::SetSpeed(int Speed)`. -/
def CSpeedLimiter.SetSpeed (p : CSpeedLimiter) (Speed : Int) : Option CSpeedLimiter :=
  let Speed : Int := if Speed < 1 then 1 else Speed
  let speed : Nat := toUInt32 Speed
  CSpeedLimiter.FixSpeedRatio
    { p with m_Speed := speed, events := p.events ++ [Event.SpeedChanged speed] }

/-- The method `int CSpeedLimiter::GetSpeed() const`. -/
def CSpeedLimiter.GetSpeed (p : CSpeedLimiter) : Int := toInt32 p.m_Speed

/-- The method `int CSpeedLimiter::GetBaseSpeed() const`. -/
def CSpeedLimiter.GetBaseSpeed (p : CSpeedLimiter) : Int := toInt32 p.m_BaseSpeed

/-! ## The pacing tick -/

/-- What one call of `Timer_Process` did: the state it leaves, the flag it returns, the value it
stored through the `FrameRate` pointer (if it stored one), and the values its local variables
`sleepTime`, `elementsForAverage` and `averageSleepUs` took, together with whether the call went
through the anchoring branch. -/
structure TickResult where
  /-- The state after the call. -/
  state : CSpeedLimiter
  /-- The returned `bool`. -/
  reported : Bool
  /-- The value stored into `*FrameRate`, when one was stored. -/
  FrameRate : Option Nat
  /-- Whether the branch of the first `if` (lines 60-67) was taken. -/
  anchored : Bool
  /-- Local `int64_t sleepTime`. -/
  sleepTime : Int
  /-- Local `uint32_t elementsForAverage`. -/
  elementsForAverage : Nat
  /-- Local `int64_t averageSleepUs`. -/
  averageSleepUs : Int
  deriving DecidableEq, Repr

/-- The condition of the first `if` of `Timer_Process` (line 60):
`StartFPSTime.GetMicroSeconds() == 0 || !hasBeenReset ||
lastMicrosecondsPerFrame != m_MicroSecondsPerFrame`. -/
def CSpeedLimiter.needsAnchor (p : CSpeedLimiter) : Bool :=
  decide (p.StartFPSTime = 0) || !p.hasBeenReset
    || decide (p.lastMicrosecondsPerFrame ≠ p.m_MicroSecondsPerFrame)

/-- Lines 60-73 of `Timer_Process`: the anchoring branch or `++m_Frames`, followed by
`lastMicrosecondsPerFrame = m_MicroSecondsPerFrame`. -/
def CSpeedLimiter.anchorStep (p : CSpeedLimiter) (now : Nat) : CSpeedLimiter :=
  if p.needsAnchor then
    { p with
      StartFPSTime := now
      m_LastTime := now
      m_Frames := 0
      lastFrameRateSet := 0
      hasBeenReset := true
      lastMicrosecondsPerFrame := p.m_MicroSecondsPerFrame }
  else
    { p with
      m_Frames := (p.m_Frames + 1) % 4294967296
      lastMicrosecondsPerFrame := p.m_MicroSecondsPerFrame }

/-- Line 75 of `Timer_Process`: `int64_t totalElapsedGameTime = m_MicroSecondsPerFrame *
m_Frames`.  Both operands are `uint32_t`, so the product is formed modulo `2 ^ 32` and only then
widened. -/
def CSpeedLimiter.totalElapsedGameTime (p : CSpeedLimiter) : Int :=
  ((p.m_MicroSecondsPerFrame * p.m_Frames % 4294967296 : Nat) : Int)

/-- Line 76 of `Timer_Process`: `int64_t elapsedRealTime = CurrentFPSTime.GetMicroSeconds() -
StartFPSTime.GetMicroSeconds()`, an unsigned 64-bit difference converted to `int64_t`. -/
def CSpeedLimiter.elapsedRealTime (p : CSpeedLimiter) (now : Nat) : Int :=
  toInt64 ((now + 18446744073709551616 - p.StartFPSTime) % 18446744073709551616)

/-- Lines 80-83 of `Timer_Process`: the value of `maxSleepNeeded*speedFactor`, where
`speedFactor = static_cast<float>(m_Speed) / m_BaseSpeed` and `maxSleepNeeded = 50000`; all
operations are single-precision. -/
def CSpeedLimiter.sleepCeiling (p : CSpeedLimiter) : ℚ :=
  f32 (f32 50000 * f32 (f32 p.m_Speed / f32 p.m_BaseSpeed))

/-- Lines 94-100 of `Timer_Process`: the `double` accumulation `sum += sleepTimes[index]` over
`index < elementsForAverage`, followed by `sum / elementsForAverage`. -/
def averageSleep (a : SleepTimes) (elementsForAverage : Nat) : ℚ :=
  f64 ((List.range elementsForAverage).foldl (fun sum index => f64 (sum + f64 (a.get index))) 0
    / f64 elementsForAverage)

/-- Line 112 of `Timer_Process`: `std::round((m_Frames - lastFrameRateSet)/(fpsInterval/1.0e6))`.
The difference is a `uint32_t` (formed modulo `2 ^ 32`), and both divisions are in `double`. -/
def CSpeedLimiter.measuredRate (p : CSpeedLimiter) (fpsInterval : ℚ) : Int :=
  stdRound (f64 (f64 (((p.m_Frames + 4294967296 - p.lastFrameRateSet) % 4294967296 : Nat) : ℚ)
    / f64 (fpsInterval / f64 1000000)))

/-- The method `bool CSpeedLimiter::Timer_Process(uint32_t * FrameRate)`.  `now` is the value in
microseconds of `CurrentFPSTime` after `SetToNow()` (a `uint64_t`), and `FrameRate` tells whether
the pointer argument is non-null.  The result is `none` where the C++ behaviour is undefined:
signed overflow in `sleepTime`, division by a zero `m_BaseSpeed` or a zero `elementsForAverage`,
and conversion of a floating-point value that does not fit the integer type. -/
def CSpeedLimiter.Timer_Process (p : CSpeedLimiter) (now : Nat) (FrameRate : Bool) :
    Option TickResult :=
  -- lines 60-73
  let p1 := p.anchorStep now
  -- lines 75-77
  let sleepTime : Int := p1.totalElapsedGameTime - p1.elapsedRealTime now
  if ¬ inInt64 sleepTime then none
  else if p1.m_BaseSpeed = 0 then none
  else
    -- lines 79-86
    let p2 : CSpeedLimiter :=
      { p1 with
        hasBeenReset :=
          if sleepTime < -50000 ∨ f32 sleepTime > p1.sleepCeiling then false
          else p1.hasBeenReset }
    -- lines 88-89
    let p3 : CSpeedLimiter :=
      { p2 with
        sleepTimes := p2.sleepTimes.set (p2.sleepTimesIndex % m_AverageSamples) sleepTime
        sleepTimesIndex := (p2.sleepTimesIndex + 1) % 4294967296 }
    -- line 91
    let elementsForAverage : Nat :=
      if p3.sleepTimesIndex > m_AverageSamples then m_AverageSamples else p3.sleepTimesIndex
    -- lines 93-100
    if elementsForAverage = 0 then none
    else if ¬ inInt64 (truncToInt (averageSleep p3.sleepTimes elementsForAverage)) then none
    else
      let averageSleepUs : Int := truncToInt (averageSleep p3.sleepTimes elementsForAverage)
      -- lines 102-106
      let p4 : CSpeedLimiter :=
        { p3 with
          events :=
            if averageSleepUs > 0 ∧ f32 averageSleepUs < p3.sleepCeiling then
              p3.events ++ [Event.Sleep (toUInt32 (Int.tdiv averageSleepUs 1000))]
            else p3.events }
      -- lines 108-118
      let fpsInterval : ℚ :=
        f32 (((now + 18446744073709551616 - p4.m_LastTime) % 18446744073709551616 : Nat) : ℚ)
      if fpsInterval ≥ f32 1000000 then
        if FrameRate = true
            ∧ ¬ (0 ≤ p4.measuredRate fpsInterval ∧ p4.measuredRate fpsInterval < 4294967296) then
          none
        else
          some
            { state := { p4 with m_LastTime := now, lastFrameRateSet := p4.m_Frames }
              reported := true
              FrameRate := if FrameRate = true then some (p4.measuredRate fpsInterval).toNat else none
              anchored := p.needsAnchor
              sleepTime := sleepTime
              elementsForAverage := elementsForAverage
              averageSleepUs := averageSleepUs }
      else
        some
          { state := p4
            reported := false
            FrameRate := none
            anchored := p.needsAnchor
            sleepTime := sleepTime
            elementsForAverage := elementsForAverage
            averageSleepUs := averageSleepUs }

/-! ## Runs -/

/-- One call made by the host on the pacer. -/
inductive Op where
  /-- A call `SetHertz(Hertz)`. -/
  | SetHertz (Hertz : Nat)
  /-- A call `SetSpeed(Speed)`. -/
  | SetSpeed (Speed : Int)
  /-- A call `AlterSpeed(SpeedChange)`. -/
  | AlterSpeed (SpeedChange : ESpeedChange)
  /-- A call `Timer_Process(FrameRate)` made when the clock reads `now` microseconds. -/
  | Timer_Process (now : Nat) (FrameRate : Bool)
  deriving DecidableEq, Repr

/-- The arguments of a call fit their C++ types (`uint32_t Hertz`, `int Speed`), and the clock
reading is below `2 ^ 61` microseconds. -/
def Op.InRange : Op → Prop
  | Op.SetHertz Hertz => Hertz < 4294967296
  | Op.SetSpeed Speed => -2147483648 ≤ Speed ∧ Speed ≤ 2147483647
  | Op.AlterSpeed _ => True
  | Op.Timer_Process now _ => now < 2305843009213693952

/-- Perform one call.  The second component collects the results of the pacing ticks performed
so far, most recent first. -/
def exec (s : CSpeedLimiter × List TickResult) : Op → Option (CSpeedLimiter × List TickResult)
  | Op.SetHertz Hertz => (s.1.SetHertz Hertz).map fun q => (q, s.2)
  | Op.SetSpeed Speed => (s.1.SetSpeed Speed).map fun q => (q, s.2)
  | Op.AlterSpeed SpeedChange => (s.1.AlterSpeed SpeedChange).map fun q => (q, s.2)
  | Op.Timer_Process now FrameRate =>
    (s.1.Timer_Process now FrameRate).map fun r => (r.state, r :: s.2)

/-- Perform a sequence of calls, in order; `none` as soon as one of them is undefined. -/
def run (s : CSpeedLimiter × List TickResult) (ops : List Op) :
    Option (CSpeedLimiter × List TickResult) :=
  ops.foldlM exec s

/-- Well-formed states: the fields hold values of their C++ types, both speeds are positive, the
progress counter does not exceed the number of ticks performed, the recorded time stamps are
below `2 ^ 61` microseconds and the recorded drift samples are at most `2 ^ 62` in magnitude. -/
structure CSpeedLimiter.WF (p : CSpeedLimiter) : Prop where
  speed_pos : 1 ≤ p.m_Speed
  speed_lt : p.m_Speed < 4294967296
  base_pos : 1 ≤ p.m_BaseSpeed
  base_lt : p.m_BaseSpeed < 4294967296
  frames_le : p.m_Frames ≤ p.sleepTimesIndex
  index_lt : p.sleepTimesIndex < 4294967296
  mspf_lt : p.m_MicroSecondsPerFrame < 4294967296
  rateSet_lt : p.lastFrameRateSet < 4294967296
  lastTime_lt : p.m_LastTime < 2305843009213693952
  start_lt : p.StartFPSTime < 2305843009213693952
  s0_bound : |p.sleepTimes.s0| ≤ 4611686018427387904
  s1_bound : |p.sleepTimes.s1| ≤ 4611686018427387904
  s2_bound : |p.sleepTimes.s2| ≤ 4611686018427387904

/-- The effect of a defined pacing tick from state `p` at clock reading `now`, field by field. -/
structure TickSpec (p : CSpeedLimiter) (now : Nat) (FrameRate : Bool) (r : TickResult) :
    Prop where
  anchored : r.anchored = p.needsAnchor
  sleepTime : r.sleepTime
    = (p.anchorStep now).totalElapsedGameTime - ((now : Int) - (p.anchorStep now).StartFPSTime)
  speed : r.state.m_Speed = p.m_Speed
  base : r.state.m_BaseSpeed = p.m_BaseSpeed
  mspf : r.state.m_MicroSecondsPerFrame = p.m_MicroSecondsPerFrame
  lastMspf : r.state.lastMicrosecondsPerFrame = p.m_MicroSecondsPerFrame
  frames : r.state.m_Frames = (p.anchorStep now).m_Frames
  start : r.state.StartFPSTime = (p.anchorStep now).StartFPSTime
  reset : r.state.hasBeenReset
    = if r.sleepTime < -50000 ∨ f32 r.sleepTime > p.sleepCeiling then false else true
  samples : r.state.sleepTimes = p.sleepTimes.set (p.sleepTimesIndex % 3) r.sleepTime
  index : r.state.sleepTimesIndex = p.sleepTimesIndex + 1
  elements : r.elementsForAverage = if p.sleepTimesIndex + 1 > 3 then 3 else p.sleepTimesIndex + 1
  average : r.averageSleepUs = truncToInt (averageSleep r.state.sleepTimes r.elementsForAverage)
  events : r.state.events
    = if r.averageSleepUs > 0 ∧ f32 r.averageSleepUs < p.sleepCeiling then
        p.events ++ [Event.Sleep (toUInt32 (Int.tdiv r.averageSleepUs 1000))]
      else p.events
  reported : r.reported
    = decide (1000000 ≤ (now + 18446744073709551616 - (p.anchorStep now).m_LastTime)
        % 18446744073709551616)
  lastTime : r.state.m_LastTime = if r.reported = true then now else (p.anchorStep now).m_LastTime
  rateSet : r.state.lastFrameRateSet
    = if r.reported = true then (p.anchorStep now).m_Frames
      else (p.anchorStep now).lastFrameRateSet
  rate : r.FrameRate
    = if r.reported = true ∧ FrameRate = true then
        some ((p.anchorStep now).measuredRate
          (f32 (((now + 18446744073709551616 - (p.anchorStep now).m_LastTime)
            % 18446744073709551616 : Nat) : ℚ))).toNat
      else none

/-- The invariant of a run: the state is well formed, `sleepTimesIndex` counts the ticks performed
so far, and for `j < 3` the drift sample of the `j`-th most recent tick sits in slot
`(n - 1 - j) % 3` of `sleepTimes`, where `n` is the number of ticks performed. -/
def RunInv (s : CSpeedLimiter × List TickResult) : Prop :=
  s.1.WF ∧ s.1.sleepTimesIndex = s.2.length
    ∧ ∀ j : Nat, j < 3 → j < s.2.length →
        s.1.sleepTimes.get ((s.2.length - 1 - j) % 3) = (s.2.map TickResult.sleepTime).getD j 0

/-- A train of `n` pacing ticks, the `i`-th made when the clock reads `t0 + step * i`, each with a
non-null `FrameRate` output. -/
def ticksEvery (t0 step n : Nat) : List Op :=
  (List.range n).map fun i => Op.Timer_Process (t0 + step * i) true

/-- The state of a pacer on schedule: after `SetHertz(R)` the schedule was anchored at clock
reading `t0` and `k` further ticks have followed, each exactly `1000000 / R` after the one
before.  As long as less than a second has passed since the anchor, no rate was reported. -/
structure Paced (R t0 k : Nat) (q : CSpeedLimiter) : Prop where
  wf : q.WF
  speed : q.m_Speed = R
  base : q.m_BaseSpeed = R
  mspf : q.m_MicroSecondsPerFrame = 1000000 / R
  lastMspf : q.lastMicrosecondsPerFrame = 1000000 / R
  reset : q.hasBeenReset = true
  start : q.StartFPSTime = t0
  frames : q.m_Frames = k
  index : q.sleepTimesIndex = k + 1
  quiet : 1000000 / R * k < 1000000 → q.m_LastTime = t0 ∧ q.lastFrameRateSet = 0

/-- The number of ticks performed since the most recent anchoring tick, read off the results of
the ticks performed so far (most recent first): 0 when the most recent tick anchored.  This is
the value the specification gives to `framesElapsed`; the code keeps `m_Frames`. -/
def ticksSinceAnchor : List TickResult → Nat
  | [] => 0
  | r :: rs => if r.anchored = true then 0 else ticksSinceAnchor rs + 1

/-- The clock never runs backwards: the readings of the ticks in `ops` are at least `c` and
never decrease. -/
def clockFrom (c : Nat) : List Op → Prop
  | [] => True
  | Op.Timer_Process now _ :: ops => c ≤ now ∧ clockFrom now ops
  | Op.SetHertz _ :: ops => clockFrom c ops
  | Op.SetSpeed _ :: ops => clockFrom c ops
  | Op.AlterSpeed _ :: ops => clockFrom c ops

instance clockFrom.instDecidable : (c : Nat) → (ops : List Op) → Decidable (clockFrom c ops)
  | _, [] => isTrue trivial
  | c, Op.Timer_Process now _ :: ops =>
    @instDecidableAnd _ _ (Nat.decLe c now) (clockFrom.instDecidable now ops)
  | c, Op.SetHertz _ :: ops => clockFrom.instDecidable c ops
  | c, Op.SetSpeed _ :: ops => clockFrom.instDecidable c ops
  | c, Op.AlterSpeed _ :: ops => clockFrom.instDecidable c ops

/-! ## Facts about rounding -/

theorem roundHalfEven_intCast (n : Int) : roundHalfEven (n : ℚ) = n := by
  simp [roundHalfEven]

theorem floor_le_roundHalfEven (x : ℚ) : ⌊x⌋ ≤ roundHalfEven x := by
  unfold roundHalfEven
  split_ifs <;> omega

theorem roundHalfEven_le_floor_add_one (x : ℚ) : roundHalfEven x ≤ ⌊x⌋ + 1 := by
  unfold roundHalfEven
  split_ifs <;> omega

theorem roundHalfEven_mono {x y : ℚ} (h : x ≤ y) : roundHalfEven x ≤ roundHalfEven y := by
  have hfl : ⌊x⌋ ≤ ⌊y⌋ := Int.floor_mono h
  rcases lt_or_eq_of_le hfl with hlt | heq
  · calc roundHalfEven x ≤ ⌊x⌋ + 1 := roundHalfEven_le_floor_add_one x
      _ ≤ ⌊y⌋ := hlt
      _ ≤ roundHalfEven y := floor_le_roundHalfEven y
  · have hfr : Int.fract x ≤ Int.fract y := by
      unfold Int.fract
      rw [heq]
      linarith
    unfold roundHalfEven
    rw [heq]
    split_ifs <;> first | omega | (exfalso; linarith)



theorem two_zpow_log_le {x : ℚ} (hx : 0 < x) : (2 : ℚ) ^ Int.log 2 x ≤ x := by
  have h := Int.zpow_log_le_self (R := ℚ) (b := 2) (by norm_num) hx
  simpa using h

theorem lt_two_zpow_log_succ (x : ℚ) : x < (2 : ℚ) ^ (Int.log 2 x + 1) := by
  have h := Int.lt_zpow_succ_log_self (R := ℚ) (b := 2) (by norm_num) x
  simpa using h

theorem roundPos_succ (q : Nat) (x : ℚ) :
    roundPos (q + 1) x
      = roundHalfEven (x / 2 ^ (Int.log 2 x - q)) * 2 ^ (Int.log 2 x - q) := by
  unfold roundPos
  have h : (((q + 1 : Nat) : Int) - 1) = (q : Int) := by push_cast; ring
  rw [h]

theorem scaled_ge {x : ℚ} (hx : 0 < x) (q : Nat) :
    (((2 : Int) ^ q : Int) : ℚ) ≤ x / 2 ^ (Int.log 2 x - q) := by
  have hs : (0 : ℚ) < 2 ^ (Int.log 2 x - q) := by positivity
  rw [le_div_iff₀ hs]
  have e : (((2 : Int) ^ q : Int) : ℚ) * 2 ^ (Int.log 2 x - q) = 2 ^ Int.log 2 x := by
    push_cast
    rw [← zpow_natCast, ← zpow_add₀ (by norm_num : (2 : ℚ) ≠ 0)]
    congr 1
    ring
  rw [e]
  exact two_zpow_log_le hx

theorem scaled_le {x : ℚ} (q : Nat) :
    x / 2 ^ (Int.log 2 x - q) ≤ (((2 : Int) ^ (q + 1) : Int) : ℚ) := by
  have hs : (0 : ℚ) < 2 ^ (Int.log 2 x - q) := by positivity
  rw [div_le_iff₀ hs]
  have e : (((2 : Int) ^ (q + 1) : Int) : ℚ) * 2 ^ (Int.log 2 x - q) = 2 ^ (Int.log 2 x + 1) := by
    push_cast
    rw [← zpow_natCast, ← zpow_add₀ (by norm_num : (2 : ℚ) ≠ 0)]
    congr 1
    push_cast
    ring
  rw [e]
  exact le_of_lt (lt_two_zpow_log_succ x)

theorem two_zpow_log_le_roundPos {x : ℚ} (hx : 0 < x) (q : Nat) :
    (2 : ℚ) ^ Int.log 2 x ≤ roundPos (q + 1) x := by
  rw [roundPos_succ]
  have hs : (0 : ℚ) < 2 ^ (Int.log 2 x - q) := by positivity
  have h1 : ((2 : Int) ^ q : Int) ≤ roundHalfEven (x / 2 ^ (Int.log 2 x - q)) := by
    have := roundHalfEven_mono (scaled_ge hx q)
    rwa [roundHalfEven_intCast] at this
  have h2 : (((2 : Int) ^ q : Int) : ℚ) ≤ (roundHalfEven (x / 2 ^ (Int.log 2 x - q)) : ℚ) := by
    exact_mod_cast h1
  have e : (((2 : Int) ^ q : Int) : ℚ) * 2 ^ (Int.log 2 x - q) = 2 ^ Int.log 2 x := by
    push_cast
    rw [← zpow_natCast, ← zpow_add₀ (by norm_num : (2 : ℚ) ≠ 0)]
    congr 1
    ring
  rw [← e]
  exact mul_le_mul_of_nonneg_right h2 (le_of_lt hs)

theorem roundPos_le_two_zpow_log_succ (x : ℚ) (q : Nat) :
    roundPos (q + 1) x ≤ (2 : ℚ) ^ (Int.log 2 x + 1) := by
  rw [roundPos_succ]
  have hs : (0 : ℚ) < 2 ^ (Int.log 2 x - q) := by positivity
  have h1 : roundHalfEven (x / 2 ^ (Int.log 2 x - q)) ≤ ((2 : Int) ^ (q + 1) : Int) := by
    have := roundHalfEven_mono (scaled_le (x := x) q)
    rwa [roundHalfEven_intCast] at this
  have h2 : (roundHalfEven (x / 2 ^ (Int.log 2 x - q)) : ℚ) ≤ (((2 : Int) ^ (q + 1) : Int) : ℚ) := by
    exact_mod_cast h1
  have e : (((2 : Int) ^ (q + 1) : Int) : ℚ) * 2 ^ (Int.log 2 x - q) = 2 ^ (Int.log 2 x + 1) := by
    push_cast
    rw [← zpow_natCast, ← zpow_add₀ (by norm_num : (2 : ℚ) ≠ 0)]
    congr 1
    push_cast
    ring
  rw [← e]
  exact mul_le_mul_of_nonneg_right h2 (le_of_lt hs)

theorem roundPos_pos {x : ℚ} (hx : 0 < x) (q : Nat) : 0 < roundPos (q + 1) x :=
  lt_of_lt_of_le (by positivity) (two_zpow_log_le_roundPos hx q)

theorem roundPos_mono {x y : ℚ} (hx : 0 < x) (h : x ≤ y) (q : Nat) :
    roundPos (q + 1) x ≤ roundPos (q + 1) y := by
  have hy : 0 < y := lt_of_lt_of_le hx h
  have hlog : Int.log 2 x ≤ Int.log 2 y := Int.log_mono_right hx h
  rcases lt_or_eq_of_le hlog with hlt | heq
  · calc roundPos (q + 1) x ≤ (2 : ℚ) ^ (Int.log 2 x + 1) := roundPos_le_two_zpow_log_succ x q
      _ ≤ (2 : ℚ) ^ Int.log 2 y := zpow_le_zpow_right₀ (by norm_num) (by omega)
      _ ≤ roundPos (q + 1) y := two_zpow_log_le_roundPos hy q
  · rw [roundPos_succ, roundPos_succ, heq]
    have hs : (0 : ℚ) < 2 ^ (Int.log 2 y - q) := by positivity
    have h1 : x / 2 ^ (Int.log 2 y - q) ≤ y / 2 ^ (Int.log 2 y - q) :=
      div_le_div_of_nonneg_right h (le_of_lt hs)
    have h2 := roundHalfEven_mono h1
    have h3 : (roundHalfEven (x / 2 ^ (Int.log 2 y - q)) : ℚ)
        ≤ (roundHalfEven (y / 2 ^ (Int.log 2 y - q)) : ℚ) := by exact_mod_cast h2
    exact mul_le_mul_of_nonneg_right h3 (le_of_lt hs)

theorem roundPos_exact (q : Nat) (m : Nat) (k : Int) (hm : 0 < m) (hlt : m < 2 ^ (q + 1)) :
    roundPos (q + 1) ((m : ℚ) * 2 ^ k) = (m : ℚ) * 2 ^ k := by
  have hx : (0 : ℚ) < (m : ℚ) * 2 ^ k := by positivity
  have hlog : Int.log 2 ((m : ℚ) * 2 ^ k) < (q : Int) + 1 + k := by
    have := (Int.lt_zpow_iff_log_lt (R := ℚ) (b := 2) (by norm_num) (x := (q : Int) + 1 + k) hx).1
    apply this
    have h2 : ((m : ℚ)) < 2 ^ (q + 1) := by exact_mod_cast hlt
    have : (m : ℚ) * 2 ^ k < 2 ^ (q + 1) * 2 ^ k := by
      apply mul_lt_mul_of_pos_right h2; positivity
    calc (m : ℚ) * 2 ^ k < 2 ^ (q + 1) * 2 ^ k := this
      _ = ((2 : ℕ) : ℚ) ^ ((q : Int) + 1 + k) := by
        rw [← zpow_natCast, ← zpow_add₀ (by norm_num : (2 : ℚ) ≠ 0)]
        push_cast
        rfl
  rw [roundPos_succ]
  obtain ⟨d, hd⟩ : ∃ d : Nat, (d : Int) = k - (Int.log 2 ((m : ℚ) * 2 ^ k) - q) := by
    refine ⟨(k - (Int.log 2 ((m : ℚ) * 2 ^ k) - q)).toNat, ?_⟩
    rw [Int.toNat_of_nonneg]
    omega
  have hdiv : (m : ℚ) * 2 ^ k / 2 ^ (Int.log 2 ((m : ℚ) * 2 ^ k) - q) = (((m : Int) * 2 ^ d : Int) : ℚ) := by
    rw [mul_div_assoc, ← zpow_sub₀ (by norm_num : (2 : ℚ) ≠ 0), ← hd]
    push_cast
    rw [zpow_natCast]
  rw [hdiv, roundHalfEven_intCast]
  push_cast
  rw [mul_assoc, ← zpow_natCast, ← zpow_add₀ (by norm_num : (2 : ℚ) ≠ 0), hd]
  congr 2
  ring


theorem log_two_eq {x : ℚ} {e : Int} (h1 : (2 : ℚ) ^ e ≤ x) (h2 : x < (2 : ℚ) ^ (e + 1)) :
    Int.log 2 x = e := by
  have hx : 0 < x := lt_of_lt_of_le (by positivity) h1
  have a : e ≤ Int.log 2 x :=
    (Int.zpow_le_iff_le_log (R := ℚ) (b := 2) (by norm_num) hx).1 (by simpa using h1)
  have b : Int.log 2 x < e + 1 :=
    (Int.lt_zpow_iff_log_lt (R := ℚ) (b := 2) (by norm_num) hx).1 (by simpa using h2)
  omega

theorem roundNE_zero (p : Nat) : roundNE p 0 = 0 := by
  simp [roundNE]

theorem roundNE_of_pos (p : Nat) {x : ℚ} (hx : 0 < x) : roundNE p x = roundPos p x := by
  simp [roundNE, hx]

theorem roundNE_of_neg (p : Nat) {x : ℚ} (hx : x < 0) : roundNE p x = -roundPos p (-x) := by
  simp [roundNE, hx, not_lt.2 (le_of_lt hx)]

theorem roundNE_neg (p : Nat) (x : ℚ) : roundNE p (-x) = -roundNE p x := by
  rcases lt_trichotomy x 0 with h | h | h
  · rw [roundNE_of_neg p h, roundNE_of_pos p (by linarith : 0 < -x), neg_neg]
  · subst h; simp [roundNE_zero]
  · rw [roundNE_of_pos p h, roundNE_of_neg p (by linarith : -x < 0), neg_neg]

theorem roundNE_nonneg (q : Nat) {x : ℚ} (hx : 0 ≤ x) : 0 ≤ roundNE (q + 1) x := by
  rcases lt_or_eq_of_le hx with h | h
  · rw [roundNE_of_pos _ h]; exact le_of_lt (roundPos_pos h q)
  · rw [← h, roundNE_zero]

theorem roundNE_pos (q : Nat) {x : ℚ} (hx : 0 < x) : 0 < roundNE (q + 1) x := by
  rw [roundNE_of_pos _ hx]; exact roundPos_pos hx q

theorem roundNE_mono (q : Nat) {x y : ℚ} (h : x ≤ y) : roundNE (q + 1) x ≤ roundNE (q + 1) y := by
  rcases lt_trichotomy x 0 with hx | hx | hx
  · rcases lt_or_le y 0 with hy | hy
    · rw [roundNE_of_neg _ hx, roundNE_of_neg _ hy]
      have := roundPos_mono (by linarith : 0 < -y) (by linarith : -y ≤ -x) q
      linarith
    · have h1 : roundNE (q + 1) x < 0 := by
        rw [roundNE_of_neg _ hx]
        have := roundPos_pos (by linarith : 0 < -x) q
        linarith
      have h2 := roundNE_nonneg q hy
      linarith
  · subst hx
    rw [roundNE_zero]
    exact roundNE_nonneg q h
  · rw [roundNE_of_pos _ hx, roundNE_of_pos _ (lt_of_lt_of_le hx h)]
    exact roundPos_mono hx h q

theorem roundNE_exact (q : Nat) (m : Int) (k : Int) (hm : |m| < 2 ^ (q + 1)) :
    roundNE (q + 1) ((m : ℚ) * 2 ^ k) = (m : ℚ) * 2 ^ k := by
  have key : ∀ n : Nat, n < 2 ^ (q + 1) →
      roundNE (q + 1) ((n : ℚ) * 2 ^ k) = (n : ℚ) * 2 ^ k := by
    intro n hn
    rcases Nat.eq_zero_or_pos n with h0 | hpos
    · subst h0; simp [roundNE_zero]
    · rw [roundNE_of_pos _ (by positivity)]
      exact roundPos_exact q n k hpos hn
  rcases le_or_lt 0 m with h | h
  · obtain ⟨n, rfl⟩ := Int.eq_ofNat_of_zero_le h
    have hn : n < 2 ^ (q + 1) := by
      rw [abs_of_nonneg h] at hm
      exact_mod_cast hm
    simpa using key n hn
  · obtain ⟨n, hn⟩ := Int.eq_ofNat_of_zero_le (by omega : 0 ≤ -m)
    have hm2 : m = -(n : Int) := by omega
    have hn2 : n < 2 ^ (q + 1) := by
      rw [abs_of_neg h, hn] at hm
      exact_mod_cast hm
    subst hm2
    have := key n hn2
    push_cast
    rw [neg_mul, roundNE_neg, this]

theorem roundNE_intCast (q : Nat) (n : Int) (hn : |n| ≤ 2 ^ (q + 1)) :
    roundNE (q + 1) (n : ℚ) = n := by
  rcases lt_or_eq_of_le hn with h | h
  · simpa using roundNE_exact q n 0 h
  · have h1 : |(1 : Int)| < 2 ^ (q + 1) := by
      rw [abs_one]
      exact one_lt_pow₀ (by norm_num) (by omega)
    rcases abs_eq (by positivity : (0 : Int) ≤ 2 ^ (q + 1)) |>.1 h with e | e
    · have := roundNE_exact q 1 ((q : Int) + 1) h1
      rw [e]
      push_cast
      have e2 : ((1 : Int) : ℚ) * 2 ^ ((q : Int) + 1) = 2 ^ (q + 1) := by
        rw [← zpow_natCast]; push_cast; ring
      rw [e2] at this
      exact this
    · have := roundNE_exact q (-1) ((q : Int) + 1) (by simpa using h1)
      rw [e]
      push_cast
      have e2 : ((-1 : Int) : ℚ) * 2 ^ ((q : Int) + 1) = -2 ^ (q + 1) := by
        rw [← zpow_natCast]; push_cast; ring
      rw [e2] at this
      exact this

theorem f32_mono {x y : ℚ} (h : x ≤ y) : f32 x ≤ f32 y := roundNE_mono 23 h

theorem f64_mono {x y : ℚ} (h : x ≤ y) : f64 x ≤ f64 y := roundNE_mono 52 h

theorem f32_nonneg {x : ℚ} (h : 0 ≤ x) : 0 ≤ f32 x := roundNE_nonneg 23 h

theorem f32_pos {x : ℚ} (h : 0 < x) : 0 < f32 x := roundNE_pos 23 h

theorem f32_intCast (n : Int) (hn : |n| ≤ 16777216) : f32 (n : ℚ) = n :=
  roundNE_intCast 23 n (by norm_num; exact hn)

theorem f64_intCast (n : Int) (hn : |n| ≤ 9007199254740992) : f64 (n : ℚ) = n :=
  roundNE_intCast 52 n (by norm_num; exact hn)

theorem f32_natCast (n : Nat) (hn : n ≤ 16777216) : f32 (n : ℚ) = n := by
  have := f32_intCast (n : Int) (by rw [abs_of_nonneg (by positivity)]; exact_mod_cast hn)
  simpa using this

theorem f64_natCast (n : Nat) (hn : n ≤ 9007199254740992) : f64 (n : ℚ) = n := by
  have := f64_intCast (n : Int) (by rw [abs_of_nonneg (by positivity)]; exact_mod_cast hn)
  simpa using this

theorem f32_eval (e : Int) {x : ℚ} (h1 : (2 : ℚ) ^ e ≤ x) (h2 : x < (2 : ℚ) ^ (e + 1)) :
    f32 x = roundHalfEven (x / 2 ^ (e - 23)) * 2 ^ (e - 23) := by
  have hx : 0 < x := lt_of_lt_of_le (by positivity) h1
  unfold f32
  rw [roundNE_of_pos _ hx, roundPos_succ 23, log_two_eq h1 h2]
  rfl


theorem f64_eval (e : Int) {x : ℚ} (h1 : (2 : ℚ) ^ e ≤ x) (h2 : x < (2 : ℚ) ^ (e + 1)) :
    f64 x = roundHalfEven (x / 2 ^ (e - 52)) * 2 ^ (e - 52) := by
  have hx : 0 < x := lt_of_lt_of_le (by positivity) h1
  unfold f64
  rw [roundNE_of_pos _ hx, roundPos_succ 52, log_two_eq h1 h2]
  rfl

theorem f64_neg (x : ℚ) : f64 (-x) = -f64 x := roundNE_neg 53 x

theorem f32_neg (x : ℚ) : f32 (-x) = -f32 x := roundNE_neg 24 x

theorem f64_zero : f64 0 = 0 := roundNE_zero 53

theorem f32_zero : f32 0 = 0 := roundNE_zero 24

theorem truncToInt_intCast (n : Int) : truncToInt (n : ℚ) = n := by
  unfold truncToInt
  split_ifs <;> simp

theorem truncToInt_neg (x : ℚ) : truncToInt (-x) = -truncToInt x := by
  unfold truncToInt
  rcases lt_trichotomy x 0 with h | h | h
  · rw [if_pos (by linarith : (0 : ℚ) ≤ -x), if_neg (by linarith : ¬ (0 : ℚ) ≤ x)]
    rw [Int.floor_neg]
  · subst h; simp
  · rw [if_neg (by linarith : ¬ (0 : ℚ) ≤ -x), if_pos (by linarith : (0 : ℚ) ≤ x)]
    rw [Int.ceil_neg]

theorem truncToInt_abs_le (B : Int) {x : ℚ} (hx : |x| ≤ (B : ℚ)) : |truncToInt x| ≤ B := by
  have hle := abs_le.1 hx
  unfold truncToInt
  rw [abs_le]
  split_ifs with h
  · constructor
    · have : (0 : Int) ≤ ⌊x⌋ := Int.floor_nonneg.2 h
      have hB : (0 : ℚ) ≤ B := le_trans (abs_nonneg x) hx
      have hB2 : (0 : Int) ≤ B := by exact_mod_cast hB
      omega
    · have h1 : (⌊x⌋ : ℚ) ≤ B := le_trans (Int.floor_le x) hle.2
      exact_mod_cast h1
  · constructor
    · have h1 : ((-B : Int) : ℚ) ≤ (⌈x⌉ : ℚ) := by
        push_cast
        exact le_trans hle.1 (Int.le_ceil x)
      exact_mod_cast h1
    · have h0 : x ≤ ((0 : Int) : ℚ) := by push_cast; linarith
      have : ⌈x⌉ ≤ 0 := Int.ceil_le.2 h0
      have hB : (0 : ℚ) ≤ B := le_trans (abs_nonneg x) hx
      have hB2 : (0 : Int) ≤ B := by exact_mod_cast hB
      omega


theorem f64_abs_le_of_exact {B x : ℚ} (hB : f64 B = B) (hx : |x| ≤ B) : |f64 x| ≤ B := by
  have hle := abs_le.1 hx
  rw [abs_le]
  constructor
  · have := f64_mono hle.1
    rwa [f64_neg, hB] at this
  · have := f64_mono hle.2
    rwa [hB] at this

theorem f64_two_pow_62 : f64 4611686018427387904 = 4611686018427387904 := by
  have h := roundNE_exact 52 1 62 (by norm_num)
  norm_num at h
  exact h

theorem f64_two_pow_63 : f64 9223372036854775808 = 9223372036854775808 := by
  have h := roundNE_exact 52 1 63 (by norm_num)
  norm_num at h
  exact h

theorem f64_three_two_pow_62 : f64 13835058055282163712 = 13835058055282163712 := by
  have h := roundNE_exact 52 3 62 (by norm_num)
  norm_num at h
  exact h

theorem f64_one : f64 1 = 1 := by
  have h := f64_natCast 1 (by norm_num)
  simpa using h

theorem f64_two : f64 2 = 2 := by
  have h := f64_natCast 2 (by norm_num)
  simpa using h

theorem f64_three : f64 3 = 3 := by
  have h := f64_natCast 3 (by norm_num)
  simpa using h

theorem averageSleep_one (a : SleepTimes) :
    averageSleep a 1 = f64 (f64 (f64 a.s0) / f64 1) := by
  simp [averageSleep, List.range_succ, SleepTimes.get]

theorem averageSleep_two (a : SleepTimes) :
    averageSleep a 2 = f64 (f64 (f64 (f64 a.s0) + f64 a.s1) / f64 2) := by
  simp [averageSleep, List.range_succ, SleepTimes.get]

theorem averageSleep_three (a : SleepTimes) :
    averageSleep a 3
      = f64 (f64 (f64 (f64 (f64 a.s0) + f64 a.s1) + f64 a.s2) / f64 3) := by
  simp [averageSleep, List.range_succ, SleepTimes.get]

/-- The mean of samples of magnitude at most `2 ^ 62` has magnitude at most `2 ^ 62`. -/
theorem averageSleep_abs_le (a : SleepTimes) (n : Nat) (hn1 : 1 ≤ n) (hn3 : n ≤ 3)
    (h0 : |a.s0| ≤ 4611686018427387904) (h1 : |a.s1| ≤ 4611686018427387904)
    (h2 : |a.s2| ≤ 4611686018427387904) :
    |averageSleep a n| ≤ 4611686018427387904 := by
  have c0 : |(a.s0 : ℚ)| ≤ 4611686018427387904 := by exact_mod_cast h0
  have c1 : |(a.s1 : ℚ)| ≤ 4611686018427387904 := by exact_mod_cast h1
  have c2 : |(a.s2 : ℚ)| ≤ 4611686018427387904 := by exact_mod_cast h2
  have t0 := f64_abs_le_of_exact f64_two_pow_62 c0
  have t1 := f64_abs_le_of_exact f64_two_pow_62 c1
  have t2 := f64_abs_le_of_exact f64_two_pow_62 c2
  have u1 : |f64 (f64 a.s0)| ≤ 4611686018427387904 := by
    exact f64_abs_le_of_exact f64_two_pow_62 t0
  have u2 : |f64 (f64 (f64 a.s0) + f64 a.s1)| ≤ 9223372036854775808 := by
    apply f64_abs_le_of_exact f64_two_pow_63
    have := abs_add (f64 (f64 a.s0)) (f64 a.s1)
    linarith
  have u3 : |f64 (f64 (f64 (f64 a.s0) + f64 a.s1) + f64 a.s2)| ≤ 13835058055282163712 := by
    apply f64_abs_le_of_exact f64_three_two_pow_62
    have := abs_add (f64 (f64 (f64 a.s0) + f64 a.s1)) (f64 a.s2)
    linarith
  have hn : n = 1 ∨ n = 2 ∨ n = 3 := by omega
  rcases hn with rfl | rfl | rfl
  · rw [averageSleep_one, f64_one]
    apply f64_abs_le_of_exact f64_two_pow_62
    simpa using u1
  · rw [averageSleep_two, f64_two]
    apply f64_abs_le_of_exact f64_two_pow_62
    rw [abs_div, div_le_iff₀ (by norm_num)]
    norm_num
    linarith
  · rw [averageSleep_three, f64_three]
    apply f64_abs_le_of_exact f64_two_pow_62
    rw [abs_div, div_le_iff₀ (by norm_num)]
    norm_num
    linarith

/-- Dividing an integer of moderate size by 1, 2 or 3 in `double` and truncating gives the
truncating integer quotient. -/
theorem truncToInt_f64_div (S : Int) (n : Nat) (hn1 : 1 ≤ n) (hn3 : n ≤ 3)
    (hS : |S| ≤ (n : Int) * 1125899906842624) :
    truncToInt (f64 ((S : ℚ) / (n : ℚ))) = Int.tdiv S n := by
  have key : ∀ T : Int, 0 ≤ T → T ≤ (n : Int) * 1125899906842624 →
      truncToInt (f64 ((T : ℚ) / (n : ℚ))) = Int.tdiv T n := by
    intro T hT0 hT
    have hnpos : (0 : ℚ) < (n : ℚ) := by exact_mod_cast hn1
    have hnZ : (0 : Int) < (n : Int) := by exact_mod_cast hn1
    have hk0 : 0 ≤ T / (n : Int) := Int.ediv_nonneg hT0 (le_of_lt hnZ)
    have hdm : (n : Int) * (T / (n : Int)) + T % (n : Int) = T := Int.ediv_add_emod T n
    have hm0 : 0 ≤ T % (n : Int) := Int.emod_nonneg T (by omega)
    have hm1 : T % (n : Int) < n := Int.emod_lt_of_pos T hnZ
    have hk50 : T / (n : Int) ≤ 1125899906842624 := by
      by_contra hc
      push_neg at hc
      nlinarith
    have lo : ((T / (n : Int) : Int) : ℚ) ≤ (T : ℚ) / (n : ℚ) := by
      rw [le_div_iff₀ hnpos]
      have : (T / (n : Int)) * (n : Int) ≤ T := by nlinarith
      exact_mod_cast this
    have hi : (T : ℚ) / (n : ℚ) ≤ ((4 * (T / (n : Int)) + 3 : Int) : ℚ) * 2 ^ (-2 : Int) := by
      rw [div_le_iff₀ hnpos]
      have hn3Z : (n : Int) ≤ 3 := by exact_mod_cast hn3
      have h4 : 4 * T ≤ (4 * (T / (n : Int)) + 3) * n := by nlinarith
      have h4q : (4 : ℚ) * T ≤ ((4 * (T / (n : Int)) + 3 : Int) : ℚ) * n := by exact_mod_cast h4
      have e : ((4 * (T / (n : Int)) + 3 : Int) : ℚ) * 2 ^ (-2 : Int) * (n : ℚ)
          = (((4 * (T / (n : Int)) + 3 : Int) : ℚ) * n) / 4 := by
        norm_num
        ring
      rw [e, le_div_iff₀ (by norm_num)]
      linarith
    have flo : ((T / (n : Int) : Int) : ℚ) ≤ f64 ((T : ℚ) / (n : ℚ)) := by
      have := f64_mono lo
      rwa [f64_intCast _ (by rw [abs_of_nonneg hk0]; omega)] at this
    have fhi : f64 ((T : ℚ) / (n : ℚ))
        ≤ ((4 * (T / (n : Int)) + 3 : Int) : ℚ) * 2 ^ (-2 : Int) := by
      have := f64_mono hi
      have hex : f64 (((4 * (T / (n : Int)) + 3 : Int) : ℚ) * 2 ^ (-2 : Int))
          = ((4 * (T / (n : Int)) + 3 : Int) : ℚ) * 2 ^ (-2 : Int) :=
        roundNE_exact 52 _ _ (by rw [abs_of_nonneg (by omega)]; norm_num; omega)
      rwa [hex] at this
    have hnn : (0 : ℚ) ≤ f64 ((T : ℚ) / (n : ℚ)) := le_trans (by exact_mod_cast hk0) flo
    unfold truncToInt
    rw [if_pos hnn, Int.tdiv_eq_ediv hT0 (le_of_lt hnZ)]
    rw [Int.floor_eq_iff]
    refine ⟨flo, ?_⟩
    have : ((4 * (T / (n : Int)) + 3 : Int) : ℚ) * 2 ^ (-2 : Int)
        < ((T / (n : Int) : Int) : ℚ) + 1 := by
      push_cast
      norm_num
      linarith
    linarith
  rcases le_or_lt 0 S with h | h
  · exact key S h (by rwa [abs_of_nonneg h] at hS)
  · have hS2 : -S ≤ (n : Int) * 1125899906842624 := by rwa [abs_of_neg h] at hS
    have := key (-S) (by omega) hS2
    have e : ((S : ℚ)) / (n : ℚ) = -((((-S : Int)) : ℚ) / (n : ℚ)) := by
      push_cast; ring
    rw [e, f64_neg, truncToInt_neg, this, Int.neg_tdiv, neg_neg]

/-! ## Facts about the pacing tick -/

theorem toInt64_sub (now start : Nat) (hn : now < 2305843009213693952)
    (hs : start < 2305843009213693952) :
    toInt64 ((now + 18446744073709551616 - start) % 18446744073709551616) = (now : Int) - start := by
  unfold toInt64
  split_ifs <;> omega

theorem anchorStep_hasBeenReset (p : CSpeedLimiter) (now : Nat) :
    (p.anchorStep now).hasBeenReset = true := by
  unfold CSpeedLimiter.anchorStep
  split_ifs with h
  · rfl
  · simp only [CSpeedLimiter.needsAnchor, Bool.or_eq_true, Bool.not_eq_true', decide_eq_true_eq,
      not_or] at h
    simpa using h.1.2

theorem anchorStep_fixed (p : CSpeedLimiter) (now : Nat) :
    (p.anchorStep now).m_Speed = p.m_Speed ∧ (p.anchorStep now).m_BaseSpeed = p.m_BaseSpeed
      ∧ (p.anchorStep now).m_MicroSecondsPerFrame = p.m_MicroSecondsPerFrame
      ∧ (p.anchorStep now).sleepTimes = p.sleepTimes
      ∧ (p.anchorStep now).sleepTimesIndex = p.sleepTimesIndex
      ∧ (p.anchorStep now).events = p.events
      ∧ (p.anchorStep now).lastMicrosecondsPerFrame = p.m_MicroSecondsPerFrame := by
  unfold CSpeedLimiter.anchorStep
  split_ifs <;> simp

theorem anchorStep_WF (p : CSpeedLimiter) (hp : p.WF) (now : Nat)
    (hnow : now < 2305843009213693952) :
    (p.anchorStep now).m_Frames ≤ p.sleepTimesIndex + 1
      ∧ (p.anchorStep now).m_Frames < 4294967296
      ∧ (p.anchorStep now).StartFPSTime < 2305843009213693952
      ∧ (p.anchorStep now).m_LastTime < 2305843009213693952
      ∧ (p.anchorStep now).lastFrameRateSet < 4294967296 := by
  have h1 := hp.frames_le
  have h2 := hp.index_lt
  have h3 := hp.start_lt
  have h4 := hp.lastTime_lt
  have h5 := hp.rateSet_lt
  unfold CSpeedLimiter.anchorStep
  split_ifs <;> simp <;> omega

theorem drift_bounds (p : CSpeedLimiter) (hp : p.WF) (now : Nat)
    (hnow : now < 2305843009213693952) :
    |(p.anchorStep now).totalElapsedGameTime - (p.anchorStep now).elapsedRealTime now|
      ≤ 4611686018427387904 := by
  have hs := (anchorStep_WF p hp now hnow).2.2.1
  unfold CSpeedLimiter.totalElapsedGameTime CSpeedLimiter.elapsedRealTime
  rw [toInt64_sub now _ hnow hs, abs_le]
  omega

theorem f32_million : f32 1000000 = 1000000 := by
  have h := f32_natCast 1000000 (by norm_num)
  simpa using h

theorem f64_million : f64 1000000 = 1000000 := by
  have h := f64_natCast 1000000 (by norm_num)
  simpa using h

theorem f32_fifty_thousand : f32 50000 = 50000 := by
  have h := f32_natCast 50000 (by norm_num)
  simpa using h

/-- The single-precision test `fpsInterval >= 1000000` agrees with the exact comparison. -/
theorem f32_ge_million_iff (n : Nat) : f32 (n : ℚ) ≥ f32 1000000 ↔ 1000000 ≤ n := by
  rw [f32_million]
  constructor
  · intro h
    by_contra hc
    have h1 : n ≤ 999999 := by omega
    have h2 : (n : ℚ) ≤ 999999 := by exact_mod_cast h1
    have h3 := f32_mono h2
    have h4 : f32 999999 = 999999 := by
      have h := f32_natCast 999999 (by norm_num)
      simpa using h
    rw [h4] at h3
    linarith
  · intro h
    have h2 : (1000000 : ℚ) ≤ n := by exact_mod_cast h
    have h3 := f32_mono h2
    rwa [f32_million] at h3

theorem stdRound_bounds (n : Nat) {x : ℚ} (h0 : 0 ≤ x) (h1 : x ≤ n) :
    0 ≤ stdRound x ∧ stdRound x ≤ n := by
  unfold stdRound
  rw [if_pos h0]
  constructor
  · apply Int.floor_nonneg.2; linarith
  · have : ⌊x + 1 / 2⌋ < (n : Int) + 1 := by
      rw [Int.floor_lt]
      push_cast
      linarith
    omega

/-- The measured rate fits a `uint32_t` whenever a rate is computed. -/
theorem measuredRate_bounds (p : CSpeedLimiter) {I : ℚ} (hI : I ≥ f32 1000000) :
    0 ≤ p.measuredRate I ∧ p.measuredRate I < 4294967296 := by
  rw [f32_million] at hI
  unfold CSpeedLimiter.measuredRate
  set n : Nat := (p.m_Frames + 4294967296 - p.lastFrameRateSet) % 4294967296 with hn
  have hnlt : n < 4294967296 := Nat.mod_lt _ (by norm_num)
  have hfn : f64 (n : ℚ) = n := f64_natCast n (by omega)
  have hD : (1 : ℚ) ≤ f64 (I / f64 1000000) := by
    rw [f64_million]
    have h1 : (1 : ℚ) ≤ I / 1000000 := by
      rw [le_div_iff₀ (by norm_num)]; linarith
    have := f64_mono h1
    rwa [f64_one] at this
  rw [hfn]
  have hq0 : (0 : ℚ) ≤ (n : ℚ) / f64 (I / f64 1000000) := by
    apply div_nonneg
    · exact_mod_cast Nat.zero_le n
    · linarith
  have hq1 : (n : ℚ) / f64 (I / f64 1000000) ≤ n := by
    apply div_le_self
    · exact_mod_cast Nat.zero_le n
    · exact hD
  have hQ0 : (0 : ℚ) ≤ f64 ((n : ℚ) / f64 (I / f64 1000000)) := roundNE_nonneg 52 hq0
  have hQ1 : f64 ((n : ℚ) / f64 (I / f64 1000000)) ≤ n := by
    have := f64_mono hq1
    rwa [hfn] at this
  have := stdRound_bounds n hQ0 hQ1
  omega

theorem SleepTimes.set_bound (a : SleepTimes) (i : Nat) (v : Int) (B : Int)
    (h0 : |a.s0| ≤ B) (h1 : |a.s1| ≤ B) (h2 : |a.s2| ≤ B) (hv : |v| ≤ B) :
    |(a.set i v).s0| ≤ B ∧ |(a.set i v).s1| ≤ B ∧ |(a.set i v).s2| ≤ B := by
  unfold SleepTimes.set
  split_ifs <;> exact ⟨by assumption, by assumption, by assumption⟩

theorem Timer_Process_spec (p : CSpeedLimiter) (hp : p.WF) (now : Nat)
    (hnow : now < 2305843009213693952) (hidx : p.sleepTimesIndex ≠ 4294967295)
    (FrameRate : Bool) :
    ∃ r, p.Timer_Process now FrameRate = some r ∧ TickSpec p now FrameRate r ∧ r.state.WF := by
  obtain ⟨f1, f2, f3, f4, f5, f6, f7⟩ := anchorStep_fixed p now
  have hres := anchorStep_hasBeenReset p now
  obtain ⟨w1, w2, w3, w4, w5⟩ := anchorStep_WF p hp now hnow
  have hd := drift_bounds p hp now hnow
  have hel : (p.anchorStep now).elapsedRealTime now = (now : Int) - (p.anchorStep now).StartFPSTime :=
    toInt64_sub now _ hnow w3
  have g1 : inInt64 ((p.anchorStep now).totalElapsedGameTime
      - (p.anchorStep now).elapsedRealTime now) := by
    unfold inInt64
    rw [abs_le] at hd
    omega
  have g2 : ¬ (p.anchorStep now).m_BaseSpeed = 0 := by
    rw [f2]; have := hp.base_pos; omega
  have hi := hp.index_lt
  have hmod : (p.sleepTimesIndex + 1) % 4294967296 = p.sleepTimesIndex + 1 :=
    Nat.mod_eq_of_lt (by omega)
  have hE1 : 1 ≤ (if p.sleepTimesIndex + 1 > 3 then 3 else p.sleepTimesIndex + 1) := by
    split_ifs <;> omega
  have hE3 : (if p.sleepTimesIndex + 1 > 3 then 3 else p.sleepTimesIndex + 1) ≤ 3 := by
    split_ifs <;> omega
  have g3 : ¬ (if p.sleepTimesIndex + 1 > 3 then 3 else p.sleepTimesIndex + 1) = 0 := by omega
  obtain ⟨b0, b1, b2⟩ := SleepTimes.set_bound p.sleepTimes (p.sleepTimesIndex % 3)
    ((p.anchorStep now).totalElapsedGameTime - (p.anchorStep now).elapsedRealTime now)
    4611686018427387904 hp.s0_bound hp.s1_bound hp.s2_bound hd
  have havg := averageSleep_abs_le _ _ hE1 hE3 b0 b1 b2
  have htr := truncToInt_abs_le 4611686018427387904 (by exact_mod_cast havg)
  have g4 : inInt64 (truncToInt (averageSleep (p.sleepTimes.set (p.sleepTimesIndex % 3)
      ((p.anchorStep now).totalElapsedGameTime - (p.anchorStep now).elapsedRealTime now))
      (if p.sleepTimesIndex + 1 > 3 then 3 else p.sleepTimesIndex + 1))) := by
    unfold inInt64
    rw [abs_le] at htr
    omega
  unfold CSpeedLimiter.Timer_Process
  simp only [g1, g2, not_true_eq_false, if_false, f5, f4, f6, hmod, m_AverageSamples, g3, g4]
  by_cases hrep : f32 (((now + 18446744073709551616 - (p.anchorStep now).m_LastTime)
      % 18446744073709551616 : Nat) : ℚ) ≥ f32 1000000
  · have hrate := fun q : CSpeedLimiter => measuredRate_bounds q hrep
    have hrep2 := (f32_ge_million_iff _).1 hrep
    simp only [hrep, if_true, hrate, and_self, not_true_eq_false, and_false, if_false]
    refine ⟨_, rfl, ?_, ?_⟩
    · constructor <;>
        simp [hel, f1, f2, f3, f7, hres, hrep2, CSpeedLimiter.measuredRate,
          CSpeedLimiter.sleepCeiling]
    · exact ⟨by simpa [f1] using hp.speed_pos, by simpa [f1] using hp.speed_lt,
        by simpa [f2] using hp.base_pos, by simpa [f2] using hp.base_lt,
        by simpa using w1, by simp only []; omega, by simpa [f3] using hp.mspf_lt,
        by simpa using w2, by simpa using hnow, by simpa using w3, b0, b1, b2⟩
  · have hrep2 := mt (f32_ge_million_iff _).2 hrep
    simp only [hrep, if_false]
    refine ⟨_, rfl, ?_, ?_⟩
    · constructor <;> simp [hel, f1, f2, f3, f7, hres, hrep2, CSpeedLimiter.sleepCeiling]
    · exact ⟨by simpa [f1] using hp.speed_pos, by simpa [f1] using hp.speed_lt,
        by simpa [f2] using hp.base_pos, by simpa [f2] using hp.base_lt,
        by simpa using w1, by simp only []; omega, by simpa [f3] using hp.mspf_lt,
        by simpa using w5, by simpa using w4, by simpa using w3, b0, b1, b2⟩

/-! ## Rate mutation: `AlterSpeed`, `SetSpeed`, `SetHertz`, construction -/

theorem toUInt32_of_nonneg (i : Int) (h0 : 0 ≤ i) (h1 : i < 4294967296) :
    ((toUInt32 i : Nat) : Int) = i := by
  unfold toUInt32
  omega

theorem FixSpeedRatio_of_pos (p : CSpeedLimiter) (h : 1 ≤ p.m_Speed) :
    p.FixSpeedRatio
      = some { p with m_MicroSecondsPerFrame := 1000000 / p.m_Speed, m_Frames := 0 } := by
  unfold CSpeedLimiter.FixSpeedRatio
  rw [if_neg (by omega)]

/-- The value `AlterSpeed` stores into `m_Speed`, in the states where the sum does not wrap. -/
theorem AlterSpeed_value (p : CSpeedLimiter) (d : ESpeedChange) (h1 : 1 ≤ p.m_Speed)
    (h2 : p.m_Speed < 4294967296)
    (h3 : d = ESpeedChange.INCREASE_SPEED → p.m_Speed + 10 < 4294967296) :
    ∃ q, p.AlterSpeed d = some q
      ∧ (q.m_Speed : Int) = (p.m_Speed : Int)
          + (if d = ESpeedChange.INCREASE_SPEED then 1 else -1)
            * (if 60 ≤ p.m_Speed then 10 else if 15 ≤ p.m_Speed then 5
                else if d = ESpeedChange.INCREASE_SPEED ∨ 1 < p.m_Speed then 1 else 0)
      ∧ 1 ≤ q.m_Speed
      ∧ q.m_MicroSecondsPerFrame = 1000000 / q.m_Speed
      ∧ q.m_BaseSpeed = p.m_BaseSpeed ∧ q.m_Frames = 0
      ∧ q.events = p.events ++ [Event.SpeedChanged q.m_Speed] := by
  cases d
  · have h3 := h3 rfl
    unfold CSpeedLimiter.AlterSpeed
    simp only [m_DefaultSpeed, toUInt32, reduceCtorEq, if_false, if_true, or_true, and_false,
      false_or, true_or, ge_iff_le, gt_iff_lt]
    split_ifs with a b
    · rw [FixSpeedRatio_of_pos _ (by simp only []; omega)]
      refine ⟨_, rfl, ?_, ?_, rfl, rfl, rfl, rfl⟩ <;> simp only [] <;> omega
    · rw [FixSpeedRatio_of_pos _ (by simp only []; omega)]
      refine ⟨_, rfl, ?_, ?_, rfl, rfl, rfl, rfl⟩ <;> simp only [] <;> omega
    · rw [FixSpeedRatio_of_pos _ (by simp only []; omega)]
      refine ⟨_, rfl, ?_, ?_, rfl, rfl, rfl, rfl⟩ <;> simp only [] <;> omega
  · unfold CSpeedLimiter.AlterSpeed
    simp only [m_DefaultSpeed, toUInt32, reduceCtorEq, if_false, if_true, or_false, and_true,
      false_or, ge_iff_le, gt_iff_lt]
    split_ifs with a b c
    · rw [FixSpeedRatio_of_pos _ (by simp only []; omega)]
      refine ⟨_, rfl, ?_, ?_, rfl, rfl, rfl, rfl⟩ <;> simp only [] <;> omega
    · rw [FixSpeedRatio_of_pos _ (by simp only []; omega)]
      refine ⟨_, rfl, ?_, ?_, rfl, rfl, rfl, rfl⟩ <;> simp only [] <;> omega
    · rw [FixSpeedRatio_of_pos _ (by simp only []; omega)]
      refine ⟨_, rfl, ?_, ?_, rfl, rfl, rfl, rfl⟩ <;> simp only [] <;> omega
    · rw [FixSpeedRatio_of_pos _ (by simp only []; omega)]
      refine ⟨_, rfl, ?_, ?_, rfl, rfl, rfl, rfl⟩ <;> simp only [] <;> omega

theorem FixSpeedRatio_some (p q : CSpeedLimiter) (h : p.FixSpeedRatio = some q) :
    1 ≤ p.m_Speed
      ∧ q = { p with m_MicroSecondsPerFrame := 1000000 / p.m_Speed, m_Frames := 0 } := by
  unfold CSpeedLimiter.FixSpeedRatio at h
  split_ifs at h with h0
  simp only [Option.some.injEq] at h
  exact ⟨by omega, h.symm⟩

/-- Outside the single state in which an increase wraps `m_Speed` to zero, the call of
`AlterSpeed` is defined and leaves a positive speed with a matching
`m_MicroSecondsPerFrame`. -/
theorem AlterSpeed_defined (p : CSpeedLimiter) (d : ESpeedChange) (h1 : 1 ≤ p.m_Speed)
    (h2 : p.m_Speed < 4294967296)
    (h3 : ¬ (d = ESpeedChange.INCREASE_SPEED ∧ p.m_Speed = 4294967286)) :
    ∃ q, p.AlterSpeed d = some q ∧ 1 ≤ q.m_Speed ∧ q.m_Speed < 4294967296
      ∧ q.m_MicroSecondsPerFrame = 1000000 / q.m_Speed := by
  cases d
  · unfold CSpeedLimiter.AlterSpeed
    simp only [m_DefaultSpeed, toUInt32, reduceCtorEq, if_false, if_true, or_true, and_false,
      false_or, true_or, ge_iff_le, gt_iff_lt]
    simp only [true_and] at h3
    split_ifs with a b
    · rw [FixSpeedRatio_of_pos _ (by simp only []; omega)]
      refine ⟨_, rfl, ?_, ?_, rfl⟩ <;> simp only [] <;> omega
    · rw [FixSpeedRatio_of_pos _ (by simp only []; omega)]
      refine ⟨_, rfl, ?_, ?_, rfl⟩ <;> simp only [] <;> omega
    · rw [FixSpeedRatio_of_pos _ (by simp only []; omega)]
      refine ⟨_, rfl, ?_, ?_, rfl⟩ <;> simp only [] <;> omega
  · unfold CSpeedLimiter.AlterSpeed
    simp only [m_DefaultSpeed, toUInt32, reduceCtorEq, if_false, if_true, or_false, and_true,
      false_or, ge_iff_le, gt_iff_lt]
    split_ifs with a b c
    · rw [FixSpeedRatio_of_pos _ (by simp only []; omega)]
      refine ⟨_, rfl, ?_, ?_, rfl⟩ <;> simp only [] <;> omega
    · rw [FixSpeedRatio_of_pos _ (by simp only []; omega)]
      refine ⟨_, rfl, ?_, ?_, rfl⟩ <;> simp only [] <;> omega
    · rw [FixSpeedRatio_of_pos _ (by simp only []; omega)]
      refine ⟨_, rfl, ?_, ?_, rfl⟩ <;> simp only [] <;> omega
    · rw [FixSpeedRatio_of_pos _ (by simp only []; omega)]
      refine ⟨_, rfl, ?_, ?_, rfl⟩ <;> simp only [] <;> omega

/-- The effect of `SetSpeed` for an argument that is an `int`. -/
theorem SetSpeed_value (p : CSpeedLimiter) (v : Int) (hv : -2147483648 ≤ v ∧ v ≤ 2147483647) :
    ∃ q, p.SetSpeed v = some q ∧ (q.m_Speed : Int) = max v 1
      ∧ q.m_MicroSecondsPerFrame = 1000000 / q.m_Speed
      ∧ q.m_BaseSpeed = p.m_BaseSpeed ∧ q.m_Frames = 0
      ∧ q.events = p.events ++ [Event.SpeedChanged q.m_Speed] := by
  unfold CSpeedLimiter.SetSpeed
  simp only []
  have hs : ((toUInt32 (if v < 1 then 1 else v) : Nat) : Int) = max v 1 := by
    rw [toUInt32_of_nonneg _ (by split_ifs <;> omega) (by split_ifs <;> omega)]
    split_ifs <;> omega
  rw [FixSpeedRatio_of_pos _ (by simp only []; omega)]
  exact ⟨_, rfl, hs, rfl, rfl, rfl, rfl⟩

/-- The effect of `SetHertz` for a positive argument. -/
theorem SetHertz_value (p : CSpeedLimiter) (R : Nat) (hR : 1 ≤ R) :
    ∃ q, p.SetHertz R = some q ∧ q.m_Speed = R ∧ q.m_BaseSpeed = R
      ∧ q.m_MicroSecondsPerFrame = 1000000 / R ∧ q.m_Frames = 0 ∧ q.events = p.events := by
  unfold CSpeedLimiter.SetHertz
  rw [FixSpeedRatio_of_pos _ (by simp only []; omega)]
  exact ⟨_, rfl, rfl, rfl, rfl, rfl, rfl⟩

/-! ### The claims on rate mutation -/

/-- C1 (counterexample).  The step of `AlterSpeed` is not chosen relative to `m_BaseSpeed`: after
`SetHertz(50)` both speeds are 50, yet `AlterSpeed(INCREASE_SPEED)` adds 5 and gives 55, not 60.
Nor is the change always the signed step: from speed `4294967295 = 2 ^ 32 - 1` an increase
wraps around and gives 9. -/
theorem AlterSpeed_ignores_baseSpeed :
    (∃ p q, (CSpeedLimiter.ctor 0).SetHertz 50 = some p ∧ p.m_Speed = 50 ∧ p.m_BaseSpeed = 50
        ∧ p.AlterSpeed ESpeedChange.INCREASE_SPEED = some q ∧ q.m_Speed = 55 ∧ q.m_Speed ≠ 60)
      ∧ (∃ p q, (CSpeedLimiter.ctor 0).SetHertz 4294967295 = some p ∧ p.m_Speed = 4294967295
        ∧ p.m_BaseSpeed = 4294967295
        ∧ p.AlterSpeed ESpeedChange.INCREASE_SPEED = some q ∧ q.m_Speed = 9) := by
  refine ⟨⟨_, _, rfl, rfl, rfl, rfl, rfl, by decide⟩, ⟨_, _, rfl, rfl, rfl, rfl, rfl⟩⟩

/-- C1 (amended).  For every state with `1 ≤ m_Speed` (whatever `m_BaseSpeed` is) and each
direction, `AlterSpeed` is defined and changes `m_Speed` by a signed step chosen relative to the
constant default speed 60: 10 if `m_Speed ≥ 60`, otherwise 5 if `m_Speed ≥ 15`, otherwise 1 if the
direction is an increase or `m_Speed > 1`, otherwise 0; the sign is `+` for an increase and `-`
for a decrease.  For an increase the state must leave room for the step below `2 ^ 32`.  In
particular after `SetHertz(50)` an increase yields 55. -/
theorem AlterSpeed_steps_relative_to_default (p : CSpeedLimiter) (d : ESpeedChange)
    (h1 : 1 ≤ p.m_Speed) (h2 : p.m_Speed < 4294967296)
    (h3 : d = ESpeedChange.INCREASE_SPEED → p.m_Speed + 10 < 4294967296) :
    (∃ q, p.AlterSpeed d = some q
      ∧ (q.m_Speed : Int) = (p.m_Speed : Int)
          + (if d = ESpeedChange.INCREASE_SPEED then 1 else -1)
            * (if 60 ≤ p.m_Speed then 10 else if 15 ≤ p.m_Speed then 5
                else if d = ESpeedChange.INCREASE_SPEED ∨ 1 < p.m_Speed then 1 else 0))
      ∧ (∃ p1 q1, p.SetHertz 50 = some p1 ∧ p1.m_Speed = 50 ∧ p1.m_BaseSpeed = 50
          ∧ p1.AlterSpeed ESpeedChange.INCREASE_SPEED = some q1 ∧ q1.m_Speed = 55) := by
  constructor
  · obtain ⟨q, hq, hv, _⟩ := AlterSpeed_value p d h1 h2 h3
    exact ⟨q, hq, hv⟩
  · exact ⟨_, _, rfl, rfl, rfl, rfl, rfl⟩

/-- C1 (witness): the amended statement at the freshly constructed pacer (speed 60), increase. -/
theorem AlterSpeed_steps_relative_to_default_witness :
    (1 ≤ (CSpeedLimiter.ctor 0).m_Speed ∧ (CSpeedLimiter.ctor 0).m_Speed < 4294967296)
      ∧ ((∃ q, (CSpeedLimiter.ctor 0).AlterSpeed ESpeedChange.INCREASE_SPEED = some q
        ∧ (q.m_Speed : Int) = ((CSpeedLimiter.ctor 0).m_Speed : Int)
            + (if ESpeedChange.INCREASE_SPEED = ESpeedChange.INCREASE_SPEED then 1 else -1)
              * (if 60 ≤ (CSpeedLimiter.ctor 0).m_Speed then 10
                  else if 15 ≤ (CSpeedLimiter.ctor 0).m_Speed then 5
                  else if ESpeedChange.INCREASE_SPEED = ESpeedChange.INCREASE_SPEED
                      ∨ 1 < (CSpeedLimiter.ctor 0).m_Speed then 1 else 0))
        ∧ (∃ p1 q1, (CSpeedLimiter.ctor 0).SetHertz 50 = some p1 ∧ p1.m_Speed = 50
            ∧ p1.m_BaseSpeed = 50
            ∧ p1.AlterSpeed ESpeedChange.INCREASE_SPEED = some q1 ∧ q1.m_Speed = 55)) :=
  ⟨⟨by decide, by decide⟩,
    AlterSpeed_steps_relative_to_default (CSpeedLimiter.ctor 0) ESpeedChange.INCREASE_SPEED
      (by decide) (by decide) (fun _ => by decide)⟩

theorem run_nil (s : CSpeedLimiter × List TickResult) : run s [] = some s := rfl

theorem run_cons (s : CSpeedLimiter × List TickResult) (op : Op) (ops : List Op) :
    run s (op :: ops) = (exec s op).bind fun t => run t ops := by
  simp only [run, List.foldlM_cons]
  rfl

theorem run_append (s : CSpeedLimiter × List TickResult) (ops1 ops2 : List Op) :
    run s (ops1 ++ ops2) = (run s ops1).bind fun t => run t ops2 := by
  simp only [run, List.foldlM_append]
  rfl

theorem exec_Timer_Process (p : CSpeedLimiter) (rs : List TickResult) (now : Nat)
    (FrameRate : Bool) (r : TickResult) (h : p.Timer_Process now FrameRate = some r) :
    exec (p, rs) (Op.Timer_Process now FrameRate) = some (r.state, r :: rs) := by
  simp [exec, h]

theorem exec_AlterSpeed (p q : CSpeedLimiter) (rs : List TickResult) (d : ESpeedChange)
    (h : p.AlterSpeed d = some q) : exec (p, rs) (Op.AlterSpeed d) = some (q, rs) := by
  simp [exec, h]

/-- Repeated increases from a speed of at least 60 add 10 each, as long as the sum stays below
`2 ^ 32`. -/
theorem run_increases (k : Nat) (p : CSpeedLimiter) (rs : List TickResult)
    (h1 : 60 ≤ p.m_Speed) (h2 : p.m_Speed + 10 * k < 4294967296) :
    ∃ q, run (p, rs) (List.replicate k (Op.AlterSpeed ESpeedChange.INCREASE_SPEED)) = some (q, rs)
      ∧ q.m_Speed = p.m_Speed + 10 * k ∧ q.m_BaseSpeed = p.m_BaseSpeed := by
  induction k generalizing p with
  | zero => exact ⟨p, rfl, rfl, rfl⟩
  | succ k ih =>
    obtain ⟨q1, hq1, hv, _, _, hb, _⟩ :=
      AlterSpeed_value p ESpeedChange.INCREASE_SPEED (by omega) (by omega) (fun _ => by omega)
    simp only [if_true, true_or] at hv
    rw [if_pos h1] at hv
    have hs1 : q1.m_Speed = p.m_Speed + 10 := by omega
    obtain ⟨q, hq, hs, hbq⟩ := ih q1 (by omega) (by omega)
    refine ⟨q, ?_, by omega, by rw [hbq, hb]⟩
    rw [List.replicate_succ, run_cons, exec_AlterSpeed _ _ _ _ hq1, Option.some_bind]
    exact hq

/-- C2 (counterexample).  On a pacer whose base speed is the default 60, `SetSpeed(2147483647)`
followed by `214748364` increases brings the speed to `4294967287`; one more
`AlterSpeed(INCREASE_SPEED)` does not yield `s + 10`: the 32-bit sum wraps around and the speed
becomes 1. -/
theorem AlterSpeed_increase_wraps :
    ∃ q q1,
      run (CSpeedLimiter.ctor 0, [])
          (Op.SetSpeed 2147483647
            :: List.replicate 214748364 (Op.AlterSpeed ESpeedChange.INCREASE_SPEED))
          = some (q, [])
        ∧ q.m_BaseSpeed = 60 ∧ q.m_Speed = 4294967287
        ∧ q.AlterSpeed ESpeedChange.INCREASE_SPEED = some q1
        ∧ q1.m_Speed = 1 ∧ q1.m_Speed ≠ 4294967287 + 10 := by
  obtain ⟨p0, hp0, hs0, _, hb0, _⟩ :=
    SetSpeed_value (CSpeedLimiter.ctor 0) 2147483647 (by norm_num)
  have hs0' : p0.m_Speed = 2147483647 := by
    have : max (2147483647 : Int) 1 = 2147483647 := by norm_num
    rw [this] at hs0
    exact_mod_cast hs0
  obtain ⟨q, hq, hs, hb⟩ := run_increases 214748364 p0 [] (by omega) (by omega)
  have hsq : q.m_Speed = 4294967287 := by omega
  have hbq : q.m_BaseSpeed = 60 := by rw [hb, hb0]; rfl
  have hstep : ∃ q1, q.AlterSpeed ESpeedChange.INCREASE_SPEED = some q1 ∧ q1.m_Speed = 1 := by
    unfold CSpeedLimiter.AlterSpeed
    simp only [hsq, m_DefaultSpeed, toUInt32, reduceCtorEq, if_false]
    rw [FixSpeedRatio_of_pos _ (by simp only []; decide)]
    exact ⟨_, rfl, by simp only []; decide⟩
  obtain ⟨q1, hq1, hs1⟩ := hstep
  refine ⟨q, q1, ?_, hbq, hsq, hq1, hs1, by rw [hs1]; decide⟩
  rw [run_cons]
  have : exec (CSpeedLimiter.ctor 0, []) (Op.SetSpeed 2147483647) = some (p0, []) := by
    simp [exec, hp0]
  rw [this, Option.some_bind]
  exact hq

/-- C2 (amended).  On a pacer whose base speed is the default 60, for every speed `s` with
`1 ≤ s`: `AlterSpeed(INCREASE_SPEED)` yields `s + 10` if `s ≥ 60`, `s + 5` if `15 ≤ s < 60` and
`s + 1` if `s < 15`, provided `s ≤ 4294967285` so that the sum stays below `2 ^ 32`;
`AlterSpeed(DECREASE_SPEED)` yields `s - 10` if `s ≥ 60`, `s - 5` if `15 ≤ s < 60`, `s - 1` if
`2 ≤ s < 15`, and leaves `s = 1` unchanged. -/
theorem AlterSpeed_at_default_base (p : CSpeedLimiter) (hb : p.m_BaseSpeed = 60)
    (h1 : 1 ≤ p.m_Speed) (h2 : p.m_Speed < 4294967296) :
    (p.m_Speed ≤ 4294967285 →
        ∃ q, p.AlterSpeed ESpeedChange.INCREASE_SPEED = some q ∧ q.m_BaseSpeed = 60
          ∧ q.m_Speed = if 60 ≤ p.m_Speed then p.m_Speed + 10
              else if 15 ≤ p.m_Speed then p.m_Speed + 5 else p.m_Speed + 1)
      ∧ (∃ q, p.AlterSpeed ESpeedChange.DECREASE_SPEED = some q ∧ q.m_BaseSpeed = 60
          ∧ q.m_Speed = if 60 ≤ p.m_Speed then p.m_Speed - 10
              else if 15 ≤ p.m_Speed then p.m_Speed - 5
              else if 2 ≤ p.m_Speed then p.m_Speed - 1 else p.m_Speed)
      ∧ (∃ q1 q2, (CSpeedLimiter.ctor 0).AlterSpeed ESpeedChange.INCREASE_SPEED = some q1
          ∧ q1.m_Speed = 70 ∧ q1.AlterSpeed ESpeedChange.INCREASE_SPEED = some q2
          ∧ q2.m_Speed = 80)
      ∧ (∃ q1 q2, (CSpeedLimiter.ctor 0).SetSpeed 20 = some q1 ∧ q1.m_BaseSpeed = 60
          ∧ q1.AlterSpeed ESpeedChange.DECREASE_SPEED = some q2 ∧ q2.m_Speed = 15)
      ∧ (∃ q1 q2, (CSpeedLimiter.ctor 0).SetSpeed 2 = some q1 ∧ q1.m_BaseSpeed = 60
          ∧ q1.AlterSpeed ESpeedChange.DECREASE_SPEED = some q2 ∧ q2.m_Speed = 1)
      ∧ (∃ q1 q2, (CSpeedLimiter.ctor 0).SetSpeed 1 = some q1 ∧ q1.m_BaseSpeed = 60
          ∧ q1.AlterSpeed ESpeedChange.DECREASE_SPEED = some q2 ∧ q2.m_Speed = 1) := by
  refine ⟨?_, ?_, ⟨_, _, rfl, rfl, rfl, rfl⟩, ⟨_, _, rfl, rfl, rfl, rfl⟩,
    ⟨_, _, rfl, rfl, rfl, rfl⟩, ⟨_, _, rfl, rfl, rfl, rfl⟩⟩
  · intro h3
    obtain ⟨q, hq, hv, _, _, hbase, _⟩ :=
      AlterSpeed_value p ESpeedChange.INCREASE_SPEED h1 h2 (fun _ => by omega)
    refine ⟨q, hq, by rw [hbase, hb], ?_⟩
    simp only [if_true, true_or] at hv
    split_ifs at hv ⊢ <;> omega
  · obtain ⟨q, hq, hv, _, _, hbase, _⟩ :=
      AlterSpeed_value p ESpeedChange.DECREASE_SPEED h1 h2 (fun h => by cases h)
    refine ⟨q, hq, by rw [hbase, hb], ?_⟩
    simp only [reduceCtorEq, if_false, false_or] at hv
    split_ifs at hv ⊢ <;> omega

/-- C2 (witness): the amended statement on the freshly constructed pacer, whose speed and base
speed are 60: an increase gives 70 and a decrease gives 50. -/
theorem AlterSpeed_at_default_base_witness :
    ((CSpeedLimiter.ctor 0).m_BaseSpeed = 60 ∧ 1 ≤ (CSpeedLimiter.ctor 0).m_Speed
        ∧ (CSpeedLimiter.ctor 0).m_Speed < 4294967296)
      ∧ (((CSpeedLimiter.ctor 0).m_Speed ≤ 4294967285 →
          ∃ q, (CSpeedLimiter.ctor 0).AlterSpeed ESpeedChange.INCREASE_SPEED = some q
            ∧ q.m_BaseSpeed = 60
            ∧ q.m_Speed = if 60 ≤ (CSpeedLimiter.ctor 0).m_Speed then
                (CSpeedLimiter.ctor 0).m_Speed + 10
              else if 15 ≤ (CSpeedLimiter.ctor 0).m_Speed then (CSpeedLimiter.ctor 0).m_Speed + 5
              else (CSpeedLimiter.ctor 0).m_Speed + 1)
        ∧ ∃ q, (CSpeedLimiter.ctor 0).AlterSpeed ESpeedChange.DECREASE_SPEED = some q
            ∧ q.m_BaseSpeed = 60
            ∧ q.m_Speed = if 60 ≤ (CSpeedLimiter.ctor 0).m_Speed then
                (CSpeedLimiter.ctor 0).m_Speed - 10
              else if 15 ≤ (CSpeedLimiter.ctor 0).m_Speed then (CSpeedLimiter.ctor 0).m_Speed - 5
              else if 2 ≤ (CSpeedLimiter.ctor 0).m_Speed then (CSpeedLimiter.ctor 0).m_Speed - 1
              else (CSpeedLimiter.ctor 0).m_Speed) :=
  ⟨⟨rfl, by decide, by decide⟩,
    (AlterSpeed_at_default_base (CSpeedLimiter.ctor 0) rfl (by decide) (by decide)).1,
    (AlterSpeed_at_default_base (CSpeedLimiter.ctor 0) rfl (by decide) (by decide)).2.1⟩

/-- C3.  For every state and every `int` argument `v`, `SetSpeed(v)` is defined, and afterwards
`GetSpeed()` returns `max v 1`, `GetBaseSpeed()` returns what it returned before, the progress
counter `m_Frames` is 0, and exactly one notification was emitted: the event log is the old log
followed by the single event `SpeedChanged (max v 1)`. -/
theorem SetSpeed_clamps_and_notifies (p : CSpeedLimiter) (v : Int)
    (hv : -2147483648 ≤ v ∧ v ≤ 2147483647) :
    ∃ q, p.SetSpeed v = some q ∧ q.GetSpeed = max v 1 ∧ q.GetBaseSpeed = p.GetBaseSpeed
      ∧ q.m_Frames = 0 ∧ q.events = p.events ++ [Event.SpeedChanged (max v 1).toNat] := by
  obtain ⟨q, hq, hs, _, hb, hf, he⟩ := SetSpeed_value p v hv
  refine ⟨q, hq, ?_, ?_, hf, ?_⟩
  · unfold CSpeedLimiter.GetSpeed toInt32
    split_ifs <;> omega
  · unfold CSpeedLimiter.GetBaseSpeed
    rw [hb]
  · rw [he, ← hs]
    rfl

/-- C3 (witness): `SetSpeed(0)` and `SetSpeed(-5)` on the freshly constructed pacer both give
`GetSpeed() = max v 1 = 1`. -/
theorem SetSpeed_clamps_and_notifies_witness :
    ((-2147483648 ≤ (0 : Int) ∧ (0 : Int) ≤ 2147483647)
        ∧ ∃ q, (CSpeedLimiter.ctor 0).SetSpeed 0 = some q ∧ q.GetSpeed = max 0 1
          ∧ q.GetBaseSpeed = (CSpeedLimiter.ctor 0).GetBaseSpeed ∧ q.m_Frames = 0
          ∧ q.events = (CSpeedLimiter.ctor 0).events ++ [Event.SpeedChanged (max 0 1 : Int).toNat])
      ∧ ((-2147483648 ≤ (-5 : Int) ∧ (-5 : Int) ≤ 2147483647)
        ∧ ∃ q, (CSpeedLimiter.ctor 0).SetSpeed (-5) = some q ∧ q.GetSpeed = max (-5) 1
          ∧ q.GetBaseSpeed = (CSpeedLimiter.ctor 0).GetBaseSpeed ∧ q.m_Frames = 0
          ∧ q.events
            = (CSpeedLimiter.ctor 0).events ++ [Event.SpeedChanged (max (-5) 1 : Int).toNat]) :=
  ⟨⟨by decide, SetSpeed_clamps_and_notifies (CSpeedLimiter.ctor 0) 0 (by decide)⟩,
    ⟨by decide, SetSpeed_clamps_and_notifies (CSpeedLimiter.ctor 0) (-5) (by decide)⟩⟩

/-- C4 (counterexample).  `AlterSpeed` applied to a state with `m_Speed ≥ 1` need not leave
`m_MicroSecondsPerFrame = 1000000 / m_Speed`: after `SetHertz(4294967286)` the speed is
`2 ^ 32 - 10`, an increase wraps `m_Speed` to 0, and `FixSpeedRatio` divides by zero. -/
theorem AlterSpeed_can_divide_by_zero :
    ∃ p, (CSpeedLimiter.ctor 0).SetHertz 4294967286 = some p ∧ 1 ≤ p.m_Speed
      ∧ p.m_Speed < 4294967296 ∧ p.AlterSpeed ESpeedChange.INCREASE_SPEED = none :=
  ⟨_, rfl, by decide, by decide, rfl⟩

/-- C4 (amended).  After `SetHertz(R)` for every rate `R ≥ 1`, after `SetSpeed(v)` for every
`int` `v`, and after `AlterSpeed(d)` applied to a state with `m_Speed ≥ 1` other than an increase
at `m_Speed = 4294967286 = 2 ^ 32 - 10`, the call is defined and `m_MicroSecondsPerFrame` equals
the truncating integer quotient `1000000 / m_Speed` for the resulting speed. -/
theorem microseconds_per_frame_consistent (p : CSpeedLimiter) (R : Nat) (v : Int)
    (d : ESpeedChange) (hR : 1 ≤ R) (hv : -2147483648 ≤ v ∧ v ≤ 2147483647)
    (h1 : 1 ≤ p.m_Speed) (h2 : p.m_Speed < 4294967296)
    (h3 : ¬ (d = ESpeedChange.INCREASE_SPEED ∧ p.m_Speed = 4294967286)) :
    (∃ q, p.SetHertz R = some q ∧ q.m_Speed = R
        ∧ q.m_MicroSecondsPerFrame = 1000000 / q.m_Speed)
      ∧ (∃ q, p.SetSpeed v = some q ∧ (q.m_Speed : Int) = max v 1
        ∧ q.m_MicroSecondsPerFrame = 1000000 / q.m_Speed)
      ∧ (∃ q, p.AlterSpeed d = some q ∧ 1 ≤ q.m_Speed
        ∧ q.m_MicroSecondsPerFrame = 1000000 / q.m_Speed) := by
  refine ⟨?_, ?_, ?_⟩
  · obtain ⟨q, hq, hs, _, hm, _⟩ := SetHertz_value p R hR
    exact ⟨q, hq, hs, by rw [hm, hs]⟩
  · obtain ⟨q, hq, hs, hm, _⟩ := SetSpeed_value p v hv
    exact ⟨q, hq, hs, hm⟩
  · obtain ⟨q, hq, hs, _, hm⟩ := AlterSpeed_defined p d h1 h2 h3
    exact ⟨q, hq, hs, hm⟩

/-- C4 (witness): the amended statement on the freshly constructed pacer with `R = 50`,
`v = 25` and an increase. -/
theorem microseconds_per_frame_consistent_witness :
    (1 ≤ 50 ∧ (-2147483648 ≤ (25 : Int) ∧ (25 : Int) ≤ 2147483647)
        ∧ 1 ≤ (CSpeedLimiter.ctor 0).m_Speed ∧ (CSpeedLimiter.ctor 0).m_Speed < 4294967296
        ∧ ¬ (ESpeedChange.INCREASE_SPEED = ESpeedChange.INCREASE_SPEED
          ∧ (CSpeedLimiter.ctor 0).m_Speed = 4294967286))
      ∧ ((∃ q, (CSpeedLimiter.ctor 0).SetHertz 50 = some q ∧ q.m_Speed = 50
          ∧ q.m_MicroSecondsPerFrame = 1000000 / q.m_Speed)
        ∧ (∃ q, (CSpeedLimiter.ctor 0).SetSpeed 25 = some q ∧ (q.m_Speed : Int) = max 25 1
          ∧ q.m_MicroSecondsPerFrame = 1000000 / q.m_Speed)
        ∧ (∃ q, (CSpeedLimiter.ctor 0).AlterSpeed ESpeedChange.INCREASE_SPEED = some q
          ∧ 1 ≤ q.m_Speed ∧ q.m_MicroSecondsPerFrame = 1000000 / q.m_Speed)) :=
  ⟨⟨by decide, by decide, by decide, by decide, by decide⟩,
    microseconds_per_frame_consistent (CSpeedLimiter.ctor 0) 50 25 ESpeedChange.INCREASE_SPEED
      (by decide) (by decide) (by decide) (by decide) (by decide)⟩

/-- C5 (the code at the failing input).  `SetHertz` does not clamp its argument: `SetHertz(0)`
stores 0 into `m_Speed` and `m_BaseSpeed`, and the division `1000000 / m_Speed` in
`FixSpeedRatio` is then a division by zero, so the call has no defined outcome, whereas
`SetSpeed(0)` on the same pacer is clamped and leaves speed 1.  More generally `SetHertz(r)`
leaves a state with `m_Speed ≥ 1` exactly when `r ≥ 1`. -/
theorem SetHertz_zero_is_not_clamped (u : Nat) :
    (CSpeedLimiter.ctor u).SetHertz 0 = none
      ∧ ({ CSpeedLimiter.ctor u with m_Speed := 0, m_BaseSpeed := 0 } : CSpeedLimiter).FixSpeedRatio
          = (CSpeedLimiter.ctor u).SetHertz 0
      ∧ (∃ q, (CSpeedLimiter.ctor u).SetSpeed 0 = some q ∧ q.m_Speed = 1)
      ∧ ∀ r : Nat, (∃ q, (CSpeedLimiter.ctor u).SetHertz r = some q ∧ 1 ≤ q.m_Speed) ↔ 1 ≤ r := by
  refine ⟨rfl, rfl, ⟨_, rfl, rfl⟩, ?_⟩
  intro r
  constructor
  · rintro ⟨q, hq, _⟩
    unfold CSpeedLimiter.SetHertz at hq
    have := (FixSpeedRatio_some _ _ hq).1
    simpa using this
  · intro hr
    obtain ⟨q, hq, hs, _⟩ := SetHertz_value (CSpeedLimiter.ctor u) r hr
    exact ⟨q, hq, by omega⟩

/-- C6.  For every state and every rate `R ≥ 1`, `SetHertz(R)` is defined and sets
`m_Speed = R` and `m_BaseSpeed = R`, sets `m_MicroSecondsPerFrame = 1000000 / R`, resets the
progress counter `m_Frames` to 0, and emits no notification (the event log is unchanged). -/
theorem SetHertz_rebaselines (p : CSpeedLimiter) (R : Nat) (hR : 1 ≤ R) :
    ∃ q, p.SetHertz R = some q ∧ q.m_Speed = R ∧ q.m_BaseSpeed = R
      ∧ q.m_MicroSecondsPerFrame = 1000000 / R ∧ q.m_Frames = 0 ∧ q.events = p.events :=
  SetHertz_value p R hR

/-- C6 (witness): `SetHertz(50)` on the freshly constructed pacer. -/
theorem SetHertz_rebaselines_witness :
    1 ≤ 50 ∧ ∃ q, (CSpeedLimiter.ctor 0).SetHertz 50 = some q ∧ q.m_Speed = 50
      ∧ q.m_BaseSpeed = 50 ∧ q.m_MicroSecondsPerFrame = 1000000 / 50 ∧ q.m_Frames = 0
      ∧ q.events = (CSpeedLimiter.ctor 0).events :=
  ⟨by decide, SetHertz_rebaselines (CSpeedLimiter.ctor 0) 50 (by decide)⟩

/-- C7 (the code at the failing input).  The constructor sets `m_Speed = 60`,
`m_BaseSpeed = 60` and `m_Frames = 0`, but it does not set `m_MicroSecondsPerFrame`: the field
keeps whatever value `u` its storage held, so on a pacer constructed over zeroed storage it is 0
and not `1000000 / 60 = 16666`.  Only a later `SetHertz`, `SetSpeed` or `AlterSpeed` makes it
consistent with the speed. -/
theorem ctor_leaves_microseconds_per_frame_unset (u : Nat) :
    (CSpeedLimiter.ctor u).m_Speed = 60 ∧ (CSpeedLimiter.ctor u).m_BaseSpeed = 60
      ∧ (CSpeedLimiter.ctor u).m_Frames = 0
      ∧ (CSpeedLimiter.ctor u).m_MicroSecondsPerFrame = u
      ∧ (CSpeedLimiter.ctor 0).m_MicroSecondsPerFrame
          ≠ 1000000 / (CSpeedLimiter.ctor 0).m_Speed
      ∧ 1000000 / (CSpeedLimiter.ctor 0).m_Speed = 16666 :=
  ⟨rfl, rfl, rfl, rfl, by decide, by decide⟩

/-! ### The claims on the pacing tick -/

theorem ctor_WF (u : Nat) (hu : u < 4294967296) : (CSpeedLimiter.ctor u).WF := by
  constructor <;> simp [CSpeedLimiter.ctor, m_DefaultSpeed, hu]

/-- C8.  On a well-formed state, for a clock reading below `2 ^ 61` and before the tick counter
`sleepTimesIndex` reaches `2 ^ 32 - 1`, a pacing tick is defined, and it anchors if and only if
no schedule start is recorded (`StartFPSTime` is zero, as on the very first tick), or the previous
tick ended in the needs-reset state (`hasBeenReset` is false), or `m_MicroSecondsPerFrame` differs
from the value `lastMicrosecondsPerFrame` seen by the previous tick.  An anchoring tick leaves
`StartFPSTime = now`, `m_Frames = 0` and `lastFrameRateSet = 0`; every other tick leaves
`m_Frames` increased by exactly 1 and `StartFPSTime` unchanged. -/
theorem Timer_Process_anchors_iff (p : CSpeedLimiter) (hp : p.WF) (now : Nat)
    (hnow : now < 2305843009213693952) (hidx : p.sleepTimesIndex ≠ 4294967295)
    (FrameRate : Bool) :
    ∃ r, p.Timer_Process now FrameRate = some r
      ∧ (r.anchored = true ↔ (p.StartFPSTime = 0 ∨ p.hasBeenReset = false
          ∨ p.lastMicrosecondsPerFrame ≠ p.m_MicroSecondsPerFrame))
      ∧ (r.anchored = true →
          r.state.StartFPSTime = now ∧ r.state.m_Frames = 0 ∧ r.state.lastFrameRateSet = 0)
      ∧ (r.anchored = false →
          r.state.m_Frames = p.m_Frames + 1 ∧ r.state.StartFPSTime = p.StartFPSTime) := by
  obtain ⟨r, hr, hs, _⟩ := Timer_Process_spec p hp now hnow hidx FrameRate
  have hfr := hp.frames_le
  have hix := hp.index_lt
  refine ⟨r, hr, ?_, ?_, ?_⟩
  · rw [hs.anchored]
    simp [CSpeedLimiter.needsAnchor, or_assoc]
  · intro ha
    rw [hs.anchored] at ha
    have h1 := hs.start
    have h2 := hs.frames
    have h3 := hs.rateSet
    simp only [CSpeedLimiter.anchorStep, ha, if_true] at h1 h2 h3
    refine ⟨h1, h2, ?_⟩
    rw [h3]
    split_ifs <;> rfl
  · intro ha
    rw [hs.anchored] at ha
    have h1 := hs.start
    have h2 := hs.frames
    simp only [CSpeedLimiter.anchorStep, ha, Bool.false_eq_true, if_false] at h1 h2
    refine ⟨?_, h1⟩
    rw [h2]
    exact Nat.mod_eq_of_lt (by omega)

/-- C8 (witness): the first tick of a freshly constructed pacer, at clock reading 1000. -/
theorem Timer_Process_anchors_iff_witness :
    ((CSpeedLimiter.ctor 0).WF ∧ 1000 < 2305843009213693952
        ∧ (CSpeedLimiter.ctor 0).sleepTimesIndex ≠ 4294967295)
      ∧ ∃ r, (CSpeedLimiter.ctor 0).Timer_Process 1000 true = some r
        ∧ (r.anchored = true ↔ ((CSpeedLimiter.ctor 0).StartFPSTime = 0
            ∨ (CSpeedLimiter.ctor 0).hasBeenReset = false
            ∨ (CSpeedLimiter.ctor 0).lastMicrosecondsPerFrame
                ≠ (CSpeedLimiter.ctor 0).m_MicroSecondsPerFrame))
        ∧ (r.anchored = true →
            r.state.StartFPSTime = 1000 ∧ r.state.m_Frames = 0 ∧ r.state.lastFrameRateSet = 0)
        ∧ (r.anchored = false →
            r.state.m_Frames = (CSpeedLimiter.ctor 0).m_Frames + 1
              ∧ r.state.StartFPSTime = (CSpeedLimiter.ctor 0).StartFPSTime) :=
  ⟨⟨ctor_WF 0 (by decide), by decide, by decide⟩,
    Timer_Process_anchors_iff (CSpeedLimiter.ctor 0) (ctor_WF 0 (by decide)) 1000 (by decide)
      (by decide) true⟩

theorem sleepCeiling_nonneg (p : CSpeedLimiter) : 0 ≤ p.sleepCeiling := by
  unfold CSpeedLimiter.sleepCeiling
  apply f32_nonneg
  apply mul_nonneg
  · exact f32_nonneg (by norm_num)
  · apply f32_nonneg
    apply div_nonneg
    · exact f32_nonneg (by positivity)
    · exact f32_nonneg (by positivity)

/-- An anchoring tick: the schedule restarts at `now`, the drift sample is 0 and the tick does
not mark the schedule for a reset. -/
theorem Timer_Process_anchoring (p : CSpeedLimiter) (hp : p.WF) (now : Nat)
    (hnow : now < 2305843009213693952) (hidx : p.sleepTimesIndex ≠ 4294967295)
    (FrameRate : Bool) (ha : p.needsAnchor = true) :
    ∃ r, p.Timer_Process now FrameRate = some r ∧ TickSpec p now FrameRate r ∧ r.state.WF
      ∧ r.anchored = true ∧ r.sleepTime = 0 ∧ r.state.m_Frames = 0
      ∧ r.state.StartFPSTime = now ∧ r.state.hasBeenReset = true := by
  obtain ⟨r, hr, hs, hw⟩ := Timer_Process_spec p hp now hnow hidx FrameRate
  have h1 := hs.start
  have h2 := hs.frames
  have h3 := hs.sleepTime
  simp only [CSpeedLimiter.anchorStep, ha, if_true, CSpeedLimiter.totalElapsedGameTime] at h1 h2 h3
  have h4 : r.sleepTime = 0 := by rw [h3]; simp
  refine ⟨r, hr, hs, hw, by rw [hs.anchored, ha], h4, h2, h1, ?_⟩
  rw [hs.reset, h4]
  have := sleepCeiling_nonneg p
  rw [if_neg]
  rintro (h | h)
  · omega
  · simp only [Int.cast_zero, f32_zero] at h
    linarith

/-- A tick that does not anchor: the progress counter advances by one and the drift sample is
the expected elapsed time minus the time elapsed since the schedule start. -/
theorem Timer_Process_steady (p : CSpeedLimiter) (hp : p.WF) (now : Nat)
    (hnow : now < 2305843009213693952) (hidx : p.sleepTimesIndex ≠ 4294967295)
    (FrameRate : Bool) (ha : p.needsAnchor = false) :
    ∃ r, p.Timer_Process now FrameRate = some r ∧ TickSpec p now FrameRate r ∧ r.state.WF
      ∧ r.anchored = false ∧ r.state.m_Frames = p.m_Frames + 1
      ∧ r.state.StartFPSTime = p.StartFPSTime
      ∧ r.sleepTime
        = ((p.m_MicroSecondsPerFrame * (p.m_Frames + 1) % 4294967296 : Nat) : Int)
          - ((now : Int) - p.StartFPSTime) := by
  obtain ⟨r, hr, hs, hw⟩ := Timer_Process_spec p hp now hnow hidx FrameRate
  have hfr := hp.frames_le
  have hix := hp.index_lt
  have hm : (p.m_Frames + 1) % 4294967296 = p.m_Frames + 1 := Nat.mod_eq_of_lt (by omega)
  have h1 := hs.start
  have h2 := hs.frames
  have h3 := hs.sleepTime
  simp only [CSpeedLimiter.anchorStep, ha, Bool.false_eq_true, if_false,
    CSpeedLimiter.totalElapsedGameTime, hm] at h1 h2 h3
  exact ⟨r, hr, hs, hw, by rw [hs.anchored, ha], h2, h1, h3⟩

theorem needsAnchor_of_reset (p : CSpeedLimiter) (h : p.hasBeenReset = false) :
    p.needsAnchor = true := by
  simp [CSpeedLimiter.needsAnchor, h]

theorem needsAnchor_eq_false (p : CSpeedLimiter) (h1 : p.StartFPSTime ≠ 0)
    (h2 : p.hasBeenReset = true)
    (h3 : p.lastMicrosecondsPerFrame = p.m_MicroSecondsPerFrame) :
    p.needsAnchor = false := by
  simp [CSpeedLimiter.needsAnchor, h1, h2, h3]

/-- The value of `maxSleepNeeded*speedFactor` at speed 39 and base speed 60: the single-precision
quotient is `10905190 / 2 ^ 24`, just below `39 / 60`, and the product rounds to
`16639999 / 512 = 32499.998046875`, just below the exact bound 32500. -/
theorem sleepCeiling_39_60 (p : CSpeedLimiter) (hs : p.m_Speed = 39) (hb : p.m_BaseSpeed = 60) :
    p.sleepCeiling = 16639999 / 512 := by
  unfold CSpeedLimiter.sleepCeiling
  rw [hs, hb, f32_fifty_thousand]
  have e1 : f32 ((39 : Nat) : ℚ) = 39 := by
    have h := f32_natCast 39 (by norm_num)
    simpa using h
  have e2 : f32 ((60 : Nat) : ℚ) = 60 := by
    have h := f32_natCast 60 (by norm_num)
    simpa using h
  rw [e1, e2]
  have e3 : f32 ((39 : ℚ) / 60) = 10905190 / 16777216 := by
    rw [f32_eval (-1) (by norm_num) (by norm_num)]
    norm_num [roundHalfEven, Int.fract]
  rw [e3]
  rw [f32_eval 14 (by norm_num) (by norm_num)]
  norm_num [roundHalfEven, Int.fract]

/-- C9 (counterexample).  The upper bound of the reset window is not the exact product
`50000 * (speed / baseSpeed)`.  After `SetHertz(60)`, `SetSpeed(39)` and ticks at clock readings
1000 and 1001, the tick at clock reading 19782 has two frames of `25641` microseconds expected
and `18782` microseconds elapsed, so its drift is 32500.  That is inside the exact window
(`32500 > 50000 * (39 / 60) = 32500` is false, and `32500 < -50000` is false), yet the tick ends
in the needs-reset state, because the single-precision bound is `32499.998046875`. -/
theorem reset_window_bound_is_rounded :
    ∃ q rs r,
      run (CSpeedLimiter.ctor 0, [])
          [Op.SetHertz 60, Op.SetSpeed 39, Op.Timer_Process 1000 true,
            Op.Timer_Process 1001 true] = some (q, rs)
        ∧ q.m_Speed = 39 ∧ q.m_BaseSpeed = 60
        ∧ q.Timer_Process 19782 true = some r
        ∧ r.sleepTime = 32500
        ∧ ¬ ((32500 : ℚ) < -50000 ∨ (32500 : ℚ) > 50000 * ((39 : ℚ) / 60))
        ∧ r.state.hasBeenReset = false := by
  -- the state after `SetHertz(60)` and `SetSpeed(39)`
  obtain ⟨s2, hs2, e2⟩ : ∃ s2 : CSpeedLimiter,
      (((CSpeedLimiter.ctor 0).SetHertz 60).bind fun q => q.SetSpeed 39) = some s2
        ∧ s2 = { CSpeedLimiter.ctor 0 with
            m_Speed := 39, m_MicroSecondsPerFrame := 25641,
            events := [Event.SpeedChanged 39] } := ⟨_, rfl, rfl⟩
  have wf2 : s2.WF := by
    rw [e2]
    constructor <;> simp [CSpeedLimiter.ctor, m_DefaultSpeed]
  have a2 : s2.needsAnchor = true := by rw [e2]; rfl
  -- the anchoring tick at 1000
  obtain ⟨r1, h1, t1, w1, _, _, f1, st1, rs1⟩ :=
    Timer_Process_anchoring s2 wf2 1000 (by norm_num) (by rw [e2]; decide) true a2
  have i1 : r1.state.sleepTimesIndex = 1 := by rw [t1.index, e2]; rfl
  have m1 : r1.state.m_MicroSecondsPerFrame = 25641 := by rw [t1.mspf, e2]
  have a1 : r1.state.needsAnchor = false :=
    needsAnchor_eq_false _ (by rw [st1]; decide) rs1 (by rw [t1.lastMspf, t1.mspf])
  -- the tick at 1001
  obtain ⟨r2, h2, t2, w2, _, f2, st2, d2⟩ :=
    Timer_Process_steady r1.state w1 1001 (by norm_num) (by rw [i1]; decide) true a1
  have sp2 : r2.state.m_Speed = 39 := by rw [t2.speed, t1.speed, e2]
  have bs2 : r2.state.m_BaseSpeed = 60 := by rw [t2.base, t1.base, e2]; rfl
  have c1 : r1.state.sleepCeiling = 16639999 / 512 :=
    sleepCeiling_39_60 _ (by rw [t1.speed, e2]) (by rw [t1.base, e2]; rfl)
  have c2 : r2.state.sleepCeiling = 16639999 / 512 := sleepCeiling_39_60 _ sp2 bs2
  have d2' : r2.sleepTime = 25640 := by
    rw [d2, m1, f1, st1]; norm_num
  have rs2 : r2.state.hasBeenReset = true := by
    rw [t2.reset, d2', c1]
    have e : f32 ((25640 : Int) : ℚ) = 25640 := by
      have h := f32_intCast 25640 (by norm_num)
      simpa using h
    rw [if_neg]
    rintro (h | h)
    · omega
    · rw [e] at h; norm_num at h
  have i2 : r2.state.sleepTimesIndex = 2 := by rw [t2.index, i1]
  have m2 : r2.state.m_MicroSecondsPerFrame = 25641 := by rw [t2.mspf, m1]
  have a3 : r2.state.needsAnchor = false :=
    needsAnchor_eq_false _ (by rw [st2, st1]; decide) rs2 (by rw [t2.lastMspf, t2.mspf])
  -- the tick at 19782
  obtain ⟨r3, h3, t3, w3, _, f3, st3, d3⟩ :=
    Timer_Process_steady r2.state w2 19782 (by norm_num) (by rw [i2]; decide) true a3
  have d3' : r3.sleepTime = 32500 := by
    rw [d3, m2, f2, f1, st2, st1]; norm_num
  refine ⟨r2.state, [r2, r1], r3, ?_, sp2, bs2, h3, d3', by norm_num, ?_⟩
  · have hpre : run (CSpeedLimiter.ctor 0, []) [Op.SetHertz 60, Op.SetSpeed 39]
        = some (s2, []) := by
      rw [e2]; rfl
    have hl : [Op.SetHertz 60, Op.SetSpeed 39, Op.Timer_Process 1000 true,
          Op.Timer_Process 1001 true]
        = [Op.SetHertz 60, Op.SetSpeed 39]
          ++ [Op.Timer_Process 1000 true, Op.Timer_Process 1001 true] := rfl
    rw [hl, run_append, hpre]
    simp only [Option.some_bind, run_cons, exec_Timer_Process _ _ _ _ _ h1,
      exec_Timer_Process _ _ _ _ _ h2, run_nil]
  · rw [t3.reset, d3', c2]
    have e : f32 ((32500 : Int) : ℚ) = 32500 := by
      have h := f32_intCast 32500 (by norm_num)
      simpa using h
    rw [if_pos]
    right
    rw [e]
    norm_num

/-- C9 (amended).  On a well-formed state, for a clock reading below `2 ^ 61` and before the tick
counter reaches `2 ^ 32 - 1`, a pacing tick is defined and records the drift
`expectedElapsed - actualElapsed`, where `expectedElapsed` is the 32-bit product
`m_MicroSecondsPerFrame * m_Frames` and `actualElapsed` is `now - StartFPSTime`.  The tick ends in
the needs-reset state if and only if the drift is below `-50000` (a bound that is not scaled) or
the drift, converted to single precision, exceeds the single-precision product of 50000 and the
single-precision quotient `m_Speed / m_BaseSpeed`.  In particular a tick whose `actualElapsed`
exceeds `expectedElapsed + 50000` ends in needs-reset, and after a tick that ended in needs-reset
the following tick anchors: it is defined and leaves `m_Frames = 0` and `StartFPSTime` equal to
its own clock reading. -/
theorem Timer_Process_reset_window (p : CSpeedLimiter) (hp : p.WF) (now : Nat)
    (hnow : now < 2305843009213693952) (hidx : p.sleepTimesIndex ≠ 4294967295)
    (FrameRate : Bool) :
    ∃ r, p.Timer_Process now FrameRate = some r
      ∧ r.sleepTime
          = ((p.m_MicroSecondsPerFrame * r.state.m_Frames % 4294967296 : Nat) : Int)
            - ((now : Int) - r.state.StartFPSTime)
      ∧ (r.state.hasBeenReset = false ↔
          (r.sleepTime < -50000
            ∨ f32 r.sleepTime > f32 (50000 * f32 (f32 p.m_Speed / f32 p.m_BaseSpeed))))
      ∧ ((now : Int) - r.state.StartFPSTime
            > ((p.m_MicroSecondsPerFrame * r.state.m_Frames % 4294967296 : Nat) : Int) + 50000 →
          r.state.hasBeenReset = false)
      ∧ (r.state.hasBeenReset = false →
          ∀ (now2 : Nat) (FrameRate2 : Bool), now2 < 2305843009213693952 →
            r.state.sleepTimesIndex ≠ 4294967295 →
            ∃ r2, r.state.Timer_Process now2 FrameRate2 = some r2 ∧ r2.anchored = true
              ∧ r2.state.m_Frames = 0 ∧ r2.state.StartFPSTime = now2) := by
  obtain ⟨r, hr, hs, hw⟩ := Timer_Process_spec p hp now hnow hidx FrameRate
  have hd : r.sleepTime
      = ((p.m_MicroSecondsPerFrame * r.state.m_Frames % 4294967296 : Nat) : Int)
        - ((now : Int) - r.state.StartFPSTime) := by
    rw [hs.sleepTime, hs.frames, hs.start]
    unfold CSpeedLimiter.totalElapsedGameTime
    rw [(anchorStep_fixed p now).2.2.1]
  have hiff : r.state.hasBeenReset = false ↔
      (r.sleepTime < -50000
        ∨ f32 r.sleepTime > f32 (50000 * f32 (f32 p.m_Speed / f32 p.m_BaseSpeed))) := by
    rw [hs.reset]
    unfold CSpeedLimiter.sleepCeiling
    rw [f32_fifty_thousand]
    split_ifs with h
    · simp [h]
    · simp only [Bool.true_eq_false, false_iff]
      exact h
  refine ⟨r, hr, hd, hiff, ?_, ?_⟩
  · intro h
    apply hiff.2
    left
    rw [hd]
    omega
  · intro h now2 FrameRate2 hnow2 hidx2
    obtain ⟨r2, hr2, _, _, ha, _, hf, hst, _⟩ :=
      Timer_Process_anchoring r.state hw now2 hnow2 hidx2 FrameRate2 (needsAnchor_of_reset _ h)
    exact ⟨r2, hr2, ha, hf, hst⟩

/-- C9 (witness): the amended statement for the first tick of a freshly constructed pacer, at
clock reading 1000. -/
theorem Timer_Process_reset_window_witness :
    ((CSpeedLimiter.ctor 0).WF ∧ 1000 < 2305843009213693952
        ∧ (CSpeedLimiter.ctor 0).sleepTimesIndex ≠ 4294967295)
      ∧ ∃ r, (CSpeedLimiter.ctor 0).Timer_Process 1000 true = some r
        ∧ r.sleepTime
            = (((CSpeedLimiter.ctor 0).m_MicroSecondsPerFrame * r.state.m_Frames
                % 4294967296 : Nat) : Int)
              - (((1000 : Nat) : Int) - r.state.StartFPSTime)
        ∧ (r.state.hasBeenReset = false ↔
            (r.sleepTime < -50000
              ∨ f32 r.sleepTime > f32 (50000 * f32 (f32 (CSpeedLimiter.ctor 0).m_Speed
                  / f32 (CSpeedLimiter.ctor 0).m_BaseSpeed))))
        ∧ (((1000 : Nat) : Int) - r.state.StartFPSTime
              > (((CSpeedLimiter.ctor 0).m_MicroSecondsPerFrame * r.state.m_Frames
                  % 4294967296 : Nat) : Int) + 50000 →
            r.state.hasBeenReset = false)
        ∧ (r.state.hasBeenReset = false →
            ∀ (now2 : Nat) (FrameRate2 : Bool), now2 < 2305843009213693952 →
              r.state.sleepTimesIndex ≠ 4294967295 →
              ∃ r2, r.state.Timer_Process now2 FrameRate2 = some r2 ∧ r2.anchored = true
                ∧ r2.state.m_Frames = 0 ∧ r2.state.StartFPSTime = now2) :=
  ⟨⟨ctor_WF 0 (by decide), by decide, by decide⟩,
    Timer_Process_reset_window (CSpeedLimiter.ctor 0) (ctor_WF 0 (by decide)) 1000 (by decide)
      (by decide) true⟩

/-! ### Runs and the ring of drift samples -/

/-- The tick on which `sleepTimesIndex` would wrap to zero is undefined (the mean would be a
division by zero), so a defined tick starts below `2 ^ 32 - 1`. -/
theorem Timer_Process_index_ne (p : CSpeedLimiter) (now : Nat) (FrameRate : Bool)
    (r : TickResult) (h : p.Timer_Process now FrameRate = some r) :
    p.sleepTimesIndex ≠ 4294967295 := by
  intro hc
  have f5 := (anchorStep_fixed p now).2.2.2.2.1
  have hE : (if (4294967295 + 1) % 4294967296 > 3 then 3
      else (4294967295 + 1) % 4294967296) = 0 := by decide
  have hn : p.Timer_Process now FrameRate = none := by
    unfold CSpeedLimiter.Timer_Process
    by_cases g1 : inInt64 ((p.anchorStep now).totalElapsedGameTime
        - (p.anchorStep now).elapsedRealTime now)
    · by_cases g2 : (p.anchorStep now).m_BaseSpeed = 0
      · simp only [g1, g2, not_true_eq_false, if_false, if_true]
      · simp only [g1, g2, not_true_eq_false, if_false, f5, hc, m_AverageSamples, hE, if_true]
    · simp only [g1, not_false_eq_true, if_true]
  rw [hn] at h
  exact Option.noConfusion h

theorem SetHertz_WF (p q : CSpeedLimiter) (hp : p.WF) (R : Nat) (hR : R < 4294967296)
    (h : p.SetHertz R = some q) :
    q.WF ∧ q.sleepTimes = p.sleepTimes ∧ q.sleepTimesIndex = p.sleepTimesIndex := by
  unfold CSpeedLimiter.SetHertz at h
  obtain ⟨h1, rfl⟩ := FixSpeedRatio_some _ _ h
  simp only [] at h1
  have hdiv : 1000000 / R ≤ 1000000 := Nat.div_le_self _ _
  refine ⟨⟨h1, hR, h1, hR, Nat.zero_le _, hp.index_lt, ?_, hp.rateSet_lt, hp.lastTime_lt,
    hp.start_lt, hp.s0_bound, hp.s1_bound, hp.s2_bound⟩, rfl, rfl⟩
  simp only []
  omega

theorem SetSpeed_WF (p q : CSpeedLimiter) (hp : p.WF) (v : Int)
    (hv : -2147483648 ≤ v ∧ v ≤ 2147483647) (h : p.SetSpeed v = some q) :
    q.WF ∧ q.sleepTimes = p.sleepTimes ∧ q.sleepTimesIndex = p.sleepTimesIndex := by
  unfold CSpeedLimiter.SetSpeed at h
  obtain ⟨h1, rfl⟩ := FixSpeedRatio_some _ _ h
  simp only [] at h1
  have hs : ((toUInt32 (if v < 1 then 1 else v) : Nat) : Int) = max v 1 := by
    rw [toUInt32_of_nonneg _ (by split_ifs <;> omega) (by split_ifs <;> omega)]
    split_ifs <;> omega
  have hdiv : 1000000 / toUInt32 (if v < 1 then 1 else v) ≤ 1000000 := Nat.div_le_self _ _
  refine ⟨⟨h1, ?_, hp.base_pos, hp.base_lt, Nat.zero_le _, hp.index_lt, ?_, hp.rateSet_lt,
    hp.lastTime_lt, hp.start_lt, hp.s0_bound, hp.s1_bound, hp.s2_bound⟩, rfl, rfl⟩
  · simp only []
    omega
  · simp only []
    omega

theorem AlterSpeed_WF (p q : CSpeedLimiter) (hp : p.WF) (d : ESpeedChange)
    (h : p.AlterSpeed d = some q) :
    q.WF ∧ q.sleepTimes = p.sleepTimes ∧ q.sleepTimesIndex = p.sleepTimesIndex := by
  have h1 := hp.speed_pos
  have h2 := hp.speed_lt
  by_cases hc : d = ESpeedChange.INCREASE_SPEED ∧ p.m_Speed = 4294967286
  · exfalso
    obtain ⟨rfl, hs⟩ := hc
    unfold CSpeedLimiter.AlterSpeed at h
    simp [m_DefaultSpeed, toUInt32, hs, CSpeedLimiter.FixSpeedRatio] at h
  · obtain ⟨q', hq', a, b, c⟩ := AlterSpeed_defined p d h1 h2 hc
    rw [hq'] at h
    simp only [Option.some.injEq] at h
    subst h
    unfold CSpeedLimiter.AlterSpeed at hq'
    obtain ⟨_, e⟩ := FixSpeedRatio_some _ _ hq'
    have hdiv : 1000000 / q'.m_Speed ≤ 1000000 := Nat.div_le_self _ _
    have e1 : q'.m_BaseSpeed = p.m_BaseSpeed := by rw [e]
    have e2 : q'.m_Frames = 0 := by rw [e]
    have e3 : q'.sleepTimesIndex = p.sleepTimesIndex := by rw [e]
    have e4 : q'.lastFrameRateSet = p.lastFrameRateSet := by rw [e]
    have e5 : q'.m_LastTime = p.m_LastTime := by rw [e]
    have e6 : q'.StartFPSTime = p.StartFPSTime := by rw [e]
    have e7 : q'.sleepTimes = p.sleepTimes := by rw [e]
    refine ⟨⟨a, b, by rw [e1]; exact hp.base_pos, by rw [e1]; exact hp.base_lt,
      by rw [e2]; exact Nat.zero_le _, by rw [e3]; exact hp.index_lt, by rw [c]; omega,
      by rw [e4]; exact hp.rateSet_lt, by rw [e5]; exact hp.lastTime_lt,
      by rw [e6]; exact hp.start_lt, by rw [e7]; exact hp.s0_bound,
      by rw [e7]; exact hp.s1_bound, by rw [e7]; exact hp.s2_bound⟩, e7, e3⟩

theorem SleepTimes.get_set (a : SleepTimes) (i j : Nat) (v : Int) (hi : i < 3) (hj : j < 3) :
    (a.set i v).get j = if i = j then v else a.get j := by
  have hi' : i = 0 ∨ i = 1 ∨ i = 2 := by omega
  have hj' : j = 0 ∨ j = 1 ∨ j = 2 := by omega
  rcases hi' with rfl | rfl | rfl <;> rcases hj' with rfl | rfl | rfl <;>
    simp [SleepTimes.get, SleepTimes.set]

theorem ctor_RunInv (u : Nat) (hu : u < 4294967296) : RunInv (CSpeedLimiter.ctor u, []) := by
  refine ⟨ctor_WF u hu, rfl, ?_⟩
  intro j _ hj
  simp at hj

theorem exec_RunInv (s t : CSpeedLimiter × List TickResult) (op : Op) (hs : RunInv s)
    (hop : op.InRange) (h : exec s op = some t) : RunInv t := by
  obtain ⟨p, rs⟩ := s
  obtain ⟨hw, hi, hring⟩ := hs
  simp only at hw hi hring
  cases op with
  | SetHertz R =>
    simp only [exec, Option.map_eq_some'] at h
    obtain ⟨q, hq, rfl⟩ := h
    obtain ⟨w, e1, e2⟩ := SetHertz_WF p q hw R hop hq
    exact ⟨w, by simp only [e2, hi], by simpa only [e1] using hring⟩
  | SetSpeed v =>
    simp only [exec, Option.map_eq_some'] at h
    obtain ⟨q, hq, rfl⟩ := h
    obtain ⟨w, e1, e2⟩ := SetSpeed_WF p q hw v hop hq
    exact ⟨w, by simp only [e2, hi], by simpa only [e1] using hring⟩
  | AlterSpeed d =>
    simp only [exec, Option.map_eq_some'] at h
    obtain ⟨q, hq, rfl⟩ := h
    obtain ⟨w, e1, e2⟩ := AlterSpeed_WF p q hw d hq
    exact ⟨w, by simp only [e2, hi], by simpa only [e1] using hring⟩
  | Timer_Process now fr =>
    simp only [exec, Option.map_eq_some'] at h
    obtain ⟨r, hr, rfl⟩ := h
    have hidx := Timer_Process_index_ne p now fr r hr
    obtain ⟨r', hr', hs', hw'⟩ := Timer_Process_spec p hw now hop hidx fr
    rw [hr] at hr'
    simp only [Option.some.injEq] at hr'
    subst hr'
    refine ⟨hw', by simp only [hs'.index, hi, List.length_cons], ?_⟩
    intro j hj3 hjn
    simp only [List.length_cons] at hjn ⊢
    rw [hs'.samples, hi, SleepTimes.get_set _ _ _ _ (Nat.mod_lt _ (by norm_num))
      (Nat.mod_lt _ (by norm_num))]
    rcases Nat.eq_zero_or_pos j with rfl | hpos
    · simp
    · have hne : ¬ rs.length % 3 = (rs.length + 1 - 1 - j) % 3 := by omega
      rw [if_neg hne]
      have := hring (j - 1) (by omega) (by omega)
      have e : (rs.length + 1 - 1 - j) % 3 = (rs.length - 1 - (j - 1)) % 3 := by
        congr 1; omega
      rw [e, this]
      obtain ⟨j', rfl⟩ : ∃ j', j = j' + 1 := ⟨j - 1, by omega⟩
      simp

theorem run_RunInv (ops : List Op) (s t : CSpeedLimiter × List TickResult) (hs : RunInv s)
    (hops : ∀ op ∈ ops, op.InRange) (h : run s ops = some t) : RunInv t := by
  induction ops generalizing s with
  | nil =>
    rw [run_nil] at h
    simp only [Option.some.injEq] at h
    rw [← h]
    exact hs
  | cons op ops ih =>
    rw [run_cons] at h
    cases he : exec s op with
    | none => rw [he] at h; simp at h
    | some s' =>
      rw [he, Option.some_bind] at h
      exact ih s' (exec_RunInv s s' op hs (hops op (List.mem_cons_self _ _)) he)
        (fun o ho => hops o (List.mem_cons_of_mem _ ho)) h

/-- For a sample of magnitude at most `2 ^ 50` the mean over one slot is the sample. -/
theorem averageSleep_exact_one (a : SleepTimes) (h0 : |a.s0| ≤ 1125899906842624) :
    truncToInt (averageSleep a 1) = Int.tdiv a.s0 1 := by
  have a0 := abs_le.1 h0
  have e0 : f64 (a.s0 : ℚ) = a.s0 := f64_intCast _ (by rw [abs_le]; omega)
  rw [averageSleep_one, e0, e0, f64_one]
  have := truncToInt_f64_div a.s0 1 (by norm_num) (by norm_num) (by rw [abs_le]; omega)
  simpa using this

/-- For samples of magnitude at most `2 ^ 50` the `double` mean over two slots, truncated, is
the truncating integer quotient of their sum by 2. -/
theorem averageSleep_exact_two (a : SleepTimes) (h0 : |a.s0| ≤ 1125899906842624)
    (h1 : |a.s1| ≤ 1125899906842624) :
    truncToInt (averageSleep a 2) = Int.tdiv (a.s0 + a.s1) 2 := by
  have a0 := abs_le.1 h0
  have a1 := abs_le.1 h1
  have e0 : f64 (a.s0 : ℚ) = a.s0 := f64_intCast _ (by rw [abs_le]; omega)
  have e1 : f64 (a.s1 : ℚ) = a.s1 := f64_intCast _ (by rw [abs_le]; omega)
  have e01 : f64 ((a.s0 : ℚ) + (a.s1 : ℚ)) = ((a.s0 + a.s1 : Int) : ℚ) := by
    have := f64_intCast (a.s0 + a.s1) (by rw [abs_le]; omega)
    rw [← this]
    push_cast
    rfl
  rw [averageSleep_two, e0, e0, e1, e01, f64_two]
  have := truncToInt_f64_div (a.s0 + a.s1) 2 (by norm_num) (by norm_num)
    (by rw [abs_le]; omega)
  simpa using this

/-- For samples of magnitude at most `2 ^ 50` the `double` mean over three slots, truncated, is
the truncating integer quotient of their sum by 3. -/
theorem averageSleep_exact_three (a : SleepTimes) (h0 : |a.s0| ≤ 1125899906842624)
    (h1 : |a.s1| ≤ 1125899906842624) (h2 : |a.s2| ≤ 1125899906842624) :
    truncToInt (averageSleep a 3) = Int.tdiv (a.s0 + a.s1 + a.s2) 3 := by
  have a0 := abs_le.1 h0
  have a1 := abs_le.1 h1
  have a2 := abs_le.1 h2
  have e0 : f64 (a.s0 : ℚ) = a.s0 := f64_intCast _ (by rw [abs_le]; omega)
  have e1 : f64 (a.s1 : ℚ) = a.s1 := f64_intCast _ (by rw [abs_le]; omega)
  have e2 : f64 (a.s2 : ℚ) = a.s2 := f64_intCast _ (by rw [abs_le]; omega)
  have e01 : f64 ((a.s0 : ℚ) + (a.s1 : ℚ)) = ((a.s0 + a.s1 : Int) : ℚ) := by
    have := f64_intCast (a.s0 + a.s1) (by rw [abs_le]; omega)
    rw [← this]
    push_cast
    rfl
  have e012 : f64 (((a.s0 + a.s1 : Int) : ℚ) + (a.s2 : ℚ))
      = ((a.s0 + a.s1 + a.s2 : Int) : ℚ) := by
    have := f64_intCast (a.s0 + a.s1 + a.s2) (by rw [abs_le]; omega)
    rw [← this]
    push_cast
    rfl
  rw [averageSleep_three, e0, e0, e1, e01, e2, e012, f64_three]
  have := truncToInt_f64_div (a.s0 + a.s1 + a.s2) 3 (by norm_num) (by norm_num)
    (by rw [abs_le]; omega)
  simpa using this

theorem SleepTimes.sum_of_distinct (a : SleepTimes) (i0 i1 i2 : Nat) (h0 : i0 < 3) (h1 : i1 < 3)
    (h2 : i2 < 3) (d01 : i0 ≠ i1) (d02 : i0 ≠ i2) (d12 : i1 ≠ i2) (B : Int)
    (b0 : |a.get i0| ≤ B) (b1 : |a.get i1| ≤ B) (b2 : |a.get i2| ≤ B) :
    a.s0 + a.s1 + a.s2 = a.get i0 + a.get i1 + a.get i2
      ∧ |a.s0| ≤ B ∧ |a.s1| ≤ B ∧ |a.s2| ≤ B := by
  have c0 : i0 = 0 ∨ i0 = 1 ∨ i0 = 2 := by omega
  have c1 : i1 = 0 ∨ i1 = 1 ∨ i1 = 2 := by omega
  have c2 : i2 = 0 ∨ i2 = 1 ∨ i2 = 2 := by omega
  have g0 : a.get 0 = a.s0 := rfl
  have g1 : a.get 1 = a.s1 := rfl
  have g2 : a.get 2 = a.s2 := rfl
  rcases c0 with rfl | rfl | rfl <;> rcases c1 with rfl | rfl | rfl <;>
    rcases c2 with rfl | rfl | rfl <;>
    first
      | exact absurd rfl d01
      | exact absurd rfl d02
      | exact absurd rfl d12
      | (rw [g0, g1, g2]
         rw [g0] at b0
         rw [g1] at b1
         rw [g2] at b2
         exact ⟨by omega, by assumption, by assumption, by assumption⟩)
      | (simp only [g0, g1, g2] at b0 b1 b2 ⊢
         exact ⟨by omega, by assumption, by assumption, by assumption⟩)

/-- C10 (amended).  In every run from the constructed pacer, made of calls whose arguments are in
range, the `k`-th pacing tick (for `k < 2 ^ 32`, at a clock reading below `2 ^ 61`) is defined,
stores its drift sample `d_k` in slot `(k - 1) % 3` of the ring and averages `min k 3` samples.
When the last `min k 3` samples have magnitude at most `2 ^ 50`, the average it uses is exactly
their arithmetic mean truncated toward zero: `d_1 .. d_k` when `k < 3`, never padded with zeros,
and `d_(k-2), d_(k-1), d_k` when `k ≥ 3`.  Here `rs` holds the results of the `k - 1` earlier
ticks, most recent first. -/
theorem ring_mean_of_recent_samples (u : Nat) (hu : u < 4294967296) (ops : List Op)
    (hops : ∀ op ∈ ops, op.InRange) (q : CSpeedLimiter) (rs : List TickResult)
    (hrun : run (CSpeedLimiter.ctor u, []) ops = some (q, rs))
    (hk : rs.length + 1 < 4294967296) (now : Nat) (hnow : now < 2305843009213693952)
    (FrameRate : Bool) :
    ∃ r, q.Timer_Process now FrameRate = some r
      ∧ r.state.sleepTimes.get (rs.length % 3) = r.sleepTime
      ∧ r.elementsForAverage = min (rs.length + 1) 3
      ∧ ((∀ x ∈ (r :: rs).take 3, |x.sleepTime| ≤ 1125899906842624) →
          r.averageSleepUs
            = Int.tdiv (((r :: rs).take 3).map TickResult.sleepTime).sum
                ((min (rs.length + 1) 3 : Nat) : Int)) := by
  have inv := run_RunInv ops _ _ (ctor_RunInv u hu) hops hrun
  have hw : q.WF := inv.1
  have hi : q.sleepTimesIndex = rs.length := inv.2.1
  have hidx : q.sleepTimesIndex ≠ 4294967295 := by omega
  obtain ⟨r, hr, hs, hw'⟩ := Timer_Process_spec q hw now hnow hidx FrameRate
  have inv' := exec_RunInv (q, rs) (r.state, r :: rs) (Op.Timer_Process now FrameRate) inv hnow
    (exec_Timer_Process _ _ _ _ _ hr)
  obtain ⟨_, _, hring⟩ := inv'
  simp only [List.length_cons] at hring
  have hE : r.elementsForAverage = min (rs.length + 1) 3 := by
    rw [hs.elements, hi]
    split_ifs <;> omega
  have hslot : r.state.sleepTimes.get (rs.length % 3) = r.sleepTime := by
    have := hring 0 (by norm_num) (by omega)
    simpa using this
  refine ⟨r, hr, hslot, hE, ?_⟩
  intro hb
  rw [hs.average, hE]
  match rs, hring, hslot, hb with
  | [], hring, hslot, hb =>
    have b0 : |r.sleepTime| ≤ 1125899906842624 := hb r (by simp)
    have g0 : r.state.sleepTimes.s0 = r.sleepTime := hslot
    have := averageSleep_exact_one r.state.sleepTimes (by rw [g0]; exact b0)
    have hm : min ([] : List TickResult).length.succ 3 = 1 := rfl
    simp only [Nat.succ_eq_add_one] at hm
    rw [hm, this, g0]
    simp
  | [x1], hring, hslot, hb =>
    have b0 : |r.sleepTime| ≤ 1125899906842624 := hb r (by simp)
    have b1 : |x1.sleepTime| ≤ 1125899906842624 := hb x1 (by simp)
    have g1 : r.state.sleepTimes.s1 = r.sleepTime := hslot
    have g0 : r.state.sleepTimes.s0 = x1.sleepTime := hring 1 (by norm_num) (by simp)
    have := averageSleep_exact_two r.state.sleepTimes (by rw [g0]; exact b1)
      (by rw [g1]; exact b0)
    have hm : min ([x1].length + 1) 3 = 2 := rfl
    rw [hm, this, g0, g1]
    simp only [List.take, List.map_cons, List.map_nil, List.sum_cons, List.sum_nil]
    congr 1
    omega
  | x1 :: x2 :: tl, hring, hslot, hb =>
    have b0 : |r.sleepTime| ≤ 1125899906842624 := hb r (by simp)
    have b1 : |x1.sleepTime| ≤ 1125899906842624 := hb x1 (by simp)
    have b2 : |x2.sleepTime| ≤ 1125899906842624 := hb x2 (by simp)
    have k0 := hring 0 (by norm_num) (by simp)
    have k1 := hring 1 (by norm_num) (by simp)
    have k2 := hring 2 (by norm_num) (by simp)
    simp only [List.length_cons, List.map_cons, List.getD_cons_zero, List.getD_cons_succ]
      at k0 k1 k2
    obtain ⟨hsum, c0, c1, c2⟩ := SleepTimes.sum_of_distinct r.state.sleepTimes
      ((tl.length + 1 + 1 + 1 - 1 - 0) % 3) ((tl.length + 1 + 1 + 1 - 1 - 1) % 3)
      ((tl.length + 1 + 1 + 1 - 1 - 2) % 3)
      (Nat.mod_lt _ (by norm_num)) (Nat.mod_lt _ (by norm_num)) (Nat.mod_lt _ (by norm_num))
      (by omega) (by omega) (by omega) 1125899906842624
      (by rw [k0]; exact b0) (by rw [k1]; exact b1) (by rw [k2]; exact b2)
    have := averageSleep_exact_three r.state.sleepTimes c0 c1 c2
    have hm : min ((x1 :: x2 :: tl).length + 1) 3 = 3 := by
      simp only [List.length_cons]; omega
    rw [hm, this, hsum, k0, k1, k2]
    simp only [List.take, List.map_cons, List.map_nil, List.sum_cons, List.sum_nil]
    congr 1
    omega

/-- C10 (witness): the first tick after `SetHertz(60)` on a freshly constructed pacer, at clock
reading 1000. -/
theorem ring_mean_of_recent_samples_witness :
    ((0 : Nat) < 4294967296 ∧ (∀ op ∈ [Op.SetHertz 60], op.InRange)
        ∧ run (CSpeedLimiter.ctor 0, []) [Op.SetHertz 60]
          = some ({ CSpeedLimiter.ctor 0 with m_MicroSecondsPerFrame := 16666 }, [])
        ∧ ([] : List TickResult).length + 1 < 4294967296 ∧ 1000 < 2305843009213693952)
      ∧ ∃ r, ({ CSpeedLimiter.ctor 0 with m_MicroSecondsPerFrame := 16666 }
            : CSpeedLimiter).Timer_Process 1000 true = some r
        ∧ r.state.sleepTimes.get (([] : List TickResult).length % 3) = r.sleepTime
        ∧ r.elementsForAverage = min (([] : List TickResult).length + 1) 3
        ∧ ((∀ x ∈ (r :: ([] : List TickResult)).take 3, |x.sleepTime| ≤ 1125899906842624) →
            r.averageSleepUs
              = Int.tdiv (((r :: ([] : List TickResult)).take 3).map TickResult.sleepTime).sum
                  ((min (([] : List TickResult).length + 1) 3 : Nat) : Int)) :=
  ⟨⟨by decide, fun op h => by
      rw [List.mem_singleton] at h
      subst h
      exact (by decide : (60 : Nat) < 4294967296), rfl, by decide, by decide⟩,
    ring_mean_of_recent_samples 0 (by decide) [Op.SetHertz 60]
      (fun op h => by
        rw [List.mem_singleton] at h
        subst h
        exact (by decide : (60 : Nat) < 4294967296))
      _ [] rfl (by decide) 1000 (by decide) true⟩

/-- C10 (counterexample).  The average is not always the arithmetic mean of the samples: it is
computed in `double`.  After `SetHertz(60)` and a tick at clock reading 1000 (drift 0), a tick
at clock reading `18014398509499652` records the drift `-(2 ^ 54 + 2)`; the conversion of that
sample to `double` rounds it to `-2 ^ 54`, so the average used over the two samples is
`-9007199254740992`, whereas their arithmetic mean is `-9007199254740993`. -/
theorem average_is_rounded_in_double :
    ∃ q rs r,
      run (CSpeedLimiter.ctor 0, []) [Op.SetHertz 60, Op.Timer_Process 1000 true] = some (q, rs)
        ∧ q.Timer_Process 18014398509499652 true = some r
        ∧ (r :: rs).map TickResult.sleepTime = [-18014398509481986, 0]
        ∧ r.elementsForAverage = 2
        ∧ r.averageSleepUs = -9007199254740992
        ∧ Int.tdiv ((-18014398509481986 : Int) + 0) 2 = -9007199254740993 := by
  obtain ⟨s1, e1⟩ : ∃ s1 : CSpeedLimiter,
      s1 = { CSpeedLimiter.ctor 0 with m_MicroSecondsPerFrame := 16666 } := ⟨_, rfl⟩
  have hpre : run (CSpeedLimiter.ctor 0, []) [Op.SetHertz 60] = some (s1, []) := by
    rw [e1]; rfl
  have wf1 : s1.WF := by
    rw [e1]
    constructor <;> simp [CSpeedLimiter.ctor, m_DefaultSpeed]
  have a1 : s1.needsAnchor = true := by rw [e1]; rfl
  obtain ⟨r1, h1, t1, w1, _, d1, f1, st1, rs1⟩ :=
    Timer_Process_anchoring s1 wf1 1000 (by norm_num) (by rw [e1]; decide) true a1
  have i1 : r1.state.sleepTimesIndex = 1 := by rw [t1.index, e1]; rfl
  have m1 : r1.state.m_MicroSecondsPerFrame = 16666 := by rw [t1.mspf, e1]
  have sm1 : r1.state.sleepTimes = { s0 := 0, s1 := 0, s2 := 0 } := by
    rw [t1.samples, d1, e1]; rfl
  have a2 : r1.state.needsAnchor = false :=
    needsAnchor_eq_false _ (by rw [st1]; decide) rs1 (by rw [t1.lastMspf, t1.mspf])
  obtain ⟨r2, h2, t2, w2, _, f2, st2, d2⟩ :=
    Timer_Process_steady r1.state w1 18014398509499652 (by norm_num) (by rw [i1]; decide)
      true a2
  have d2' : r2.sleepTime = -18014398509481986 := by
    rw [d2, m1, f1, st1]; norm_num
  have sm2 : r2.state.sleepTimes = { s0 := 0, s1 := -18014398509481986, s2 := 0 } := by
    rw [t2.samples, sm1, i1, d2']; rfl
  have el2 : r2.elementsForAverage = 2 := by rw [t2.elements, i1]; rfl
  have c1 : f64 ((-18014398509481986 : Int) : ℚ) = -18014398509481984 := by
    have e : ((-18014398509481986 : Int) : ℚ) = -(18014398509481986 : ℚ) := by norm_num
    rw [e, f64_neg, f64_eval 54 (by norm_num) (by norm_num)]
    norm_num [roundHalfEven, Int.fract]
  have c2 : f64 (-18014398509481984 : ℚ) = -18014398509481984 := by
    have h := roundNE_exact 52 (-1) 54 (by norm_num)
    norm_num at h
    exact h
  have c3 : f64 (-9007199254740992 : ℚ) = -9007199254740992 := by
    have h := f64_intCast (-9007199254740992) (by norm_num)
    simpa using h
  have av2 : r2.averageSleepUs = -9007199254740992 := by
    rw [t2.average, el2, sm2, averageSleep_two]
    simp only [Int.cast_zero, f64_zero, zero_add]
    rw [c1, c2, f64_two]
    have e : (-18014398509481984 : ℚ) / 2 = -9007199254740992 := by norm_num
    rw [e, c3]
    have h := truncToInt_intCast (-9007199254740992)
    simpa using h
  refine ⟨r1.state, [r1], r2, ?_, h2, ?_, el2, av2, by decide⟩
  · have hl : [Op.SetHertz 60, Op.Timer_Process 1000 true]
        = [Op.SetHertz 60] ++ [Op.Timer_Process 1000 true] := rfl
    rw [hl, run_append, hpre]
    simp only [Option.some_bind, run_cons, exec_Timer_Process _ _ _ _ _ h1, run_nil]
  · simp only [List.map_cons, List.map_nil, d2', d1]

/-! ### The sleep request -/

/-- The value of `maxSleepNeeded*speedFactor` at speed 9 and base speed 60: the single-precision
quotient is `10066330 / 2 ^ 26`, just above `9 / 60`, and the product rounds to
`15360001 / 2048 = 7500.00048828125`, just above the exact bound 7500. -/
theorem sleepCeiling_9_60 (p : CSpeedLimiter) (hs : p.m_Speed = 9) (hb : p.m_BaseSpeed = 60) :
    p.sleepCeiling = 15360001 / 2048 := by
  unfold CSpeedLimiter.sleepCeiling
  rw [hs, hb, f32_fifty_thousand]
  have e1 : f32 ((9 : Nat) : ℚ) = 9 := by
    have h := f32_natCast 9 (by norm_num)
    simpa using h
  have e2 : f32 ((60 : Nat) : ℚ) = 60 := by
    have h := f32_natCast 60 (by norm_num)
    simpa using h
  rw [e1, e2]
  have e3 : f32 ((9 : ℚ) / 60) = 10066330 / 67108864 := by
    rw [f32_eval (-3) (by norm_num) (by norm_num)]
    norm_num [roundHalfEven, Int.fract]
  rw [e3]
  rw [f32_eval 12 (by norm_num) (by norm_num)]
  norm_num [roundHalfEven, Int.fract]

/-- C11 (counterexample).  The upper bound of the sleep test is not the exact product
`50000 * (speed / baseSpeed)`.  After `SetHertz(60)`, `SetSpeed(9)` and an anchoring tick at clock
reading 1000 (drift 0), the tick at clock reading 97111 has one frame of `111111` microseconds
expected and `96111` microseconds elapsed, so its drift is 15000 and the mean over the two
samples is 7500.  The exact bound is `50000 * (9 / 60) = 7500`, so `0 < m < 50000 * f` is false,
yet the tick requests a sleep of 7 milliseconds, because the single-precision bound is
`7500.00048828125`. -/
theorem sleep_bound_is_rounded :
    ∃ q rs r,
      run (CSpeedLimiter.ctor 0, [])
          [Op.SetHertz 60, Op.SetSpeed 9, Op.Timer_Process 1000 true] = some (q, rs)
        ∧ q.m_Speed = 9 ∧ q.m_BaseSpeed = 60
        ∧ q.Timer_Process 97111 true = some r
        ∧ r.averageSleepUs = 7500
        ∧ ¬ ((0 : ℚ) < 7500 ∧ (7500 : ℚ) < 50000 * ((9 : ℚ) / 60))
        ∧ r.state.events = q.events ++ [Event.Sleep 7] := by
  obtain ⟨s2, hs2, e2⟩ : ∃ s2 : CSpeedLimiter,
      (((CSpeedLimiter.ctor 0).SetHertz 60).bind fun q => q.SetSpeed 9) = some s2
        ∧ s2 = { CSpeedLimiter.ctor 0 with
            m_Speed := 9, m_MicroSecondsPerFrame := 111111,
            events := [Event.SpeedChanged 9] } := ⟨_, rfl, rfl⟩
  have wf2 : s2.WF := by
    rw [e2]
    constructor <;> simp [CSpeedLimiter.ctor, m_DefaultSpeed]
  have a2 : s2.needsAnchor = true := by rw [e2]; rfl
  obtain ⟨r1, h1, t1, w1, _, d1, f1, st1, rs1⟩ :=
    Timer_Process_anchoring s2 wf2 1000 (by norm_num) (by rw [e2]; decide) true a2
  have i1 : r1.state.sleepTimesIndex = 1 := by rw [t1.index, e2]; rfl
  have m1 : r1.state.m_MicroSecondsPerFrame = 111111 := by rw [t1.mspf, e2]
  have sm1 : r1.state.sleepTimes = { s0 := 0, s1 := 0, s2 := 0 } := by
    rw [t1.samples, d1, e2]; rfl
  have sp1 : r1.state.m_Speed = 9 := by rw [t1.speed, e2]
  have bs1 : r1.state.m_BaseSpeed = 60 := by rw [t1.base, e2]; rfl
  have a1 : r1.state.needsAnchor = false :=
    needsAnchor_eq_false _ (by rw [st1]; decide) rs1 (by rw [t1.lastMspf, t1.mspf])
  obtain ⟨r2, h2, t2, w2, _, f2, st2, d2⟩ :=
    Timer_Process_steady r1.state w1 97111 (by norm_num) (by rw [i1]; decide) true a1
  have d2' : r2.sleepTime = 15000 := by
    rw [d2, m1, f1, st1]; norm_num
  have sm2 : r2.state.sleepTimes = { s0 := 0, s1 := 15000, s2 := 0 } := by
    rw [t2.samples, sm1, i1, d2']; rfl
  have el2 : r2.elementsForAverage = 2 := by rw [t2.elements, i1]; rfl
  have av2 : r2.averageSleepUs = 7500 := by
    rw [t2.average, el2, sm2, averageSleep_exact_two _ (by norm_num) (by norm_num)]
    decide
  have c1 : r1.state.sleepCeiling = 15360001 / 2048 := sleepCeiling_9_60 _ sp1 bs1
  refine ⟨r1.state, [r1], r2, ?_, sp1, bs1, h2, av2, by norm_num, ?_⟩
  · have hpre : run (CSpeedLimiter.ctor 0, []) [Op.SetHertz 60, Op.SetSpeed 9]
        = some (s2, []) := by
      rw [e2]; rfl
    have hl : [Op.SetHertz 60, Op.SetSpeed 9, Op.Timer_Process 1000 true]
        = [Op.SetHertz 60, Op.SetSpeed 9] ++ [Op.Timer_Process 1000 true] := rfl
    rw [hl, run_append, hpre]
    simp only [Option.some_bind, run_cons, exec_Timer_Process _ _ _ _ _ h1, run_nil]
  · rw [t2.events, av2, c1]
    have e : f32 ((7500 : Int) : ℚ) = 7500 := by
      have h := f32_intCast 7500 (by norm_num)
      simpa using h
    rw [if_pos]
    · rfl
    · rw [e]
      norm_num

/-- At equal speed and base speed the single-precision ceiling is exactly 50000. -/
theorem sleepCeiling_of_eq (p : CSpeedLimiter) (hp : 1 ≤ p.m_Speed)
    (h : p.m_Speed = p.m_BaseSpeed) : p.sleepCeiling = 50000 := by
  unfold CSpeedLimiter.sleepCeiling
  have hpos : (0 : ℚ) < f32 (p.m_Speed : ℚ) := f32_pos (by exact_mod_cast hp)
  have e1 : f32 (1 : ℚ) = 1 := by
    have h := f32_natCast 1 (by norm_num)
    simpa using h
  rw [← h, div_self (ne_of_gt hpos), e1, f32_fifty_thousand, mul_one, f32_fifty_thousand]

/-- For a positive integer the single-precision test against 50000 is the exact comparison. -/
theorem f32_lt_fifty_thousand_iff (m : Int) (hm : 0 < m) :
    f32 (m : ℚ) < 50000 ↔ m < 50000 := by
  constructor
  · intro h
    by_contra hc
    have h1 : (50000 : ℚ) ≤ m := by
      have : (50000 : Int) ≤ m := by omega
      exact_mod_cast this
    have h2 := f32_mono h1
    rw [f32_fifty_thousand] at h2
    linarith
  · intro h
    rw [f32_intCast m (by rw [abs_le]; omega)]
    exact_mod_cast h

theorem toUInt32_tdiv (m : Int) (hm : 0 < m) :
    toUInt32 (Int.tdiv m 1000) = (m / 1000).toNat % 4294967296 := by
  unfold toUInt32
  rw [Int.tdiv_eq_ediv (le_of_lt hm) (by norm_num)]
  have h0 : 0 ≤ m / 1000 := Int.ediv_nonneg (le_of_lt hm) (by norm_num)
  omega

/-- C11 (amended).  On a well-formed state, for a clock reading below `2 ^ 61` and before the tick
counter reaches `2 ^ 32 - 1`, a pacing tick is defined and, with `m` its mean correction
`averageSleepUs`, it invokes the sleep primitive if and only if `0 < m` and `m`, converted to
single precision, is below the single-precision product of 50000 and the single-precision
quotient `m_Speed / m_BaseSpeed`.  It then invokes it exactly once, after the events already
logged, with the argument `m / 1000` reduced modulo `2 ^ 32` (which is `m / 1000` itself when
`m < 4294967296000`); otherwise the event log is unchanged, in particular whenever `m ≤ 0`.
When `m_Speed = m_BaseSpeed` the test is exactly `0 < m < 50000` and the argument is
`m / 1000`. -/
theorem Timer_Process_sleep_iff (p : CSpeedLimiter) (hp : p.WF) (now : Nat)
    (hnow : now < 2305843009213693952) (hidx : p.sleepTimesIndex ≠ 4294967295)
    (FrameRate : Bool) :
    ∃ r, p.Timer_Process now FrameRate = some r
      ∧ (r.state.events ≠ p.events ↔
          (0 < r.averageSleepUs
            ∧ f32 r.averageSleepUs < f32 (50000 * f32 (f32 p.m_Speed / f32 p.m_BaseSpeed))))
      ∧ (r.state.events ≠ p.events →
          r.state.events
            = p.events ++ [Event.Sleep ((r.averageSleepUs / 1000).toNat % 4294967296)])
      ∧ (r.averageSleepUs < 4294967296000 →
          (r.averageSleepUs / 1000).toNat % 4294967296 = (r.averageSleepUs / 1000).toNat)
      ∧ (r.averageSleepUs ≤ 0 → r.state.events = p.events)
      ∧ (p.m_Speed = p.m_BaseSpeed →
          (r.state.events ≠ p.events ↔ (0 < r.averageSleepUs ∧ r.averageSleepUs < 50000))
            ∧ (r.state.events ≠ p.events →
                r.state.events = p.events ++ [Event.Sleep (r.averageSleepUs / 1000).toNat])) := by
  obtain ⟨r, hr, hs, hw⟩ := Timer_Process_spec p hp now hnow hidx FrameRate
  have hc : p.sleepCeiling = f32 (50000 * f32 (f32 p.m_Speed / f32 p.m_BaseSpeed)) := by
    unfold CSpeedLimiter.sleepCeiling
    rw [f32_fifty_thousand]
  have hev := hs.events
  rw [hc] at hev
  have hiff : r.state.events ≠ p.events ↔
      (0 < r.averageSleepUs
        ∧ f32 r.averageSleepUs < f32 (50000 * f32 (f32 p.m_Speed / f32 p.m_BaseSpeed))) := by
    rw [hev]
    split_ifs with h
    · simp [h]
    · simp [h]
  have harg : r.state.events ≠ p.events →
      r.state.events
        = p.events ++ [Event.Sleep ((r.averageSleepUs / 1000).toNat % 4294967296)] := by
    intro hne
    have h := hiff.1 hne
    rw [hev, if_pos (by exact h), toUInt32_tdiv _ h.1]
  have hsmall : r.averageSleepUs < 4294967296000 →
      (r.averageSleepUs / 1000).toNat % 4294967296 = (r.averageSleepUs / 1000).toNat := by
    intro h
    apply Nat.mod_eq_of_lt
    omega
  refine ⟨r, hr, hiff, harg, hsmall, ?_, ?_⟩
  · intro h
    by_contra hne
    have := (hiff.1 hne).1
    omega
  · intro heq
    have h50 := sleepCeiling_of_eq p hp.speed_pos heq
    rw [hc] at h50
    have hiff2 : r.state.events ≠ p.events ↔
        (0 < r.averageSleepUs ∧ r.averageSleepUs < 50000) := by
      rw [hiff, h50]
      constructor
      · rintro ⟨h1, h2⟩
        exact ⟨h1, (f32_lt_fifty_thousand_iff _ h1).1 h2⟩
      · rintro ⟨h1, h2⟩
        exact ⟨h1, (f32_lt_fifty_thousand_iff _ h1).2 h2⟩
    refine ⟨hiff2, ?_⟩
    intro hne
    have h := hiff2.1 hne
    rw [harg hne, hsmall (by omega)]

/-- C11 (witness): the amended statement for the first tick of a freshly constructed pacer, at
clock reading 1000. -/
theorem Timer_Process_sleep_iff_witness :
    ((CSpeedLimiter.ctor 0).WF ∧ 1000 < 2305843009213693952
        ∧ (CSpeedLimiter.ctor 0).sleepTimesIndex ≠ 4294967295)
      ∧ ∃ r, (CSpeedLimiter.ctor 0).Timer_Process 1000 true = some r
        ∧ (r.state.events ≠ (CSpeedLimiter.ctor 0).events ↔
            (0 < r.averageSleepUs
              ∧ f32 r.averageSleepUs < f32 (50000 * f32 (f32 (CSpeedLimiter.ctor 0).m_Speed
                  / f32 (CSpeedLimiter.ctor 0).m_BaseSpeed))))
        ∧ (r.state.events ≠ (CSpeedLimiter.ctor 0).events →
            r.state.events = (CSpeedLimiter.ctor 0).events
              ++ [Event.Sleep ((r.averageSleepUs / 1000).toNat % 4294967296)])
        ∧ (r.averageSleepUs < 4294967296000 →
            (r.averageSleepUs / 1000).toNat % 4294967296 = (r.averageSleepUs / 1000).toNat)
        ∧ (r.averageSleepUs ≤ 0 → r.state.events = (CSpeedLimiter.ctor 0).events)
        ∧ ((CSpeedLimiter.ctor 0).m_Speed = (CSpeedLimiter.ctor 0).m_BaseSpeed →
            (r.state.events ≠ (CSpeedLimiter.ctor 0).events
                ↔ (0 < r.averageSleepUs ∧ r.averageSleepUs < 50000))
              ∧ (r.state.events ≠ (CSpeedLimiter.ctor 0).events →
                  r.state.events = (CSpeedLimiter.ctor 0).events
                    ++ [Event.Sleep (r.averageSleepUs / 1000).toNat])) :=
  ⟨⟨ctor_WF 0 (by decide), by decide, by decide⟩,
    Timer_Process_sleep_iff (CSpeedLimiter.ctor 0) (ctor_WF 0 (by decide)) 1000 (by decide)
      (by decide) true⟩

/-! ### A pacer ticked on schedule -/

theorem anchorStep_of_steady (p : CSpeedLimiter) (now : Nat) (ha : p.needsAnchor = false) :
    (p.anchorStep now).m_LastTime = p.m_LastTime
      ∧ (p.anchorStep now).lastFrameRateSet = p.lastFrameRateSet
      ∧ (p.anchorStep now).StartFPSTime = p.StartFPSTime
      ∧ (p.anchorStep now).m_Frames = (p.m_Frames + 1) % 4294967296 := by
  simp [CSpeedLimiter.anchorStep, ha]

theorem anchorStep_of_anchor (p : CSpeedLimiter) (now : Nat) (ha : p.needsAnchor = true) :
    (p.anchorStep now).m_LastTime = now
      ∧ (p.anchorStep now).lastFrameRateSet = 0
      ∧ (p.anchorStep now).StartFPSTime = now
      ∧ (p.anchorStep now).m_Frames = 0 := by
  simp [CSpeedLimiter.anchorStep, ha]

/-- A tick made exactly on schedule: the drift is 0 and the pacer stays on schedule. -/
theorem Paced.tick {R t0 k : Nat} {q : CSpeedLimiter} (h : Paced R t0 k q) (ht0 : 0 < t0)
    (hnow : t0 + 1000000 / R * (k + 1) < 2305843009213693952)
    (hwrap : 1000000 / R * (k + 1) < 4294967296) (hk : k + 1 < 4294967295)
    (FrameRate : Bool) :
    ∃ r, q.Timer_Process (t0 + 1000000 / R * (k + 1)) FrameRate = some r
      ∧ TickSpec q (t0 + 1000000 / R * (k + 1)) FrameRate r
      ∧ r.anchored = false ∧ r.sleepTime = 0 ∧ Paced R t0 (k + 1) r.state := by
  have ha : q.needsAnchor = false :=
    needsAnchor_eq_false q (by rw [h.start]; omega) h.reset (by rw [h.lastMspf, h.mspf])
  obtain ⟨r, hr, hs, hw, han, hf, hst, hd⟩ :=
    Timer_Process_steady q h.wf _ hnow (by rw [h.index]; omega) FrameRate ha
  obtain ⟨a1, a2, a3, a4⟩ := anchorStep_of_steady q (t0 + 1000000 / R * (k + 1)) ha
  have hd0 : r.sleepTime = 0 := by
    rw [hd, h.mspf, h.frames, h.start, Nat.mod_eq_of_lt hwrap]
    push_cast
    ring
  have hreset : r.state.hasBeenReset = true := by
    rw [hs.reset, hd0]
    have := sleepCeiling_nonneg q
    rw [if_neg]
    rintro (h1 | h1)
    · omega
    · simp only [Int.cast_zero, f32_zero] at h1
      linarith
  refine ⟨r, hr, hs, han, hd0, ⟨hw, by rw [hs.speed, h.speed], by rw [hs.base, h.base],
    by rw [hs.mspf, h.mspf], by rw [hs.lastMspf, h.mspf], hreset, by rw [hst, h.start],
    by rw [hf, h.frames], by rw [hs.index, h.index], ?_⟩⟩
  intro hq
  have hmono : 1000000 / R * k ≤ 1000000 / R * (k + 1) := Nat.mul_le_mul_left _ (by omega)
  obtain ⟨q1, q2⟩ := h.quiet (by omega)
  have hrep : r.reported = false := by
    rw [hs.reported, a1, q1]
    simp only [decide_eq_false_iff_not, not_le]
    omega
  rw [hs.lastTime, hs.rateSet, hrep, a1, a2]
  simp only [Bool.false_eq_true, if_false]
  exact ⟨q1, q2⟩

theorem ticksEvery_succ (t0 step n : Nat) :
    ticksEvery t0 step (n + 1)
      = ticksEvery t0 step n ++ [Op.Timer_Process (t0 + step * n) true] := by
  simp [ticksEvery, List.range_succ]

theorem ticksEvery_InRange (t0 step n : Nat)
    (h : ∀ i, i < n → t0 + step * i < 2305843009213693952) :
    ∀ op ∈ ticksEvery t0 step n, op.InRange := by
  intro op hop
  simp only [ticksEvery, List.mem_map, List.mem_range] at hop
  obtain ⟨i, hi, rfl⟩ := hop
  exact h i hi

/-- A pacer set to `R` units per second and ticked exactly on schedule stays on schedule: the
run of `SetHertz(R)` and `k + 1` ticks spaced `1000000 / R` apart is defined, its first tick
anchors and its last `k` ticks do not. -/
theorem run_paced (R t0 : Nat) (hR : 1 ≤ R) (hR2 : R < 4294967296) (ht0 : 0 < t0) (k : Nat)
    (hwrap : 1000000 / R * k < 4294967296) (hk : k < 4294967295)
    (hnow : t0 + 1000000 / R * k < 2305843009213693952) :
    ∃ q rs, run (CSpeedLimiter.ctor 0, []) (Op.SetHertz R :: ticksEvery t0 (1000000 / R) (k + 1))
        = some (q, rs)
      ∧ rs.length = k + 1 ∧ Paced R t0 k q ∧ ticksSinceAnchor rs = k := by
  induction k with
  | zero =>
    obtain ⟨s1, h1, e1⟩ : ∃ s1 : CSpeedLimiter, (CSpeedLimiter.ctor 0).SetHertz R = some s1
        ∧ s1 = { CSpeedLimiter.ctor 0 with
            m_Speed := R, m_BaseSpeed := R, m_MicroSecondsPerFrame := 1000000 / R } := by
      refine ⟨_, ?_, rfl⟩
      unfold CSpeedLimiter.SetHertz
      rw [FixSpeedRatio_of_pos _ (by simp only []; omega)]
      rfl
    have wf1 : s1.WF := (SetHertz_WF _ _ (ctor_WF 0 (by decide)) R hR2 h1).1
    have a1 : s1.needsAnchor = true := by rw [e1]; rfl
    obtain ⟨r1, hr1, t1, w1, an1, d1, f1, st1, rs1⟩ :=
      Timer_Process_anchoring s1 wf1 t0 (by omega)
        (by rw [e1]; exact (by decide : (0 : Nat) ≠ 4294967295)) true a1
    obtain ⟨b1, b2, b3, b4⟩ := anchorStep_of_anchor s1 t0 a1
    refine ⟨r1.state, [r1], ?_, rfl, ⟨w1, by rw [t1.speed, e1], by rw [t1.base, e1],
      by rw [t1.mspf, e1], by rw [t1.lastMspf, e1], rs1, st1, f1, by rw [t1.index, e1]; rfl,
      ?_⟩, ?_⟩
    · rw [run_cons]
      have hl : ticksEvery t0 (1000000 / R) (0 + 1) = [Op.Timer_Process t0 true] := by
        simp [ticksEvery, List.range_succ]
      rw [hl]
      simp only [exec, h1, Option.map_some', Option.some_bind, run_cons, hr1, run_nil]
    · intro _
      rw [t1.lastTime, t1.rateSet, b1, b2, b4]
      simp
    · simp [ticksSinceAnchor, an1]
  | succ k ih =>
    have hmono : 1000000 / R * k ≤ 1000000 / R * (k + 1) := Nat.mul_le_mul_left _ (by omega)
    obtain ⟨q, rs, hrun, hlen, hp, hts⟩ := ih (by omega) (by omega) (by omega)
    obtain ⟨r, hr, _, han, _, hp2⟩ := hp.tick ht0 hnow hwrap (by omega) true
    refine ⟨r.state, r :: rs, ?_, by simp [hlen], hp2, ?_⟩
    · rw [ticksEvery_succ, ← List.cons_append, run_append, hrun]
      simp only [Option.some_bind, run_cons, exec_Timer_Process _ _ _ _ _ hr, run_nil]
    · simp [ticksSinceAnchor, han, hts]

/-! ### The measured rate -/

/-- The reporting step of a defined tick. -/
theorem Timer_Process_report_spec (p : CSpeedLimiter) (hp : p.WF) (now : Nat)
    (hnow : now < 2305843009213693952) (hidx : p.sleepTimesIndex ≠ 4294967295)
    (FrameRate : Bool) :
    ∃ r, p.Timer_Process now FrameRate = some r ∧ TickSpec p now FrameRate r ∧ r.state.WF
      ∧ (r.reported = true ↔
          1000000 ≤ (now + 18446744073709551616 - (p.anchorStep now).m_LastTime)
            % 18446744073709551616)
      ∧ (r.reported = true →
          r.FrameRate
              = (if FrameRate = true then
                  some (stdRound (f64
                    ((((r.state.m_Frames + 4294967296 - (p.anchorStep now).lastFrameRateSet)
                        % 4294967296 : Nat) : ℚ)
                      / f64 (f32 (((now + 18446744073709551616 - (p.anchorStep now).m_LastTime)
                          % 18446744073709551616 : Nat) : ℚ) / 1000000)))).toNat
                else none)
            ∧ r.state.m_LastTime = now ∧ r.state.lastFrameRateSet = r.state.m_Frames)
      ∧ (r.reported = false →
          r.FrameRate = none ∧ r.state.m_LastTime = (p.anchorStep now).m_LastTime
            ∧ r.state.lastFrameRateSet = (p.anchorStep now).lastFrameRateSet) := by
  obtain ⟨r, hr, hs, hw⟩ := Timer_Process_spec p hp now hnow hidx FrameRate
  refine ⟨r, hr, hs, hw, ?_, ?_, ?_⟩
  · rw [hs.reported]
    simp
  · intro h
    have h1 := hs.rate
    have h2 := hs.lastTime
    have h3 := hs.rateSet
    rw [h] at h1 h2 h3
    simp only [true_and, if_true] at h1 h2 h3
    refine ⟨?_, h2, by rw [h3, hs.frames]⟩
    rw [h1, hs.frames]
    unfold CSpeedLimiter.measuredRate
    rw [f64_million, f64_natCast _ (by
      have := Nat.mod_lt ((p.anchorStep now).m_Frames + 4294967296
        - (p.anchorStep now).lastFrameRateSet) (by norm_num : 4294967296 > 0)
      omega)]
  · intro h
    have h1 := hs.rate
    have h2 := hs.lastTime
    have h3 := hs.rateSet
    rw [h] at h1 h2 h3
    simp only [Bool.false_eq_true, false_and, if_false] at h1 h2 h3
    exact ⟨h1, h2, h3⟩

/-- The `double` quotient and rounding of the rate of 9 units over an interval that single
precision holds as 18000000 microseconds. -/
theorem rate_9_over_18000001 :
    stdRound (f64 (((9 : Nat) : ℚ) / f64 (f32 ((18000001 : Nat) : ℚ) / 1000000))) = 1 := by
  have e1 : f32 ((18000001 : Nat) : ℚ) = 18000000 := by
    rw [f32_eval 24 (by norm_num) (by norm_num)]
    norm_num [roundHalfEven, Int.fract]
  have e2 : f64 ((18000000 : ℚ) / 1000000) = 18 := by
    have h := f64_natCast 18 (by norm_num)
    norm_num at h ⊢
    exact h
  have e3 : f64 (((9 : Nat) : ℚ) / 18) = 1 / 2 := by
    have h := roundNE_exact 52 1 (-1) (by norm_num)
    norm_num at h ⊢
    exact h
  rw [e1, e2, e3]
  norm_num [stdRound]

/-- The `double` quotient and rounding of the rate of 61 units over 1016626 microseconds. -/
theorem rate_61_over_1016626 :
    stdRound (f64 (((61 : Nat) : ℚ) / f64 (f32 ((1016626 : Nat) : ℚ) / 1000000))) = 60 := by
  have e1 : f32 ((1016626 : Nat) : ℚ) = 1016626 := by
    have h := f32_natCast 1016626 (by norm_num)
    simpa using h
  have e2 : f64 ((1016626 : ℚ) / 1000000) = 4578476474775158 / 4503599627370496 := by
    rw [f64_eval 0 (by norm_num) (by norm_num)]
    norm_num [roundHalfEven, Int.fract]
  rw [e1, e2]
  rw [f64_eval 5 (by norm_num) (by norm_num)]
  norm_num [roundHalfEven, Int.fract, stdRound]

/-- The tick that follows `k` ticks on schedule at 60 units per second, when none of them
reported: it reports if and only if a second has passed since the anchor, and the rate it writes
is computed from `k + 1` units. -/
theorem Paced.report {t0 k : Nat} {q : CSpeedLimiter} (h : Paced 60 t0 k q) (ht0 : 0 < t0)
    (hk : 16666 * k < 1000000) (d : Nat) (hd : 1000000 ≤ d) (hd2 : d < 1152921504606846976)
    (ht : t0 < 1152921504606846976) :
    ∃ r, q.Timer_Process (t0 + d) true = some r ∧ r.reported = true
      ∧ r.state.m_Frames = k + 1
      ∧ r.FrameRate
        = some (stdRound (f64 (((k + 1 : Nat) : ℚ) / f64 (f32 ((d : Nat) : ℚ) / 1000000)))).toNat
      ∧ r.state.m_LastTime = t0 + d ∧ r.state.lastFrameRateSet = k + 1 := by
  have ha : q.needsAnchor = false :=
    needsAnchor_eq_false q (by rw [h.start]; omega) h.reset (by rw [h.lastMspf, h.mspf])
  obtain ⟨q1, q2⟩ := h.quiet (by norm_num; omega)
  obtain ⟨a1, a2, a3, a4⟩ := anchorStep_of_steady q (t0 + d) ha
  obtain ⟨r, hr, hs, hw, hrep, hrate, _⟩ :=
    Timer_Process_report_spec q h.wf (t0 + d) (by omega) (by rw [h.index]; omega) true
  have hI : (t0 + d + 18446744073709551616 - (q.anchorStep (t0 + d)).m_LastTime)
      % 18446744073709551616 = d := by
    rw [a1, q1]
    omega
  have hf : r.state.m_Frames = k + 1 := by
    rw [hs.frames, a4, h.frames]
    omega
  have hn : (r.state.m_Frames + 4294967296 - (q.anchorStep (t0 + d)).lastFrameRateSet)
      % 4294967296 = k + 1 := by
    rw [hf, a2, q2]
    omega
  have hrep2 : r.reported = true := hrep.2 (by rw [hI]; exact hd)
  obtain ⟨e1, e2, e3⟩ := hrate hrep2
  rw [hI, hn] at e1
  simp only [if_true] at e1
  exact ⟨r, hr, hrep2, hf, e1, e2, by rw [e3, hf]⟩

/-- C12 (counterexample).  The rate written is not always `round(units * 1000000 / interval)`.
After `SetHertz(60)`, an anchoring tick at clock reading 1000 and eight ticks on schedule
(16666 microseconds apart), a tick at clock reading 18001001 reports over an interval of
18000001 microseconds in which 9 units were paced.  The exact quotient `9000000 / 18000001` is
below one half, so it rounds to 0, yet the rate written is 1: the interval is first converted to
single precision, which holds it as 18000000, and `9 / 18.0` is exactly one half. -/
theorem rate_uses_single_precision_interval :
    ∃ q rs r,
      run (CSpeedLimiter.ctor 0, []) (Op.SetHertz 60 :: ticksEvery 1000 16666 9) = some (q, rs)
        ∧ q.m_LastTime = 1000 ∧ q.lastFrameRateSet = 0
        ∧ q.Timer_Process 18001001 true = some r
        ∧ r.reported = true ∧ r.state.m_Frames = 9
        ∧ r.FrameRate = some 1
        ∧ ((9 - 0 : Nat) : ℚ) * 1000000 / ((18001001 - 1000 : Nat) : ℚ) < 1 / 2
        ∧ stdRound (((9 - 0 : Nat) : ℚ) * 1000000 / ((18001001 - 1000 : Nat) : ℚ)) = 0 := by
  obtain ⟨q, rs, hrun, _, hp, _⟩ :=
    run_paced 60 1000 (by norm_num) (by norm_num) (by norm_num) 8 (by norm_num) (by norm_num)
      (by norm_num)
  have e : 1000000 / 60 = 16666 := by norm_num
  rw [e] at hrun
  obtain ⟨q1, q2⟩ := hp.quiet (by norm_num)
  obtain ⟨r, hr, hrep, hf, hrate, _, _⟩ :=
    hp.report (by norm_num) (by norm_num) 18000001 (by norm_num) (by norm_num) (by norm_num)
  rw [rate_9_over_18000001] at hrate
  refine ⟨q, rs, r, hrun, q1, q2, hr, hrep, hf, hrate, by norm_num, ?_⟩
  norm_num [stdRound]

/-- C12 (amended).  First part: on a well-formed state, for a clock reading below `2 ^ 61` and
before the tick counter reaches `2 ^ 32 - 1`, a pacing tick is defined and, with `interval` the
64-bit difference between the clock reading and `m_LastTime` as the anchor step left it (their
plain difference when `m_LastTime ≤ now`), it returns `reported` if and only if
`interval ≥ 1000000`.  When it reports, `m_LastTime` becomes the clock reading,
`lastFrameRateSet` becomes `m_Frames` and, provided `lastFrameRateSet ≤ m_Frames` held, the rate
written to a non-null output is the `double` quotient of `m_Frames - lastFrameRateSet` by
`interval / 1000000`, with `interval` first converted to single precision, rounded to the
nearest integer (halves away from zero).  Otherwise no rate is written and both are as the
anchor step left them.
Second part: after `SetHertz(60)`, an anchoring tick at any clock reading `t0` and 60 ticks
16666 microseconds apart, the tick at `t0 + 1016626` reports 61 units, a rate of 60. -/
theorem Timer_Process_reports_rate :
    (∀ (p : CSpeedLimiter) (now : Nat) (FrameRate : Bool), p.WF → now < 2305843009213693952 →
      p.sleepTimesIndex ≠ 4294967295 →
      ∃ r, p.Timer_Process now FrameRate = some r
        ∧ ((p.anchorStep now).m_LastTime ≤ now →
            (now + 18446744073709551616 - (p.anchorStep now).m_LastTime) % 18446744073709551616
              = now - (p.anchorStep now).m_LastTime)
        ∧ (r.reported = true ↔
            1000000 ≤ (now + 18446744073709551616 - (p.anchorStep now).m_LastTime)
              % 18446744073709551616)
        ∧ (r.reported = true →
            r.state.m_LastTime = now ∧ r.state.lastFrameRateSet = r.state.m_Frames
              ∧ ((p.anchorStep now).lastFrameRateSet ≤ r.state.m_Frames →
                  r.FrameRate
                    = (if FrameRate = true then
                        some (stdRound (f64
                          (((r.state.m_Frames - (p.anchorStep now).lastFrameRateSet : Nat) : ℚ)
                            / f64 (f32 (((now + 18446744073709551616
                                - (p.anchorStep now).m_LastTime)
                                % 18446744073709551616 : Nat) : ℚ) / 1000000)))).toNat
                      else none)))
        ∧ (r.reported = false →
            r.FrameRate = none ∧ r.state.m_LastTime = (p.anchorStep now).m_LastTime
              ∧ r.state.lastFrameRateSet = (p.anchorStep now).lastFrameRateSet))
    ∧ (∀ t0 : Nat, 0 < t0 → t0 < 1152921504606846976 →
        ∃ q rs r,
          run (CSpeedLimiter.ctor 0, []) (Op.SetHertz 60 :: ticksEvery t0 16666 61)
              = some (q, rs)
            ∧ q.m_Speed = 60 ∧ q.m_Frames = 60 ∧ q.m_LastTime = t0 ∧ q.lastFrameRateSet = 0
            ∧ q.Timer_Process (t0 + 1016626) true = some r
            ∧ r.reported = true ∧ r.state.m_Frames = 61 ∧ r.FrameRate = some 60
            ∧ r.state.m_LastTime = t0 + 1016626 ∧ r.state.lastFrameRateSet = 61) := by
  constructor
  · intro p now FrameRate hp hnow hidx
    obtain ⟨r, hr, hs, _, h1, h2, h3⟩ := Timer_Process_report_spec p hp now hnow hidx FrameRate
    obtain ⟨_, w2, _, w4, w5⟩ := anchorStep_WF p hp now hnow
    refine ⟨r, hr, ?_, h1, ?_, h3⟩
    · intro hle
      omega
    · intro hrep
      obtain ⟨e1, e2, e3⟩ := h2 hrep
      refine ⟨e2, e3, ?_⟩
      intro hle
      have hf := hs.frames
      have hn : (r.state.m_Frames + 4294967296 - (p.anchorStep now).lastFrameRateSet)
          % 4294967296 = r.state.m_Frames - (p.anchorStep now).lastFrameRateSet := by
        omega
      rw [hn] at e1
      exact e1
  · intro t0 h0 h1
    obtain ⟨q, rs, hrun, _, hp, _⟩ :=
      run_paced 60 t0 (by norm_num) (by norm_num) h0 60 (by norm_num) (by norm_num)
        (by norm_num; omega)
    have e : 1000000 / 60 = 16666 := by norm_num
    rw [e] at hrun
    obtain ⟨q1, q2⟩ := hp.quiet (by norm_num)
    obtain ⟨r, hr, hrep, hf, hrate, hl, hfr⟩ :=
      hp.report h0 (by norm_num) 1016626 (by norm_num) (by norm_num) h1
    rw [rate_61_over_1016626] at hrate
    exact ⟨q, rs, r, hrun, hp.speed, hp.frames, q1, q2, hr, hrep, hf, hrate, hl, hfr⟩

/-- C12 (witness): the first part for the first tick of a freshly constructed pacer at clock
reading 1000, and the second part for an anchor at clock reading 1000, where the reporting tick
is made at clock reading 1017626. -/
theorem Timer_Process_reports_rate_witness :
    ((CSpeedLimiter.ctor 0).WF ∧ 1000 < 2305843009213693952
        ∧ (CSpeedLimiter.ctor 0).sleepTimesIndex ≠ 4294967295)
      ∧ (∃ r, (CSpeedLimiter.ctor 0).Timer_Process 1000 true = some r
          ∧ (r.reported = true ↔
              1000000 ≤ (1000 + 18446744073709551616
                  - ((CSpeedLimiter.ctor 0).anchorStep 1000).m_LastTime) % 18446744073709551616))
      ∧ ∃ q rs r,
          run (CSpeedLimiter.ctor 0, []) (Op.SetHertz 60 :: ticksEvery 1000 16666 61)
              = some (q, rs)
            ∧ q.Timer_Process (1000 + 1016626) true = some r
            ∧ r.reported = true ∧ r.state.m_Frames = 61 ∧ r.FrameRate = some 60 := by
  refine ⟨⟨ctor_WF 0 (by decide), by decide, by decide⟩, ?_, ?_⟩
  · obtain ⟨r, hr, _, h, _⟩ := Timer_Process_reports_rate.1 (CSpeedLimiter.ctor 0) 1000 true
      (ctor_WF 0 (by decide)) (by decide) (by decide)
    exact ⟨r, hr, h⟩
  · obtain ⟨q, rs, r, h1, _, _, _, _, h2, h3, h4, h5, _⟩ :=
      Timer_Process_reports_rate.2 1000 (by decide) (by decide)
    exact ⟨q, rs, r, h1, h2, h3, h4, h5⟩

/-! ### Anchoring ticks -/

/-- An anchoring tick is defined at every clock reading: it needs only a positive base
speed, a tick counter below `2 ^ 32 - 1` and drift samples of magnitude at most `2 ^ 62`.  It
records the drift 0, leaves `StartFPSTime = m_LastTime = now` and reports nothing. -/
theorem Timer_Process_anchor_any (p : CSpeedLimiter) (hb : 1 ≤ p.m_BaseSpeed)
    (hi : p.sleepTimesIndex < 4294967295)
    (h0 : |p.sleepTimes.s0| ≤ 4611686018427387904) (h1 : |p.sleepTimes.s1| ≤ 4611686018427387904)
    (h2 : |p.sleepTimes.s2| ≤ 4611686018427387904) (now : Nat) (FrameRate : Bool)
    (ha : p.needsAnchor = true) :
    ∃ r, p.Timer_Process now FrameRate = some r ∧ TickSpec p now FrameRate r
      ∧ r.anchored = true ∧ r.sleepTime = 0 ∧ r.reported = false ∧ r.FrameRate = none
      ∧ r.state.m_Frames = 0 ∧ r.state.StartFPSTime = now ∧ r.state.m_LastTime = now
      ∧ r.state.lastFrameRateSet = 0 ∧ r.state.hasBeenReset = true := by
  obtain ⟨f1, f2, f3, f4, f5, f6, f7⟩ := anchorStep_fixed p now
  obtain ⟨b1, b2, b3, b4⟩ := anchorStep_of_anchor p now ha
  have hres := anchorStep_hasBeenReset p now
  have htot : (p.anchorStep now).totalElapsedGameTime = 0 := by
    unfold CSpeedLimiter.totalElapsedGameTime
    rw [b4]
    simp
  have hel : (p.anchorStep now).elapsedRealTime now = 0 := by
    unfold CSpeedLimiter.elapsedRealTime
    rw [b3]
    have e : (now + 18446744073709551616 - now) % 18446744073709551616 = 0 := by omega
    rw [e]
    decide
  have hI : (now + 18446744073709551616 - (p.anchorStep now).m_LastTime)
      % 18446744073709551616 = 0 := by
    rw [b1]
    omega
  have g1 : inInt64 ((p.anchorStep now).totalElapsedGameTime
      - (p.anchorStep now).elapsedRealTime now) := by
    rw [htot, hel]
    decide
  have g2 : ¬ (p.anchorStep now).m_BaseSpeed = 0 := by
    rw [f2]; omega
  have hmod : (p.sleepTimesIndex + 1) % 4294967296 = p.sleepTimesIndex + 1 :=
    Nat.mod_eq_of_lt (by omega)
  have hE1 : 1 ≤ (if p.sleepTimesIndex + 1 > 3 then 3 else p.sleepTimesIndex + 1) := by
    split_ifs <;> omega
  have hE3 : (if p.sleepTimesIndex + 1 > 3 then 3 else p.sleepTimesIndex + 1) ≤ 3 := by
    split_ifs <;> omega
  have g3 : ¬ (if p.sleepTimesIndex + 1 > 3 then 3 else p.sleepTimesIndex + 1) = 0 := by omega
  obtain ⟨c0, c1, c2⟩ := SleepTimes.set_bound p.sleepTimes (p.sleepTimesIndex % 3)
    ((p.anchorStep now).totalElapsedGameTime - (p.anchorStep now).elapsedRealTime now)
    4611686018427387904 h0 h1 h2 (by rw [htot, hel]; norm_num)
  have havg := averageSleep_abs_le _ _ hE1 hE3 c0 c1 c2
  have htr := truncToInt_abs_le 4611686018427387904 (by exact_mod_cast havg)
  have g4 : inInt64 (truncToInt (averageSleep (p.sleepTimes.set (p.sleepTimesIndex % 3)
      ((p.anchorStep now).totalElapsedGameTime - (p.anchorStep now).elapsedRealTime now))
      (if p.sleepTimesIndex + 1 > 3 then 3 else p.sleepTimesIndex + 1))) := by
    unfold inInt64
    rw [abs_le] at htr
    omega
  have hrep : ¬ f32 (((now + 18446744073709551616 - (p.anchorStep now).m_LastTime)
      % 18446744073709551616 : Nat) : ℚ) ≥ f32 1000000 := by
    rw [f32_ge_million_iff, hI]
    norm_num
  unfold CSpeedLimiter.Timer_Process
  simp only [g1, g2, not_true_eq_false, if_false, f5, f4, f6, hmod, m_AverageSamples, g3, g4,
    hrep]
  refine ⟨_, rfl, ?_, ?_⟩
  · constructor <;>
      simp [hel, htot, f1, f2, f3, f7, hres, hI, b1, b2, b3, b4, CSpeedLimiter.sleepCeiling]
  · simp only [htot, hel, b1, b2, b3, b4, hres, ha, sub_zero, true_and]
    have hc2 : 0 ≤ (p.anchorStep now).sleepCeiling := sleepCeiling_nonneg _
    rw [if_neg]
    rintro (h | h)
    · omega
    · simp only [Int.cast_zero, f32_zero] at h
      linarith

/-- A pacer constructed while no tick has been performed is the constructed pacer `ctor`. -/
theorem ctorAfter_ctor (v u : Nat) : (CSpeedLimiter.ctor v).ctorAfter u = CSpeedLimiter.ctor u :=
  rfl

theorem ctor_staticsInitial (u : Nat) : (CSpeedLimiter.ctor u).staticsInitial :=
  ⟨rfl, rfl, rfl, rfl, rfl, rfl⟩

/-- Constructing a pacer leaves the statics of `Timer_Process` and the log of calls alone. -/
theorem ctorAfter_statics (prev : CSpeedLimiter) (u : Nat) :
    (prev.ctorAfter u).hasBeenReset = prev.hasBeenReset
      ∧ (prev.ctorAfter u).StartFPSTime = prev.StartFPSTime
      ∧ (prev.ctorAfter u).lastMicrosecondsPerFrame = prev.lastMicrosecondsPerFrame
      ∧ (prev.ctorAfter u).sleepTimes = prev.sleepTimes
      ∧ (prev.ctorAfter u).sleepTimesIndex = prev.sleepTimesIndex
      ∧ (prev.ctorAfter u).lastFrameRateSet = prev.lastFrameRateSet
      ∧ (prev.ctorAfter u).events = prev.events :=
  ⟨rfl, rfl, rfl, rfl, rfl, rfl, rfl⟩

/-- A pacer constructed in a well-formed state of the process is well formed. -/
theorem ctorAfter_WF (prev : CSpeedLimiter) (hp : prev.WF) (u : Nat) (hu : u < 4294967296) :
    (prev.ctorAfter u).WF :=
  ⟨by simp [CSpeedLimiter.ctorAfter, m_DefaultSpeed],
    by simp [CSpeedLimiter.ctorAfter, m_DefaultSpeed],
    by simp [CSpeedLimiter.ctorAfter, m_DefaultSpeed],
    by simp [CSpeedLimiter.ctorAfter, m_DefaultSpeed],
    Nat.zero_le _, hp.index_lt, hu, hp.rateSet_lt, by simp [CSpeedLimiter.ctorAfter],
    hp.start_lt, hp.s0_bound, hp.s1_bound, hp.s2_bound⟩

/-- C13 (counterexample).  The first tick of a freshly constructed pacer need not anchor nor
record a single sample: the statics of `Timer_Process` are shared by all pacers of the process
and the constructor does not reset them.  Let a first pacer run `SetHertz(60)` and tick at clock
readings 1000 and 17666, leaving the process in state `a`, with `sleepTimesIndex = 2`.  For a
second pacer constructed then, whatever its uninitialised field holds, the first tick (at clock
reading 40000) moves the write index from 2 to 3 and averages 3 samples.  If `SetHertz(60)` is
called on it first, that tick does not anchor: `StartFPSTime` is still 1000, the drift sample is
`16666 - 39000 = -22334`, not 0, and the mean is `-7444`. -/
theorem later_pacer_first_tick_does_not_anchor :
    ∃ a rs,
      run (CSpeedLimiter.ctor 0, [])
          [Op.SetHertz 60, Op.Timer_Process 1000 true, Op.Timer_Process 17666 true]
          = some (a, rs)
        ∧ a.sleepTimesIndex = 2
        ∧ (∀ u : Nat, u < 4294967296 →
            ∃ r, (a.ctorAfter u).Timer_Process 40000 true = some r
              ∧ (a.ctorAfter u).sleepTimesIndex = 2 ∧ r.state.sleepTimesIndex = 3
              ∧ r.elementsForAverage = 3)
        ∧ ∃ b r, (a.ctorAfter 0).SetHertz 60 = some b
            ∧ b.Timer_Process 40000 true = some r
            ∧ r.anchored = false ∧ r.state.StartFPSTime = 1000 ∧ r.state.m_Frames = 1
            ∧ r.sleepTime = -22334
            ∧ r.state.sleepTimesIndex = 3 ∧ r.elementsForAverage = 3
            ∧ r.averageSleepUs = -7444 := by
  obtain ⟨s1, e1⟩ : ∃ s1 : CSpeedLimiter,
      s1 = { CSpeedLimiter.ctor 0 with m_MicroSecondsPerFrame := 16666 } := ⟨_, rfl⟩
  have hpre : run (CSpeedLimiter.ctor 0, []) [Op.SetHertz 60] = some (s1, []) := by
    rw [e1]; rfl
  have wf1 : s1.WF := by
    rw [e1]
    constructor <;> simp [CSpeedLimiter.ctor, m_DefaultSpeed]
  have a1 : s1.needsAnchor = true := by rw [e1]; rfl
  -- the first pacer: the anchoring tick at 1000 and the tick on schedule at 17666
  obtain ⟨r1, h1, t1, w1, _, d1, f1, st1, rs1⟩ :=
    Timer_Process_anchoring s1 wf1 1000 (by norm_num) (by rw [e1]; decide) true a1
  have i1 : r1.state.sleepTimesIndex = 1 := by rw [t1.index, e1]; rfl
  have m1 : r1.state.m_MicroSecondsPerFrame = 16666 := by rw [t1.mspf, e1]
  have sm1 : r1.state.sleepTimes = { s0 := 0, s1 := 0, s2 := 0 } := by
    rw [t1.samples, d1, e1]; rfl
  have a2 : r1.state.needsAnchor = false :=
    needsAnchor_eq_false _ (by rw [st1]; decide) rs1 (by rw [t1.lastMspf, t1.mspf])
  obtain ⟨r2, h2, t2, w2, _, f2, st2, d2⟩ :=
    Timer_Process_steady r1.state w1 17666 (by norm_num) (by rw [i1]; decide) true a2
  have d2' : r2.sleepTime = 0 := by
    rw [d2, m1, f1, st1]; norm_num
  have i2 : r2.state.sleepTimesIndex = 2 := by rw [t2.index, i1]
  have sm2 : r2.state.sleepTimes = { s0 := 0, s1 := 0, s2 := 0 } := by
    rw [t2.samples, sm1, i1, d2']; rfl
  have rs2 : r2.state.hasBeenReset = true := by
    rw [t2.reset, d2']
    have := sleepCeiling_nonneg r1.state
    rw [if_neg]
    rintro (h | h)
    · omega
    · simp only [Int.cast_zero, f32_zero] at h
      linarith
  have l2 : r2.state.lastMicrosecondsPerFrame = 16666 := by rw [t2.lastMspf, m1]
  have st2' : r2.state.StartFPSTime = 1000 := by rw [st2, st1]
  refine ⟨r2.state, [r2, r1], ?_, i2, ?_, ?_⟩
  · have hl : [Op.SetHertz 60, Op.Timer_Process 1000 true, Op.Timer_Process 17666 true]
        = [Op.SetHertz 60] ++ [Op.Timer_Process 1000 true, Op.Timer_Process 17666 true] := rfl
    rw [hl, run_append, hpre]
    simp only [Option.some_bind, run_cons, exec_Timer_Process _ _ _ _ _ h1,
      exec_Timer_Process _ _ _ _ _ h2, run_nil]
  · -- the second pacer, ticked as constructed
    intro u hu
    obtain ⟨_, _, _, _, ci, _, _⟩ := ctorAfter_statics r2.state u
    obtain ⟨r, hr, hs, _⟩ := Timer_Process_spec (r2.state.ctorAfter u)
      (ctorAfter_WF r2.state w2 u hu) 40000 (by norm_num) (by rw [ci, i2]; decide) true
    exact ⟨r, hr, by rw [ci, i2], by rw [hs.index, ci, i2], by rw [hs.elements, ci, i2]; rfl⟩
  · -- the second pacer, ticked after `SetHertz(60)`
    obtain ⟨c1, c2, c3, c4, c5, c6, c7⟩ := ctorAfter_statics r2.state 0
    obtain ⟨b, hb, b1, b2, b3, b4, _⟩ := SetHertz_value (r2.state.ctorAfter 0) 60 (by norm_num)
    have hb2 := hb
    unfold CSpeedLimiter.SetHertz at hb2
    obtain ⟨_, eb⟩ := FixSpeedRatio_some _ _ hb2
    have g3 : b.hasBeenReset = (r2.state.ctorAfter 0).hasBeenReset := by rw [eb]
    have g4 : b.StartFPSTime = (r2.state.ctorAfter 0).StartFPSTime := by rw [eb]
    have g5 : b.lastMicrosecondsPerFrame = (r2.state.ctorAfter 0).lastMicrosecondsPerFrame := by
      rw [eb]
    obtain ⟨wb, bs, bi⟩ := SetHertz_WF _ _ (ctorAfter_WF r2.state w2 0 (by norm_num)) 60
      (by norm_num) hb
    have bm : b.m_MicroSecondsPerFrame = 16666 := by rw [b3]
    have hidx : b.sleepTimesIndex = 2 := by rw [bi, c5, i2]
    have hsm : b.sleepTimes = { s0 := 0, s1 := 0, s2 := 0 } := by rw [bs, c4, sm2]
    have hst : b.StartFPSTime = 1000 := by rw [g4, c2, st2']
    have ha : b.needsAnchor = false :=
      needsAnchor_eq_false b (by rw [hst]; decide) (by rw [g3, c1, rs2])
        (by rw [g5, c3, l2, bm])
    obtain ⟨r, hr, hs, _, han, hf, hstart, hd⟩ :=
      Timer_Process_steady b wb 40000 (by norm_num) (by rw [hidx]; decide) true ha
    have hd' : r.sleepTime = -22334 := by
      rw [hd, bm, b4, hst]; norm_num
    have hel : r.elementsForAverage = 3 := by rw [hs.elements, hidx]; rfl
    have hsm3 : r.state.sleepTimes = { s0 := 0, s1 := 0, s2 := -22334 } := by
      rw [hs.samples, hsm, hidx, hd']; rfl
    have hav : r.averageSleepUs = -7444 := by
      rw [hs.average, hel, hsm3,
        averageSleep_exact_three _ (by norm_num) (by norm_num) (by norm_num)]
      decide
    exact ⟨b, r, hb, hr, han, by rw [hstart, hst], by rw [hf, b4], hd',
      by rw [hs.index, hidx], hel, hav⟩

/-- C13 (amended).  On a pacer freshly constructed while no pacing tick has been performed in
the process (the statics of `Timer_Process` hold their initial values, as they do for the first
pacer of the process), whatever value `u` the uninitialised field `m_MicroSecondsPerFrame`
holds, for every clock reading `now`, zero included, and with or without a `FrameRate` output,
the first pacing tick is defined and anchors: it leaves `StartFPSTime = now` and `m_Frames = 0`,
records the drift sample 0 in slot 0 of the ring while `sleepTimesIndex` goes from 0 to 1,
averages that one sample, computes the mean 0 and does not invoke the sleep primitive (the event
log is unchanged). -/
theorem first_tick_anchors (prev : CSpeedLimiter) (h : prev.staticsInitial) (u now : Nat)
    (FrameRate : Bool) :
    ∃ r, (prev.ctorAfter u).Timer_Process now FrameRate = some r
      ∧ r.anchored = true ∧ r.state.StartFPSTime = now ∧ r.state.m_Frames = 0
      ∧ r.sleepTime = 0
      ∧ r.state.sleepTimes = (prev.ctorAfter u).sleepTimes.set 0 r.sleepTime
      ∧ r.state.sleepTimes = { s0 := 0, s1 := 0, s2 := 0 }
      ∧ (prev.ctorAfter u).sleepTimesIndex = 0 ∧ r.state.sleepTimesIndex = 1
      ∧ r.elementsForAverage = 1 ∧ r.averageSleepUs = 0
      ∧ r.state.events = (prev.ctorAfter u).events := by
  obtain ⟨h1, h2, h3, h4, h5, h6⟩ := h
  obtain ⟨c1, c2, c3, c4, c5, c6, c7⟩ := ctorAfter_statics prev u
  have hi : (prev.ctorAfter u).sleepTimesIndex = 0 := by rw [c5, h5]
  have hsm0 : (prev.ctorAfter u).sleepTimes = { s0 := 0, s1 := 0, s2 := 0 } := by rw [c4, h4]
  obtain ⟨r, hr, hs, han, hd, _, _, hf, hst, _, _, _⟩ :=
    Timer_Process_anchor_any (prev.ctorAfter u)
      (by simp [CSpeedLimiter.ctorAfter, m_DefaultSpeed]) (by rw [hi]; decide)
      (by rw [hsm0]; norm_num) (by rw [hsm0]; norm_num) (by rw [hsm0]; norm_num) now FrameRate
      (needsAnchor_of_reset _ (by rw [c1, h1]))
  have hsm : r.state.sleepTimes = { s0 := 0, s1 := 0, s2 := 0 } := by
    rw [hs.samples, hd, hsm0, hi]
    rfl
  have hel : r.elementsForAverage = 1 := by
    rw [hs.elements, hi]
    rfl
  have hav : r.averageSleepUs = 0 := by
    rw [hs.average, hel, hsm, averageSleep_exact_one _ (by norm_num)]
    decide
  refine ⟨r, hr, han, hst, hf, hd, ?_, hsm, hi, ?_, hel, hav, ?_⟩
  · rw [hs.samples, hi]
  · rw [hs.index, hi]
  · rw [hs.events, hav, if_neg (by simp)]

/-- C13 (witness): the first pacer of a process, constructed over zeroed storage and ticked at
clock reading 1000. -/
theorem first_tick_anchors_witness :
    ((CSpeedLimiter.ctor 0).staticsInitial
        ∧ (CSpeedLimiter.ctor 0).ctorAfter 0 = CSpeedLimiter.ctor 0)
      ∧ ∃ r, ((CSpeedLimiter.ctor 0).ctorAfter 0).Timer_Process 1000 true = some r
        ∧ r.anchored = true ∧ r.state.StartFPSTime = 1000 ∧ r.state.m_Frames = 0
        ∧ r.sleepTime = 0
        ∧ r.state.sleepTimes = ((CSpeedLimiter.ctor 0).ctorAfter 0).sleepTimes.set 0 r.sleepTime
        ∧ r.state.sleepTimes = { s0 := 0, s1 := 0, s2 := 0 }
        ∧ ((CSpeedLimiter.ctor 0).ctorAfter 0).sleepTimesIndex = 0
        ∧ r.state.sleepTimesIndex = 1
        ∧ r.elementsForAverage = 1 ∧ r.averageSleepUs = 0
        ∧ r.state.events = ((CSpeedLimiter.ctor 0).ctorAfter 0).events :=
  ⟨⟨by decide, rfl⟩, first_tick_anchors (CSpeedLimiter.ctor 0) (by decide) 0 1000 true⟩

/-! ### The length of a requested sleep -/

/-- At speed 2 and base speed 1 the ceiling of the sleep test is 100000 microseconds. -/
theorem sleepCeiling_2_1 (p : CSpeedLimiter) (hs : p.m_Speed = 2) (hb : p.m_BaseSpeed = 1) :
    p.sleepCeiling = 100000 := by
  unfold CSpeedLimiter.sleepCeiling
  rw [hs, hb, f32_fifty_thousand]
  have e1 : f32 ((2 : Nat) : ℚ) = 2 := by
    have h := f32_natCast 2 (by norm_num)
    simpa using h
  have e2 : f32 ((1 : Nat) : ℚ) = 1 := by
    have h := f32_natCast 1 (by norm_num)
    simpa using h
  have e3 : f32 (2 : ℚ) = 2 := by
    have h := f32_natCast 2 (by norm_num)
    simpa using h
  have e4 : f32 (100000 : ℚ) = 100000 := by
    have h := f32_natCast 100000 (by norm_num)
    simpa using h
  rw [e1, e2, div_one, e3]
  norm_num
  exact e4

/-- While the speed does not exceed the base speed the ceiling of the sleep test is at most
50000 microseconds. -/
theorem sleepCeiling_le_of_le (p : CSpeedLimiter) (hs : 1 ≤ p.m_Speed)
    (h : p.m_Speed ≤ p.m_BaseSpeed) : p.sleepCeiling ≤ 50000 := by
  unfold CSpeedLimiter.sleepCeiling
  have hpos : (0 : ℚ) < f32 (p.m_BaseSpeed : ℚ) :=
    f32_pos (by exact_mod_cast (by omega : 0 < p.m_BaseSpeed))
  have hle : f32 (p.m_Speed : ℚ) ≤ f32 (p.m_BaseSpeed : ℚ) := f32_mono (by exact_mod_cast h)
  have h1 : f32 (p.m_Speed : ℚ) / f32 (p.m_BaseSpeed : ℚ) ≤ 1 := by
    rw [div_le_one hpos]
    exact hle
  have e1 : f32 (1 : ℚ) = 1 := by
    have h := f32_natCast 1 (by norm_num)
    simpa using h
  have h2 : f32 (f32 (p.m_Speed : ℚ) / f32 (p.m_BaseSpeed : ℚ)) ≤ 1 := by
    have := f32_mono h1
    rwa [e1] at this
  rw [f32_fifty_thousand]
  have h3 : (50000 : ℚ) * f32 (f32 (p.m_Speed : ℚ) / f32 (p.m_BaseSpeed : ℚ)) ≤ 50000 := by
    linarith
  have := f32_mono h3
  rwa [f32_fifty_thousand] at this

/-- While the speed does not exceed the base speed a tick requests a sleep of at most 49
milliseconds. -/
theorem Timer_Process_sleep_le (p : CSpeedLimiter) (hp : p.WF) (now : Nat)
    (hnow : now < 2305843009213693952) (hidx : p.sleepTimesIndex ≠ 4294967295)
    (FrameRate : Bool) (hle : p.m_Speed ≤ p.m_BaseSpeed) :
    ∃ r, p.Timer_Process now FrameRate = some r
      ∧ (r.state.events = p.events
          ∨ ∃ d, d ≤ 49 ∧ r.state.events = p.events ++ [Event.Sleep d]) := by
  obtain ⟨r, hr, hs, _⟩ := Timer_Process_spec p hp now hnow hidx FrameRate
  refine ⟨r, hr, ?_⟩
  have hev := hs.events
  split_ifs at hev with hc
  · right
    obtain ⟨h1, h2⟩ := hc
    have h3 := sleepCeiling_le_of_le p hp.speed_pos hle
    have h4 : r.averageSleepUs < 50000 :=
      (f32_lt_fifty_thousand_iff _ h1).1 (lt_of_lt_of_le h2 h3)
    refine ⟨_, ?_, hev⟩
    rw [toUInt32_tdiv _ h1]
    omega
  · left
    exact hev

/-- C14 (counterexample).  The sleep requested is not bounded by 50 milliseconds when the speed
exceeds the base speed.  After `SetHertz(1)`, `SetSpeed(2)` and an anchoring tick at clock
reading 1000 (drift 0), the tick at clock reading 341000 has one unit of 500000 microseconds
expected and 340000 elapsed; its drift is 160000, the mean over the two samples is 80000, below
the ceiling `50000 * (2 / 1) = 100000`, and the tick requests a sleep of 80 milliseconds. -/
theorem sleep_exceeds_fifty_ms :
    ∃ q rs r,
      run (CSpeedLimiter.ctor 0, [])
          [Op.SetHertz 1, Op.SetSpeed 2, Op.Timer_Process 1000 true] = some (q, rs)
        ∧ q.m_Speed = 2 ∧ q.m_BaseSpeed = 1
        ∧ q.Timer_Process 341000 true = some r
        ∧ r.averageSleepUs = 80000
        ∧ r.state.events = q.events ++ [Event.Sleep 80]
        ∧ ¬ (80 ≤ 50) := by
  obtain ⟨s2, hs2, e2⟩ : ∃ s2 : CSpeedLimiter,
      (((CSpeedLimiter.ctor 0).SetHertz 1).bind fun q => q.SetSpeed 2) = some s2
        ∧ s2 = { CSpeedLimiter.ctor 0 with
            m_Speed := 2, m_BaseSpeed := 1, m_MicroSecondsPerFrame := 500000,
            events := [Event.SpeedChanged 2] } := ⟨_, rfl, rfl⟩
  have wf2 : s2.WF := by
    rw [e2]
    constructor <;> simp [CSpeedLimiter.ctor, m_DefaultSpeed]
  have a2 : s2.needsAnchor = true := by rw [e2]; rfl
  obtain ⟨r1, h1, t1, w1, _, d1, f1, st1, rs1⟩ :=
    Timer_Process_anchoring s2 wf2 1000 (by norm_num) (by rw [e2]; decide) true a2
  have i1 : r1.state.sleepTimesIndex = 1 := by rw [t1.index, e2]; rfl
  have m1 : r1.state.m_MicroSecondsPerFrame = 500000 := by rw [t1.mspf, e2]
  have sm1 : r1.state.sleepTimes = { s0 := 0, s1 := 0, s2 := 0 } := by
    rw [t1.samples, d1, e2]; rfl
  have sp1 : r1.state.m_Speed = 2 := by rw [t1.speed, e2]
  have bs1 : r1.state.m_BaseSpeed = 1 := by rw [t1.base, e2]
  have a1 : r1.state.needsAnchor = false :=
    needsAnchor_eq_false _ (by rw [st1]; decide) rs1 (by rw [t1.lastMspf, t1.mspf])
  obtain ⟨r2, h2, t2, w2, _, f2, st2, d2⟩ :=
    Timer_Process_steady r1.state w1 341000 (by norm_num) (by rw [i1]; decide) true a1
  have d2' : r2.sleepTime = 160000 := by
    rw [d2, m1, f1, st1]; norm_num
  have sm2 : r2.state.sleepTimes = { s0 := 0, s1 := 160000, s2 := 0 } := by
    rw [t2.samples, sm1, i1, d2']; rfl
  have el2 : r2.elementsForAverage = 2 := by rw [t2.elements, i1]; rfl
  have av2 : r2.averageSleepUs = 80000 := by
    rw [t2.average, el2, sm2, averageSleep_exact_two _ (by norm_num) (by norm_num)]
    decide
  have c1 : r1.state.sleepCeiling = 100000 := sleepCeiling_2_1 _ sp1 bs1
  refine ⟨r1.state, [r1], r2, ?_, sp1, bs1, h2, av2, ?_, by decide⟩
  · have hpre : run (CSpeedLimiter.ctor 0, []) [Op.SetHertz 1, Op.SetSpeed 2]
        = some (s2, []) := by
      rw [e2]; rfl
    have hl : [Op.SetHertz 1, Op.SetSpeed 2, Op.Timer_Process 1000 true]
        = [Op.SetHertz 1, Op.SetSpeed 2] ++ [Op.Timer_Process 1000 true] := rfl
    rw [hl, run_append, hpre]
    simp only [Option.some_bind, run_cons, exec_Timer_Process _ _ _ _ _ h1, run_nil]
  · rw [t2.events, av2, c1]
    have e : f32 ((80000 : Int) : ℚ) = 80000 := by
      have h := f32_intCast 80000 (by norm_num)
      simpa using h
    rw [if_pos]
    · rfl
    · rw [e]
      norm_num

/-- C14 (amended).  In every run from the constructed pacer, made of calls whose arguments are in
range, that reaches a state whose speed does not exceed its base speed, the next pacing tick
(the `k`-th with `k < 2 ^ 32`, at a clock reading below `2 ^ 61`) is defined and either requests
no sleep or requests exactly one, of at most 49 milliseconds. -/
theorem sleep_at_most_fifty_ms (u : Nat) (hu : u < 4294967296) (ops : List Op)
    (hops : ∀ op ∈ ops, op.InRange) (q : CSpeedLimiter) (rs : List TickResult)
    (hrun : run (CSpeedLimiter.ctor u, []) ops = some (q, rs))
    (hk : rs.length + 1 < 4294967296) (now : Nat) (hnow : now < 2305843009213693952)
    (FrameRate : Bool) (hle : q.m_Speed ≤ q.m_BaseSpeed) :
    ∃ r, q.Timer_Process now FrameRate = some r
      ∧ (r.state.events = q.events
          ∨ ∃ d, d ≤ 49 ∧ r.state.events = q.events ++ [Event.Sleep d]) := by
  have inv := run_RunInv ops _ _ (ctor_RunInv u hu) hops hrun
  have hi : q.sleepTimesIndex = rs.length := inv.2.1
  exact Timer_Process_sleep_le q inv.1 now hnow (by omega) FrameRate hle

/-- C14 (witness): the first tick after `SetHertz(60)` on a freshly constructed pacer, at clock
reading 1000. -/
theorem sleep_at_most_fifty_ms_witness :
    ((0 : Nat) < 4294967296 ∧ (∀ op ∈ [Op.SetHertz 60], op.InRange)
        ∧ run (CSpeedLimiter.ctor 0, []) [Op.SetHertz 60]
          = some ({ CSpeedLimiter.ctor 0 with m_MicroSecondsPerFrame := 16666 }, [])
        ∧ ([] : List TickResult).length + 1 < 4294967296 ∧ 1000 < 2305843009213693952
        ∧ ({ CSpeedLimiter.ctor 0 with m_MicroSecondsPerFrame := 16666 } : CSpeedLimiter).m_Speed
          ≤ ({ CSpeedLimiter.ctor 0 with m_MicroSecondsPerFrame := 16666 }
              : CSpeedLimiter).m_BaseSpeed)
      ∧ ∃ r, ({ CSpeedLimiter.ctor 0 with m_MicroSecondsPerFrame := 16666 }
            : CSpeedLimiter).Timer_Process 1000 true = some r
        ∧ (r.state.events
              = ({ CSpeedLimiter.ctor 0 with m_MicroSecondsPerFrame := 16666 }
                  : CSpeedLimiter).events
            ∨ ∃ d, d ≤ 49 ∧ r.state.events
              = ({ CSpeedLimiter.ctor 0 with m_MicroSecondsPerFrame := 16666 }
                  : CSpeedLimiter).events ++ [Event.Sleep d]) :=
  ⟨⟨by decide, fun op h => by
      rw [List.mem_singleton] at h
      subst h
      exact (by decide : (60 : Nat) < 4294967296), rfl, by decide, by decide, by decide⟩,
    sleep_at_most_fifty_ms 0 (by decide) [Op.SetHertz 60]
      (fun op h => by
        rw [List.mem_singleton] at h
        subst h
        exact (by decide : (60 : Nat) < 4294967296))
      _ [] rfl (by decide) 1000 (by decide) true (by decide)⟩

/-! ### The progress counter and the schedule anchor -/

/-- The fields `FixSpeedRatio` leaves alone, and the progress counter it zeroes. -/
theorem FixSpeedRatio_fixed (p q : CSpeedLimiter) (h : p.FixSpeedRatio = some q) :
    q.m_Frames = 0 ∧ q.m_Speed = p.m_Speed ∧ q.m_BaseSpeed = p.m_BaseSpeed
      ∧ q.m_MicroSecondsPerFrame = 1000000 / p.m_Speed
      ∧ q.hasBeenReset = p.hasBeenReset ∧ q.StartFPSTime = p.StartFPSTime
      ∧ q.lastMicrosecondsPerFrame = p.lastMicrosecondsPerFrame
      ∧ q.m_LastTime = p.m_LastTime ∧ q.lastFrameRateSet = p.lastFrameRateSet := by
  obtain ⟨_, rfl⟩ := FixSpeedRatio_some _ _ h
  exact ⟨rfl, rfl, rfl, rfl, rfl, rfl, rfl, rfl, rfl⟩

/-- A rate mutation zeroes the progress counter and leaves the schedule anchor, the needs-reset
flag and the reporting state as they were. -/
theorem SetSpeed_fixed (p q : CSpeedLimiter) (v : Int) (h : p.SetSpeed v = some q) :
    q.m_Frames = 0 ∧ q.m_MicroSecondsPerFrame = 1000000 / q.m_Speed
      ∧ q.hasBeenReset = p.hasBeenReset ∧ q.StartFPSTime = p.StartFPSTime
      ∧ q.lastMicrosecondsPerFrame = p.lastMicrosecondsPerFrame
      ∧ q.m_LastTime = p.m_LastTime ∧ q.lastFrameRateSet = p.lastFrameRateSet := by
  unfold CSpeedLimiter.SetSpeed at h
  obtain ⟨a, b, _, d, e, f, g, i, j⟩ := FixSpeedRatio_fixed _ _ h
  exact ⟨a, by rw [d, b], e, f, g, i, j⟩

theorem AlterSpeed_fixed (p q : CSpeedLimiter) (d : ESpeedChange)
    (h : p.AlterSpeed d = some q) :
    q.m_Frames = 0 ∧ q.m_MicroSecondsPerFrame = 1000000 / q.m_Speed
      ∧ q.hasBeenReset = p.hasBeenReset ∧ q.StartFPSTime = p.StartFPSTime
      ∧ q.lastMicrosecondsPerFrame = p.lastMicrosecondsPerFrame
      ∧ q.m_LastTime = p.m_LastTime ∧ q.lastFrameRateSet = p.lastFrameRateSet := by
  unfold CSpeedLimiter.AlterSpeed at h
  obtain ⟨a, b, _, d, e, f, g, i, j⟩ := FixSpeedRatio_fixed _ _ h
  exact ⟨a, by rw [d, b], e, f, g, i, j⟩

theorem SetHertz_fixed (p q : CSpeedLimiter) (R : Nat) (h : p.SetHertz R = some q) :
    q.m_Frames = 0 ∧ q.m_MicroSecondsPerFrame = 1000000 / q.m_Speed
      ∧ q.hasBeenReset = p.hasBeenReset ∧ q.StartFPSTime = p.StartFPSTime
      ∧ q.lastMicrosecondsPerFrame = p.lastMicrosecondsPerFrame
      ∧ q.m_LastTime = p.m_LastTime ∧ q.lastFrameRateSet = p.lastFrameRateSet := by
  unfold CSpeedLimiter.SetHertz at h
  obtain ⟨a, b, _, d, e, f, g, i, j⟩ := FixSpeedRatio_fixed _ _ h
  exact ⟨a, by rw [d, b], e, f, g, i, j⟩

theorem exec_SetSpeed (p q : CSpeedLimiter) (rs : List TickResult) (v : Int)
    (h : p.SetSpeed v = some q) : exec (p, rs) (Op.SetSpeed v) = some (q, rs) := by
  simp [exec, h]

/-- C15 (the code at the failing input).  After `SetHertz(60)`, an anchoring tick at clock reading
1000 and a tick on schedule at 17666, the call `SetSpeed(60)` leaves `m_MicroSecondsPerFrame` at
16666 and zeroes `m_Frames`.  The tick at clock reading 34332 does not anchor: `StartFPSTime` is
still 1000, two ticks have been performed since the anchoring tick, yet the drift is computed
with `m_Frames = 1`, and the sample recorded is `16666 * 1 - 33332 = -16666` where
`16666 * 2 - 33332 = 0` is measured from the anchor. -/
theorem SetSpeed_resets_frames_without_anchor :
    ∃ q rs r,
      run (CSpeedLimiter.ctor 0, [])
          [Op.SetHertz 60, Op.Timer_Process 1000 true, Op.Timer_Process 17666 true,
            Op.SetSpeed 60] = some (q, rs)
        ∧ q.m_MicroSecondsPerFrame = 16666 ∧ q.lastMicrosecondsPerFrame = 16666
        ∧ q.m_Frames = 0 ∧ ticksSinceAnchor rs = 1
        ∧ q.Timer_Process 34332 true = some r
        ∧ r.anchored = false ∧ r.state.StartFPSTime = 1000
        ∧ ticksSinceAnchor (r :: rs) = 2 ∧ r.state.m_Frames = 1
        ∧ r.sleepTime = -16666
        ∧ (16666 : Int) * ticksSinceAnchor (r :: rs) - (34332 - 1000) = 0 := by
  obtain ⟨q0, rs, hrun, _, hp, hts⟩ :=
    run_paced 60 1000 (by norm_num) (by norm_num) (by norm_num) 1 (by norm_num) (by norm_num)
      (by norm_num)
  have e : 1000000 / 60 = 16666 := by norm_num
  rw [e] at hrun
  obtain ⟨q, hq, s1, s2', _, _, _⟩ := SetSpeed_value q0 60 (by norm_num)
  have s1' : q.m_Speed = 60 := by
    have : max (60 : Int) 1 = 60 := by decide
    omega
  have s2 : q.m_MicroSecondsPerFrame = 16666 := by rw [s2', s1']
  obtain ⟨g1, g2, g3, g4, g5, g6, g7⟩ := SetSpeed_fixed _ _ _ hq
  obtain ⟨wq, _, s4⟩ := SetSpeed_WF q0 q hp.wf 60 (by norm_num) hq
  have ha : q.needsAnchor = false :=
    needsAnchor_eq_false q (by rw [g4, hp.start]; decide) (by rw [g3, hp.reset])
      (by rw [g5, hp.lastMspf, s2])
  obtain ⟨r, hr, hs, hw, han, hf, hst, hd⟩ :=
    Timer_Process_steady q wq 34332 (by norm_num) (by rw [s4, hp.index]; decide) true ha
  have hts2 : ticksSinceAnchor (r :: rs) = 2 := by
    simp [ticksSinceAnchor, han, hts]
  refine ⟨q, rs, r, ?_, s2, by rw [g5, hp.lastMspf], g1, hts, hr, han,
    by rw [hst, g4, hp.start], hts2, by rw [hf, g1], ?_, ?_⟩
  · have hl : [Op.SetHertz 60, Op.Timer_Process 1000 true, Op.Timer_Process 17666 true,
          Op.SetSpeed 60]
        = (Op.SetHertz 60 :: ticksEvery 1000 16666 (1 + 1)) ++ [Op.SetSpeed 60] := by
      simp [ticksEvery, List.range_succ]
    rw [hl, run_append, hrun]
    simp only [Option.some_bind, run_cons, exec_SetSpeed _ _ _ _ hq, run_nil]
  · rw [hd, s2, g1, g4, hp.start]
    norm_num
  · rw [hts2]
    norm_num

/-! ### The drift sample -/

/-- C16 (the code at the failing input).  After `SetHertz(60)`, an anchoring tick at clock reading
1000 and 257708 ticks on schedule (16666 microseconds apart), the next tick on schedule, at clock
reading `1000 + 16666 * 257709 = 4294979194`, does not anchor and has `m_Frames = 257709`.  As
exact integers the drift is `16666 * 257709 - 4294978194 = 0`, but the product is formed in 32
bits, where `4294978194` wraps to `10898`: the sample recorded is `-4294967296` and the tick ends
in the needs-reset state. -/
theorem expected_elapsed_wraps :
    ∃ q rs r,
      run (CSpeedLimiter.ctor 0, []) (Op.SetHertz 60 :: ticksEvery 1000 16666 257709)
          = some (q, rs)
        ∧ q.m_MicroSecondsPerFrame = 16666 ∧ q.StartFPSTime = 1000 ∧ q.m_Frames = 257708
        ∧ ticksSinceAnchor rs = 257708
        ∧ q.Timer_Process 4294979194 true = some r
        ∧ r.anchored = false ∧ r.state.m_Frames = 257709 ∧ r.state.StartFPSTime = 1000
        ∧ (16666 : Int) * 257709 - (4294979194 - 1000) = 0
        ∧ r.sleepTime = -4294967296
        ∧ r.state.hasBeenReset = false := by
  obtain ⟨q, rs, hrun, _, hp, hts⟩ :=
    run_paced 60 1000 (by norm_num) (by norm_num) (by norm_num) 257708 (by norm_num)
      (by norm_num) (by norm_num)
  have e : 1000000 / 60 = 16666 := by norm_num
  rw [e] at hrun
  have hm := hp.mspf
  rw [e] at hm
  have ha : q.needsAnchor = false :=
    needsAnchor_eq_false q (by rw [hp.start]; decide) hp.reset (by rw [hp.lastMspf, hp.mspf])
  obtain ⟨r, hr, hs, hw, han, hf, hst, hd⟩ :=
    Timer_Process_steady q hp.wf 4294979194 (by norm_num) (by rw [hp.index]; decide) true ha
  have hd2 : r.sleepTime = -4294967296 := by
    rw [hd, hm, hp.frames, hp.start]
    norm_num
  refine ⟨q, rs, r, hrun, hm, hp.start, hp.frames, hts, hr, han, by rw [hf, hp.frames],
    by rw [hst, hp.start], by norm_num, hd2, ?_⟩
  rw [hs.reset, hd2, if_pos (Or.inl (by norm_num))]

/-! ### Leaving the needs-reset state -/

/-- C17.  On every well-formed state (any speed and base speed from 1 up) in which the previous
tick marked needs-reset (`hasBeenReset` is false) or no schedule start is recorded
(`StartFPSTime` is 0), before the tick counter reaches `2 ^ 32 - 1`, and for every clock reading
`now`, the next tick is defined and anchors: it leaves `StartFPSTime = now` and `m_Frames = 0`,
records a drift sample of exactly 0 and ends with `hasBeenReset` true, so it does not itself mark
needs-reset.  Hence, unless the clock read 0, the state it leaves calls for no anchoring, and the
tick after it (at any clock reading below `2 ^ 61`, with no rate change in between) does not
anchor. -/
theorem needs_reset_clears_in_one_tick (p : CSpeedLimiter) (hp : p.WF)
    (hidx : p.sleepTimesIndex ≠ 4294967295) (now : Nat) (FrameRate : Bool)
    (h : p.hasBeenReset = false ∨ p.StartFPSTime = 0) :
    ∃ r, p.Timer_Process now FrameRate = some r
      ∧ r.anchored = true ∧ r.state.StartFPSTime = now ∧ r.state.m_Frames = 0
      ∧ r.sleepTime = 0
      ∧ r.state.sleepTimes = p.sleepTimes.set (p.sleepTimesIndex % 3) 0
      ∧ r.state.hasBeenReset = true
      ∧ (now ≠ 0 → r.state.needsAnchor = false)
      ∧ (now ≠ 0 → now < 2305843009213693952 →
          ∀ (now2 : Nat) (FrameRate2 : Bool), now2 < 2305843009213693952 →
            r.state.sleepTimesIndex ≠ 4294967295 →
            ∃ r2, r.state.Timer_Process now2 FrameRate2 = some r2 ∧ r2.anchored = false) := by
  have ha : p.needsAnchor = true := by
    rcases h with h | h
    · exact needsAnchor_of_reset p h
    · simp [CSpeedLimiter.needsAnchor, h]
  have hi := hp.index_lt
  obtain ⟨r, hr, hs, han, hd, _, _, hf, hst, _, _, hres⟩ :=
    Timer_Process_anchor_any p hp.base_pos (by omega) hp.s0_bound hp.s1_bound hp.s2_bound now
      FrameRate ha
  have hna : now ≠ 0 → r.state.needsAnchor = false := fun h0 =>
    needsAnchor_eq_false _ (by rw [hst]; exact h0) hres (by rw [hs.lastMspf, hs.mspf])
  refine ⟨r, hr, han, hst, hf, hd, by rw [hs.samples, hd], hres, hna, ?_⟩
  intro h0 hnow now2 FrameRate2 hnow2 hidx2
  obtain ⟨r', hr', _, hw⟩ := Timer_Process_spec p hp now hnow hidx FrameRate
  rw [hr] at hr'
  simp only [Option.some.injEq] at hr'
  subst hr'
  obtain ⟨r2, hr2, _, _, han2, _⟩ :=
    Timer_Process_steady r.state hw now2 hnow2 hidx2 FrameRate2 (hna h0)
  exact ⟨r2, hr2, han2⟩

/-- C17 (witness): a freshly constructed pacer, which has no schedule start and is not marked as
reset, ticked at clock reading 1000. -/
theorem needs_reset_clears_in_one_tick_witness :
    ((CSpeedLimiter.ctor 0).WF ∧ (CSpeedLimiter.ctor 0).sleepTimesIndex ≠ 4294967295
        ∧ ((CSpeedLimiter.ctor 0).hasBeenReset = false ∨ (CSpeedLimiter.ctor 0).StartFPSTime = 0))
      ∧ ∃ r, (CSpeedLimiter.ctor 0).Timer_Process 1000 true = some r
        ∧ r.anchored = true ∧ r.state.StartFPSTime = 1000 ∧ r.state.m_Frames = 0
        ∧ r.sleepTime = 0
        ∧ r.state.sleepTimes
          = (CSpeedLimiter.ctor 0).sleepTimes.set ((CSpeedLimiter.ctor 0).sleepTimesIndex % 3) 0
        ∧ r.state.hasBeenReset = true
        ∧ (1000 ≠ 0 → r.state.needsAnchor = false)
        ∧ (1000 ≠ 0 → 1000 < 2305843009213693952 →
            ∀ (now2 : Nat) (FrameRate2 : Bool), now2 < 2305843009213693952 →
              r.state.sleepTimesIndex ≠ 4294967295 →
              ∃ r2, r.state.Timer_Process now2 FrameRate2 = some r2 ∧ r2.anchored = false) :=
  ⟨⟨ctor_WF 0 (by decide), by decide, Or.inl rfl⟩,
    needs_reset_clears_in_one_tick (CSpeedLimiter.ctor 0) (ctor_WF 0 (by decide)) (by decide)
      1000 true (Or.inl rfl)⟩

/-! ### The difference of the progress counter and `lastFrameRateSet` -/

/-- The rate computed from the 32-bit difference `1 - 61` over an interval of one second. -/
theorem rate_wrapped_difference :
    stdRound (f64 (((4294967236 : Nat) : ℚ) / f64 (f32 ((1000000 : Nat) : ℚ) / 1000000)))
      = 4294967236 := by
  have e1 : f32 ((1000000 : Nat) : ℚ) = 1000000 := by
    have h := f32_natCast 1000000 (by norm_num)
    simpa using h
  have e2 : f64 (4294967236 : ℚ) = 4294967236 := by
    have h := f64_natCast 4294967236 (by norm_num)
    simpa using h
  rw [e1]
  norm_num [f64_one]
  rw [e2]
  norm_num [stdRound]

/-- C18 (the code at the failing input).  After `SetHertz(60)`, an anchoring tick at clock reading
1000 and 61 ticks on schedule, the last of which (at 1017626) reports and sets
`lastFrameRateSet = 61`, the call `SetSpeed(60)` leaves `m_MicroSecondsPerFrame` unchanged and
zeroes `m_Frames`.  The tick one second later, at clock reading 2017626, does not anchor and
computes a rate with `m_Frames = 1 < 61 = lastFrameRateSet`: the unsigned difference wraps to
`4294967236` and that is the rate written. -/
theorem rate_difference_wraps :
    ∃ q rs r,
      run (CSpeedLimiter.ctor 0, [])
          (Op.SetHertz 60 :: ticksEvery 1000 16666 62 ++ [Op.SetSpeed 60]) = some (q, rs)
        ∧ q.m_Frames = 0 ∧ q.lastFrameRateSet = 61 ∧ q.m_LastTime = 1017626
        ∧ q.Timer_Process 2017626 true = some r
        ∧ r.anchored = false ∧ r.reported = true
        ∧ r.state.m_Frames = 1 ∧ ¬ (q.lastFrameRateSet ≤ r.state.m_Frames)
        ∧ r.FrameRate = some 4294967236 := by
  obtain ⟨q0, rs0, hrun, _, hp, _⟩ :=
    run_paced 60 1000 (by norm_num) (by norm_num) (by norm_num) 60 (by norm_num) (by norm_num)
      (by norm_num)
  have e : 1000000 / 60 = 16666 := by norm_num
  rw [e] at hrun
  -- the reporting tick at 1017626
  obtain ⟨r1, hr1, _, _, _, hp1⟩ :=
    hp.tick (by norm_num) (by norm_num) (by norm_num) (by norm_num) true
  obtain ⟨r1', hr1', _, _, _, hl1, hf1⟩ :=
    hp.report (by norm_num) (by norm_num) 1016626 (by norm_num) (by norm_num) (by norm_num)
  have hsame : r1' = r1 := Option.some.inj (hr1'.symm.trans hr1)
  subst hsame
  -- `SetSpeed(60)`
  obtain ⟨q, hq, s1, s2', _, _, _⟩ := SetSpeed_value r1'.state 60 (by norm_num)
  have s1' : q.m_Speed = 60 := by
    have : max (60 : Int) 1 = 60 := by decide
    omega
  have s2 : q.m_MicroSecondsPerFrame = 16666 := by rw [s2', s1']
  obtain ⟨g1, g2, g3, g4, g5, g6, g7⟩ := SetSpeed_fixed _ _ _ hq
  obtain ⟨wq, _, s4⟩ := SetSpeed_WF r1'.state q hp1.wf 60 (by norm_num) hq
  have ha : q.needsAnchor = false :=
    needsAnchor_eq_false q (by rw [g4, hp1.start]; decide) (by rw [g3, hp1.reset])
      (by rw [g5, hp1.lastMspf, s2])
  have hlt : q.m_LastTime = 1017626 := by rw [g6, hl1]
  have hfr : q.lastFrameRateSet = 61 := by rw [g7, hf1]
  -- the tick at 2017626
  obtain ⟨a1, a2, a3, a4⟩ := anchorStep_of_steady q 2017626 ha
  obtain ⟨r, hr, hs, hw, hrep, hrate, _⟩ :=
    Timer_Process_report_spec q wq 2017626 (by norm_num) (by rw [s4, hp1.index]; decide) true
  have hI : (2017626 + 18446744073709551616 - (q.anchorStep 2017626).m_LastTime)
      % 18446744073709551616 = 1000000 := by
    rw [a1, hlt]
  have hf : r.state.m_Frames = 1 := by
    rw [hs.frames, a4, g1]
  have hn : (r.state.m_Frames + 4294967296 - (q.anchorStep 2017626).lastFrameRateSet)
      % 4294967296 = 4294967236 := by
    rw [hf, a2, hfr]
  have hrep2 : r.reported = true := hrep.2 (by rw [hI])
  obtain ⟨e1, _, _⟩ := hrate hrep2
  rw [hI, hn, rate_wrapped_difference] at e1
  refine ⟨q, r1' :: rs0, r, ?_, g1, hfr, hlt, hr, by rw [hs.anchored, ha], hrep2, hf,
    by rw [hfr, hf]; decide, e1⟩
  have hl : Op.SetHertz 60 :: ticksEvery 1000 16666 62 ++ [Op.SetSpeed 60]
      = (Op.SetHertz 60 :: ticksEvery 1000 16666 (60 + 1))
        ++ [Op.Timer_Process 1017626 true, Op.SetSpeed 60] := by
    rw [ticksEvery_succ 1000 16666 61]
    simp
  rw [hl, run_append, hrun]
  simp only [Option.some_bind, run_cons, exec_Timer_Process _ _ _ _ _ hr1,
    exec_SetSpeed _ _ _ _ hq, run_nil]

/-! ### Reports after an anchor -/

/-- A tick made when the clock has not run backwards keeps `m_LastTime` between any earlier lower
bound `T` and the clock reading, and reports only when a second has passed since `T`. -/
theorem Timer_Process_lastTime (p : CSpeedLimiter) (hp : p.WF) (T now : Nat)
    (hT : T ≤ p.m_LastTime) (hc : p.m_LastTime ≤ now) (hnow : now < 2305843009213693952)
    (FrameRate : Bool) (r : TickResult) (h : p.Timer_Process now FrameRate = some r) :
    r.state.WF ∧ T ≤ r.state.m_LastTime ∧ r.state.m_LastTime ≤ now
      ∧ (r.reported = true → T + 1000000 ≤ now) := by
  have hidx := Timer_Process_index_ne p now FrameRate r h
  obtain ⟨r', hr', _, hw, hrep, h1, h2⟩ :=
    Timer_Process_report_spec p hp now hnow hidx FrameRate
  rw [h] at hr'
  simp only [Option.some.injEq] at hr'
  subst hr'
  have hL : T ≤ (p.anchorStep now).m_LastTime ∧ (p.anchorStep now).m_LastTime ≤ now := by
    cases ha : p.needsAnchor with
    | true =>
      rw [(anchorStep_of_anchor p now ha).1]
      omega
    | false =>
      rw [(anchorStep_of_steady p now ha).1]
      exact ⟨hT, hc⟩
  have hI : (now + 18446744073709551616 - (p.anchorStep now).m_LastTime)
      % 18446744073709551616 = now - (p.anchorStep now).m_LastTime := by
    omega
  rw [hI] at hrep
  cases hr : r.reported with
  | true =>
    have := hrep.1 hr
    have := (h1 hr).2.1
    refine ⟨hw, by omega, by omega, fun _ => by omega⟩
  | false =>
    have := (h2 hr).2.1
    exact ⟨hw, by omega, by omega, fun hc => by simp at hc⟩

/-- Along a run in which the clock never runs backwards, made of calls whose arguments are in
range, `m_LastTime` never falls below a lower bound `T` it once had, so a tick that reports is
made at least a second after `T`. -/
theorem run_report_after (T : Nat) (ops : List Op) (s : CSpeedLimiter × List TickResult)
    (c : Nat) (hw : s.1.WF) (hT : T ≤ s.1.m_LastTime) (hc : s.1.m_LastTime ≤ c)
    (now2 : Nat) (FrameRate2 : Bool) (hnow2 : now2 < 2305843009213693952)
    (hclock : clockFrom c (ops ++ [Op.Timer_Process now2 FrameRate2]))
    (hops : ∀ op ∈ ops, op.InRange) (q : CSpeedLimiter) (rs : List TickResult)
    (hrun : run s ops = some (q, rs)) (r2 : TickResult)
    (h2 : q.Timer_Process now2 FrameRate2 = some r2) (hrep : r2.reported = true) :
    T + 1000000 ≤ now2 := by
  induction ops generalizing s c with
  | nil =>
    rw [run_nil] at hrun
    simp only [Option.some.injEq] at hrun
    subst hrun
    simp only [List.nil_append, clockFrom, and_true] at hclock
    simp only at hw hT hc
    exact (Timer_Process_lastTime q hw T now2 hT (by omega) hnow2 FrameRate2 r2 h2).2.2.2 hrep
  | cons op ops ih =>
    rw [run_cons] at hrun
    cases he : exec s op with
    | none => rw [he] at hrun; simp at hrun
    | some s' =>
      rw [he, Option.some_bind] at hrun
      have hop := hops op (List.mem_cons_self _ _)
      have hops' : ∀ o ∈ ops, o.InRange := fun o ho => hops o (List.mem_cons_of_mem _ ho)
      obtain ⟨p, rs0⟩ := s
      simp only at hw hT hc
      cases op with
      | SetHertz R =>
        simp only [exec, Option.map_eq_some'] at he
        obtain ⟨q1, hq1, rfl⟩ := he
        have w := (SetHertz_WF p q1 hw R hop hq1).1
        have e := (SetHertz_fixed p q1 R hq1).2.2.2.2.2.1
        exact ih (q1, rs0) c w (by simp only [e]; exact hT) (by simp only [e]; exact hc)
          hclock hops' hrun
      | SetSpeed v =>
        simp only [exec, Option.map_eq_some'] at he
        obtain ⟨q1, hq1, rfl⟩ := he
        have w := (SetSpeed_WF p q1 hw v hop hq1).1
        have e := (SetSpeed_fixed p q1 v hq1).2.2.2.2.2.1
        exact ih (q1, rs0) c w (by simp only [e]; exact hT) (by simp only [e]; exact hc)
          hclock hops' hrun
      | AlterSpeed d =>
        simp only [exec, Option.map_eq_some'] at he
        obtain ⟨q1, hq1, rfl⟩ := he
        have w := (AlterSpeed_WF p q1 hw d hq1).1
        have e := (AlterSpeed_fixed p q1 d hq1).2.2.2.2.2.1
        exact ih (q1, rs0) c w (by simp only [e]; exact hT) (by simp only [e]; exact hc)
          hclock hops' hrun
      | Timer_Process now fr =>
        simp only [exec, Option.map_eq_some'] at he
        obtain ⟨r1, hr1, rfl⟩ := he
        simp only [List.cons_append, clockFrom] at hclock
        obtain ⟨w, a, b, _⟩ :=
          Timer_Process_lastTime p hw T now hT (by omega) hop fr r1 hr1
        exact ih (r1.state, r1 :: rs0) now w a b hclock.2 hops' hrun

/-- C19.  On every well-formed state, before the tick counter reaches `2 ^ 32 - 1` and for every
clock reading `now`, a tick that anchors is defined, sets `m_LastTime` to `now`, so that its
reporting interval is 0, returns `not reported` and writes nothing to the rate output.  After it
(for `now` below `2 ^ 61`), along every run of in-range calls in which the clock never runs
backwards, however many ticks and rate changes it holds, a tick that reports is made at a clock
reading of at least `now + 1000000`. -/
theorem anchoring_tick_does_not_report (p : CSpeedLimiter) (hp : p.WF)
    (hidx : p.sleepTimesIndex ≠ 4294967295) (now : Nat) (FrameRate : Bool)
    (ha : p.needsAnchor = true) :
    ∃ r, p.Timer_Process now FrameRate = some r
      ∧ r.anchored = true ∧ r.state.m_LastTime = now
      ∧ (now + 18446744073709551616 - (p.anchorStep now).m_LastTime) % 18446744073709551616 = 0
      ∧ r.reported = false ∧ r.FrameRate = none
      ∧ (now < 2305843009213693952 →
          ∀ (ops : List Op) (now2 : Nat) (FrameRate2 : Bool) (q : CSpeedLimiter)
            (rs : List TickResult) (r2 : TickResult),
            (∀ op ∈ ops, op.InRange) → now2 < 2305843009213693952 →
            clockFrom now (ops ++ [Op.Timer_Process now2 FrameRate2]) →
            run (r.state, []) ops = some (q, rs) →
            q.Timer_Process now2 FrameRate2 = some r2 → r2.reported = true →
            now + 1000000 ≤ now2) := by
  have hi := hp.index_lt
  obtain ⟨r, hr, hs, han, _, hrep, hrate, _, _, hlt, _, _⟩ :=
    Timer_Process_anchor_any p hp.base_pos (by omega) hp.s0_bound hp.s1_bound hp.s2_bound now
      FrameRate ha
  refine ⟨r, hr, han, hlt, ?_, hrep, hrate, ?_⟩
  · rw [(anchorStep_of_anchor p now ha).1]
    omega
  · intro hnow ops now2 FrameRate2 q rs r2 hops hnow2 hclock hrun h2 hrep2
    obtain ⟨r', hr', _, hw⟩ := Timer_Process_spec p hp now hnow hidx FrameRate
    rw [hr] at hr'
    simp only [Option.some.injEq] at hr'
    subst hr'
    exact run_report_after now ops (r.state, []) now hw (by simp only [hlt]; exact le_refl _)
      (by simp only [hlt]; exact le_refl _) now2 FrameRate2 hnow2 hclock hops q rs hrun r2 h2
      hrep2

/-- C19 (witness): the first tick of a freshly constructed pacer, at clock reading 1000. -/
theorem anchoring_tick_does_not_report_witness :
    ((CSpeedLimiter.ctor 0).WF ∧ (CSpeedLimiter.ctor 0).sleepTimesIndex ≠ 4294967295
        ∧ (CSpeedLimiter.ctor 0).needsAnchor = true)
      ∧ ∃ r, (CSpeedLimiter.ctor 0).Timer_Process 1000 true = some r
        ∧ r.anchored = true ∧ r.state.m_LastTime = 1000
        ∧ (1000 + 18446744073709551616 - ((CSpeedLimiter.ctor 0).anchorStep 1000).m_LastTime)
            % 18446744073709551616 = 0
        ∧ r.reported = false ∧ r.FrameRate = none
        ∧ (1000 < 2305843009213693952 →
            ∀ (ops : List Op) (now2 : Nat) (FrameRate2 : Bool) (q : CSpeedLimiter)
              (rs : List TickResult) (r2 : TickResult),
              (∀ op ∈ ops, op.InRange) → now2 < 2305843009213693952 →
              clockFrom 1000 (ops ++ [Op.Timer_Process now2 FrameRate2]) →
              run (r.state, []) ops = some (q, rs) →
              q.Timer_Process now2 FrameRate2 = some r2 → r2.reported = true →
              1000 + 1000000 ≤ now2) :=
  ⟨⟨ctor_WF 0 (by decide), by decide, rfl⟩,
    anchoring_tick_does_not_report (CSpeedLimiter.ctor 0) (ctor_WF 0 (by decide)) (by decide)
      1000 true rfl⟩

/-! ### The number of samples averaged -/

/-- A train of ticks at clock readings below `2 ^ 61` is defined as long as the tick counter
stays at or below `2 ^ 32 - 1`. -/
theorem run_ticks_defined (ticks : List Op) (s : CSpeedLimiter × List TickResult)
    (hs : RunInv s)
    (htick : ∀ op ∈ ticks, ∃ now fr, op = Op.Timer_Process now fr ∧ now < 2305843009213693952)
    (hlen : s.2.length + ticks.length ≤ 4294967295) :
    ∃ t, run s ticks = some t ∧ RunInv t ∧ t.2.length = s.2.length + ticks.length := by
  induction ticks generalizing s with
  | nil => exact ⟨s, rfl, hs, rfl⟩
  | cons op ticks ih =>
    obtain ⟨now, fr, rfl, hnow⟩ := htick op (List.mem_cons_self _ _)
    obtain ⟨p, rs⟩ := s
    have hw : p.WF := hs.1
    have hi : p.sleepTimesIndex = rs.length := hs.2.1
    simp only [List.length_cons] at hlen
    obtain ⟨r, hr, _, _⟩ := Timer_Process_spec p hw now hnow (by omega) fr
    have he := exec_Timer_Process p rs now fr r hr
    have hinv := exec_RunInv (p, rs) (r.state, r :: rs) (Op.Timer_Process now fr) hs hnow he
    obtain ⟨t, ht, hti, htl⟩ := ih (r.state, r :: rs) hinv
      (fun o ho => htick o (List.mem_cons_of_mem _ ho))
      (by simp only [List.length_cons]; omega)
    refine ⟨t, ?_, hti, ?_⟩
    · rw [run_cons, he, Option.some_bind]
      exact ht
    · rw [htl]
      simp only [List.length_cons]
      omega

theorem ticksEvery_length (t0 step n : Nat) : (ticksEvery t0 step n).length = n := by
  simp [ticksEvery]

/-- After `SetHertz(60)`, `n` ticks spaced 16666 microseconds apart from clock reading 1000 are
defined for every `n` up to `2 ^ 32 - 1`, and leave the tick counter at `n`. -/
theorem run_many_ticks (n : Nat) (hn : n ≤ 4294967295) :
    ∃ q rs, run (CSpeedLimiter.ctor 0, []) (Op.SetHertz 60 :: ticksEvery 1000 16666 n)
        = some (q, rs)
      ∧ rs.length = n ∧ q.sleepTimesIndex = n := by
  have hpre : run (CSpeedLimiter.ctor 0, []) [Op.SetHertz 60]
      = some ({ CSpeedLimiter.ctor 0 with m_MicroSecondsPerFrame := 16666 }, []) := rfl
  have hinv := run_RunInv [Op.SetHertz 60] _ _ (ctor_RunInv 0 (by decide))
    (fun op h => by
      rw [List.mem_singleton] at h
      subst h
      exact (by decide : (60 : Nat) < 4294967296)) hpre
  obtain ⟨t, ht, hti, htl⟩ := run_ticks_defined (ticksEvery 1000 16666 n) _ hinv
    (fun op hop => by
      simp only [ticksEvery, List.mem_map, List.mem_range] at hop
      obtain ⟨i, hi, rfl⟩ := hop
      exact ⟨_, _, rfl, by omega⟩)
    (by rw [ticksEvery_length]; simpa using hn)
  obtain ⟨q, rs⟩ := t
  rw [ticksEvery_length] at htl
  simp only [List.length_nil, Nat.zero_add] at htl
  refine ⟨q, rs, ?_, htl, by rw [hti.2.1]; exact htl⟩
  have hl : Op.SetHertz 60 :: ticksEvery 1000 16666 n
      = [Op.SetHertz 60] ++ ticksEvery 1000 16666 n := rfl
  rw [hl, run_append, hpre, Option.some_bind]
  exact ht

/-- C20 (the code at the failing input).  After `SetHertz(60)` and `2 ^ 32 - 1` ticks, all of
them defined, the 32-bit write index `sleepTimesIndex` holds `4294967295`.  On the next tick the
increment wraps it to 0, the number of samples averaged is 0, not between 1 and 3, and the mean
is a division by zero: the tick has no defined result, whatever the clock reads. -/
theorem sample_count_wraps_to_zero :
    ∃ q rs,
      run (CSpeedLimiter.ctor 0, []) (Op.SetHertz 60 :: ticksEvery 1000 16666 4294967295)
          = some (q, rs)
        ∧ rs.length = 4294967295 ∧ q.sleepTimesIndex = 4294967295
        ∧ (q.sleepTimesIndex + 1) % 4294967296 = 0
        ∧ (if (q.sleepTimesIndex + 1) % 4294967296 > m_AverageSamples then m_AverageSamples
            else (q.sleepTimesIndex + 1) % 4294967296) = 0
        ∧ ∀ (now : Nat) (FrameRate : Bool), q.Timer_Process now FrameRate = none := by
  obtain ⟨q, rs, hrun, hlen, hi⟩ := run_many_ticks 4294967295 (le_refl _)
  refine ⟨q, rs, hrun, hlen, hi, by rw [hi], by rw [hi]; decide, ?_⟩
  intro now FrameRate
  cases h : q.Timer_Process now FrameRate with
  | none => rfl
  | some r => exact absurd hi (Timer_Process_index_ne q now FrameRate r h)

end Project64
